import Mathlib

/-!
# EMESSYOO playback engine: a shallow embedding

Embedding of `Source/Core/MSUProjectState.{h,cpp}`,
`Source/Audio/AudioPlayer.{h,cpp}`,
`Source/Audio/BeforeAfterPreviewPlayer.{h,cpp}`,
`Source/Audio/PreviewPlayer.{h,cpp}`, `Source/Export/MSU1Exporter.{h,cpp}`
and the MSU-1 PCM loader of `Source/Core/AudioFileHandler.cpp`.

Conventions of the embedding.

* C++ `int` and `int64` values are `Int`; the narrowing conversion
  `static_cast<int>(int64)` is the two's-complement wrap `toInt32`.
* `float` and `double` values are the rationals they denote (`ℚ`; infinities
  and NaN are not modelled), `0.0f` is `0`, and `static_cast<int>(double)`
  is truncation towards zero (`truncToInt`).  The IEEE 754 rounding to
  nearest, ties to even, into a type is `roundFloat` for binary32 and
  `roundDouble` for binary64; a rounded operation is the exact operation
  followed by the rounding into its type (no fused multiply-add, no excess
  precision).
* Rounded in this way are `AudioPlayer::setPosition` and
  `getLengthInSeconds`, the PCM render of `PreviewPlayer`, the sample
  conversion of `MSU1Exporter` and the namespace `Machine`.  The division of
  a 16-bit integer by `32768` is exact in binary32 and carries no rounding.
* The audio callback of `AudioPlayer` is embedded twice.  The section
  `The audio callback` (and, like it, `BeforeAfterPreviewPlayer`) computes
  on unbounded integers and exact rationals: it gives the values of the
  code wherever no `int` operation overflows and no floating-point
  operation rounds, which is how its statements are to be read.  The
  section `The audio callback in machine arithmetic` (namespace `Machine`)
  is the same code with every `int` operation wrapped to 32 bits (what the
  compiled program computes; signed overflow is undefined in C++) and every
  floating-point operation rounded; its functions return the memory
  accesses they make beside their result.
* A channel-major sample block is a function `channel → index → ℚ`; the
  array of output pointers carries a null mask.
* The `while` loop of the pass-through path takes a fuel argument (one unit
  per iteration); the `for` loop of the resampling path is bounded by the
  block size and needs none.
* Files are inputs: a file is its size, its bytes and what the stream
  calls on it return; the host is little-endian.
* Locks, change notifications and file references are not part of the model.
-/

namespace EMESSYOO

/-! ## JUCE helpers -/

/-- JUCE library `juce::jmin (a, b)`, which is `b < a ? b : a`. -/
def jmin {α : Type} [LinearOrder α] (a b : α) : α := if b < a then b else a

/-- JUCE library `juce::jmax (a, b)`, which is `a < b ? b : a`. -/
def jmax {α : Type} [LinearOrder α] (a b : α) : α := if a < b then b else a

/-- JUCE library `juce::jlimit (lower, upper, value)`, which is
`value < lower ? lower : (upper < value ? upper : value)`. -/
def jlimit {α : Type} [LinearOrder α] (lower upper value : α) : α :=
  if value < lower then lower else if upper < value then upper else value

/-- Narrowing conversion `static_cast<int>` of an `int64`: wrap into
`[-2^31, 2^31)`. -/
def toInt32 (x : Int) : Int := (x + 2147483648) % 4294967296 - 2147483648

/-- Conversion `static_cast<int>` of a `double`: truncation towards zero. -/
def truncToInt (q : ℚ) : Int := Int.tdiv q.num (q.den : Int)

/-! ## Floating-point rounding -/

/-- Rounding to the nearest integer, a tie going to the even one. -/
def roundHalfEven (x : ℚ) : Int :=
  if x - ⌊x⌋ < 1 / 2 then ⌊x⌋
  else if 1 / 2 < x - ⌊x⌋ then ⌊x⌋ + 1
  else if ⌊x⌋ % 2 = 0 then ⌊x⌋ else ⌊x⌋ + 1

/-- The exponent `e` of the binade of `x`, `2 ^ e ≤ |x| < 2 ^ (e + 1)`, and
not less than `emin` (below `2 ^ emin` the numbers are subnormal). -/
def binaryExponent (emin : Int) (x : ℚ) : Int := max (Int.log 2 |x|) emin

/-- The unit in the last place of `x` in the binary format with `prec`
bits of significand and least exponent `emin`. -/
def ulp (prec : Nat) (emin : Int) (x : ℚ) : ℚ :=
  2 ^ (binaryExponent emin x - ((prec : Int) - 1))

/-- IEEE 754 rounding to nearest, ties to even, into the binary format with
`prec` bits of significand and least exponent `emin`: the multiple of the
unit in the last place nearest to `x`.  Overflow to infinity is not
modelled. -/
def roundBinary (prec : Nat) (emin : Int) (x : ℚ) : ℚ :=
  roundHalfEven (x / ulp prec emin x) * ulp prec emin x

/-- Rounding into `float` (binary32). -/
def roundFloat (x : ℚ) : ℚ := roundBinary 24 (-126) x

/-- Rounding into `double` (binary64). -/
def roundDouble (x : ℚ) : ℚ := roundBinary 53 (-1022) x

/-- The `double` that `j` executions of `position += step` leave in
`position`. -/
def accumulate (step : ℚ) : Nat → ℚ → ℚ
  | 0, position => position
  | j + 1, position => accumulate step j (roundDouble (position + step))

/-! ## Data model -/

/-- The `juce::AudioBuffer<float>`: sizes and `getSample (channel, index)`. -/
structure AudioBuffer where
  numChannels : Int
  numSamples : Int
  data : Int → Int → ℚ

/-- The empty buffer, `setSize (0, 0)`. -/
def AudioBuffer.empty : AudioBuffer := ⟨0, 0, fun _ _ => 0⟩

/-- Fields of `MSUProjectState` (file references and gain settings omitted). -/
structure MSUProjectState where
  audioBuffer : AudioBuffer
  projectSampleRate : ℚ
  loopStartSample : Int
  loopEndSample : Int
  trimStartSample : Int
  paddingSamples : Int
  padAmountMs : Int
  modified : Bool

namespace MSUProjectState

def getNumSamples (s : MSUProjectState) : Int := s.audioBuffer.numSamples

def getSampleRate (s : MSUProjectState) : ℚ := s.projectSampleRate

def hasAudio (s : MSUProjectState) : Bool := decide (s.audioBuffer.numSamples > 0)

def getLoopStart (s : MSUProjectState) : Int := s.loopStartSample

def getLoopEnd (s : MSUProjectState) : Int := s.loopEndSample

def getTrimStart (s : MSUProjectState) : Int := s.trimStartSample

def getPaddingSamples (s : MSUProjectState) : Int := s.paddingSamples

def hasLoopPoints (s : MSUProjectState) : Bool :=
  decide (s.loopStartSample ≥ 0 ∧ s.loopEndSample > s.loopStartSample)

def getEffectivePlaybackStart (s : MSUProjectState) : Int :=
  if s.paddingSamples > 0 then jmax 0 (s.trimStartSample - s.paddingSamples)
  else s.trimStartSample

def setAudioBuffer (s : MSUProjectState) (newBuffer : AudioBuffer) (sampleRate : ℚ) :
    MSUProjectState :=
  { s with audioBuffer := newBuffer, projectSampleRate := sampleRate, modified := true }

def getLengthInSeconds (s : MSUProjectState) : ℚ :=
  if s.projectSampleRate ≤ 0 ∨ s.audioBuffer.numSamples ≤ 0 then 0
  else roundDouble ((s.audioBuffer.numSamples : ℚ) / s.projectSampleRate)

def setLoopStart (s : MSUProjectState) (samplePosition : Int) : MSUProjectState :=
  let loopStartSample := jlimit 0 (s.audioBuffer.numSamples - 1) samplePosition
  let loopEndSample :=
    if s.loopEndSample ≥ 0 ∧ s.loopEndSample ≤ loopStartSample then
      jmin (loopStartSample + 1) s.audioBuffer.numSamples
    else s.loopEndSample
  { s with loopStartSample := loopStartSample, loopEndSample := loopEndSample,
           modified := true }

def setTrimStart (s : MSUProjectState) (samplePosition : Int) : MSUProjectState :=
  { s with trimStartSample := jlimit 0 s.audioBuffer.numSamples samplePosition,
           modified := true }

def setLoopEnd (s : MSUProjectState) (samplePosition : Int) : MSUProjectState :=
  let loopEndSample := jlimit 0 s.audioBuffer.numSamples samplePosition
  let loopStartSample :=
    if s.loopStartSample ≥ 0 ∧ s.loopStartSample ≥ loopEndSample then
      jmax (loopEndSample - 1) 0
    else s.loopStartSample
  { s with loopStartSample := loopStartSample, loopEndSample := loopEndSample,
           modified := true }

def setPaddingSamples (s : MSUProjectState) (samples : Int) : MSUProjectState :=
  { s with paddingSamples := samples }

def setPadAmountMs (s : MSUProjectState) (milliseconds : Int) : MSUProjectState :=
  let clamped := jlimit 10 5000 milliseconds
  if s.padAmountMs = clamped then s else { s with padAmountMs := clamped }

def setModified (s : MSUProjectState) (isModified : Bool) : MSUProjectState :=
  { s with modified := isModified }

/-- The default member initialisers: the freshly constructed state. -/
def init : MSUProjectState :=
  { audioBuffer := AudioBuffer.empty
    projectSampleRate := 44100
    loopStartSample := -1
    loopEndSample := -1
    trimStartSample := 0
    paddingSamples := 0
    padAmountMs := 200
    modified := false }

/-- The method `reset ()` assigns the same values as the initialisers. -/
def reset (_s : MSUProjectState) : MSUProjectState := init

end MSUProjectState

/-- Fields of `AudioPlayer`; `projectState = none` is the null pointer. -/
structure AudioPlayer where
  projectState : Option MSUProjectState
  playing : Bool
  looping : Bool
  currentPosition : ℚ
  currentSample : Int
  fractionalSample : ℚ
  deviceSampleRate : ℚ
  resamplingRatio : ℚ
  resamplingActive : Bool

/-- The constant `sampleRateToleranceHz`. -/
def sampleRateToleranceHz : ℚ := 1 / 10

namespace AudioPlayer

def play (p : AudioPlayer) : AudioPlayer := { p with playing := true }

def pause (p : AudioPlayer) : AudioPlayer := { p with playing := false }

def stop (p : AudioPlayer) : AudioPlayer :=
  { p with playing := false, currentPosition := 0, currentSample := 0,
           fractionalSample := 0 }

def isPlaying (p : AudioPlayer) : Bool := p.playing

def setLooping (p : AudioPlayer) (shouldLoop : Bool) : AudioPlayer :=
  { p with looping := shouldLoop }

def getPosition (p : AudioPlayer) : ℚ := p.currentPosition

def setPosition (p : AudioPlayer) (seconds : ℚ) : AudioPlayer :=
  match p.projectState with
  | none => p
  | some ps =>
    let currentPosition := jlimit 0 ps.getLengthInSeconds seconds
    let currentSample := truncToInt (roundDouble (currentPosition * ps.getSampleRate))
    { p with currentPosition := currentPosition, currentSample := currentSample,
             fractionalSample := (currentSample : ℚ) }

def updateResamplingState (p : AudioPlayer) : AudioPlayer :=
  match p.projectState with
  | none =>
    { p with resamplingActive := false, resamplingRatio := 1,
             fractionalSample := (p.currentSample : ℚ) }
  | some ps =>
    if !ps.hasAudio then
      { p with resamplingActive := false, resamplingRatio := 1,
               fractionalSample := (p.currentSample : ℚ) }
    else
      let sourceRate := ps.getSampleRate
      if sourceRate ≤ 0 ∨ p.deviceSampleRate ≤ 0 then
        { p with resamplingActive := false, resamplingRatio := 1 }
      else
        let active : Bool := decide (|sourceRate - p.deviceSampleRate| > sampleRateToleranceHz)
        { p with resamplingActive := active,
                 resamplingRatio := if active then sourceRate / p.deviceSampleRate else 1,
                 fractionalSample := (p.currentSample : ℚ) }

def setProjectState (p : AudioPlayer) (state : Option MSUProjectState) : AudioPlayer :=
  updateResamplingState (stop { p with projectState := state })

/-- The device hook `audioDeviceAboutToStart`; `device` is the current
sample rate of the device, `none` for a null device. -/
def audioDeviceAboutToStart (p : AudioPlayer) (device : Option ℚ) : AudioPlayer :=
  match device with
  | none => { p with deviceSampleRate := 0, resamplingActive := false }
  | some rate =>
    updateResamplingState
      { p with deviceSampleRate := rate, fractionalSample := (p.currentSample : ℚ) }

def audioDeviceStopped (p : AudioPlayer) : AudioPlayer :=
  { p with deviceSampleRate := 0, resamplingActive := false }

/-- The listener `changeListenerCallback`, for a change broadcast by the
attached project (`source == projectState`). -/
def changeListenerCallback (p : AudioPlayer) : AudioPlayer :=
  match p.projectState with
  | none => p
  | some ps =>
    if !ps.hasAudio then updateResamplingState p.stop
    else
      let totalSamples := ps.getNumSamples
      let currentSample := if p.currentSample ≥ totalSamples then 0 else p.currentSample
      updateResamplingState
        { p with currentSample := currentSample, fractionalSample := (currentSample : ℚ) }

end AudioPlayer

/-! ## The audio callback

On unbounded integers and exact rationals. -/

/-- The array `outputChannelData`: which pointers are null, and the samples
behind the others. -/
structure OutputChannels where
  isNull : Int → Bool
  samples : Int → Int → ℚ

/-- `FloatVectorOperations::clear (outputChannelData[ch] + start, count)` for
every non-null channel `ch < chLimit`. -/
def OutputChannels.clearRange (out : OutputChannels) (chLimit start count : Int) :
    OutputChannels :=
  { out with samples := fun ch i =>
      if 0 ≤ ch ∧ ch < chLimit ∧ out.isNull ch = false ∧ start ≤ i ∧ i < start + count then 0
      else out.samples ch i }

/-- `FloatVectorOperations::copy (outputChannelData[ch] + start,
buffer.getReadPointer (ch, bufferPos), count)` for every non-null channel
`ch < chLimit`. -/
def OutputChannels.copyRange (out : OutputChannels) (chLimit start : Int)
    (buffer : AudioBuffer) (bufferPos count : Int) : OutputChannels :=
  { out with samples := fun ch i =>
      if 0 ≤ ch ∧ ch < chLimit ∧ out.isNull ch = false ∧ start ≤ i ∧ i < start + count then
        buffer.data ch (bufferPos + (i - start))
      else out.samples ch i }

/-- The assignment `outputChannelData[ch][i] = value ch` for every non-null
channel `ch < chLimit`. -/
def OutputChannels.writeFrame (out : OutputChannels) (chLimit i : Int)
    (value : Int → ℚ) : OutputChannels :=
  { out with samples := fun ch j =>
      if 0 ≤ ch ∧ ch < chLimit ∧ out.isNull ch = false ∧ j = i then value ch
      else out.samples ch j }

/-- The lambda `clearOutput (startSample)` of the callback. -/
def clearOutput (numOutputChannels numSamples : Int) (out : OutputChannels)
    (startSample : Int) : OutputChannels :=
  if startSample ≥ numSamples then out
  else out.clearRange numOutputChannels startSample (numSamples - startSample)

/-- The locals of one callback that stay fixed during its loops. -/
structure RenderCtx where
  numOutputChannels : Int
  numSamples : Int
  buffer : AudioBuffer
  totalSamples : Int
  sourceSampleRate : ℚ
  resamplingRatio : ℚ
  paddingSamples : Int
  effectiveStart : Int
  hasLoop : Bool
  loopStart : Int
  loopEnd : Int
  effectiveLength : Int
  channelCount : Int

/-- The locals computed between the early returns and the two paths. -/
def RenderCtx.make (p : AudioPlayer) (ps : MSUProjectState)
    (numOutputChannels numSamples : Int) : RenderCtx :=
  let buffer := ps.audioBuffer
  let totalSamples := buffer.numSamples
  let paddingSamples := ps.getPaddingSamples
  let effectiveStart := ps.getEffectivePlaybackStart
  let hasLoop := p.looping && ps.hasLoopPoints
  let loopStart := if hasLoop then toInt32 (ps.getLoopStart - effectiveStart) else 0
  let loopEnd := if hasLoop then toInt32 (ps.getLoopEnd - effectiveStart) else totalSamples
  let effectiveLength0 := totalSamples - toInt32 effectiveStart
  let effectiveLength :=
    if paddingSamples > 0 then effectiveLength0 + toInt32 paddingSamples else effectiveLength0
  { numOutputChannels := numOutputChannels
    numSamples := numSamples
    buffer := buffer
    totalSamples := totalSamples
    sourceSampleRate := ps.getSampleRate
    resamplingRatio := p.resamplingRatio
    paddingSamples := paddingSamples
    effectiveStart := effectiveStart
    hasLoop := hasLoop
    loopStart := loopStart
    loopEnd := loopEnd
    effectiveLength := effectiveLength
    channelCount := jmin numOutputChannels buffer.numChannels }

/-- The variables the pass-through `while` loop changes.  The list
`wrapFrames` is instrumentation: it records the value of `samplesWritten`
at every execution of `currentSample = loopStart`. -/
structure PassState where
  currentSample : Int
  samplesWritten : Int
  playing : Bool
  out : OutputChannels
  wrapFrames : List Int

/-- Pass-through loop body from the computation of `samplesToWrite` on.
The flag is `true` when the iteration leaves the loop by `break`. -/
def passWrite (c : RenderCtx) (s : PassState) : PassState × Bool :=
  let samplesToWrite :=
    jmin (c.numSamples - s.samplesWritten)
      (if c.hasLoop then jmax 0 (c.loopEnd - s.currentSample)
       else jmax 0 (c.effectiveLength - s.currentSample))
  if samplesToWrite ≤ 0 then
    if c.hasLoop then
      ({ s with currentSample := c.loopStart,
                wrapFrames := s.wrapFrames ++ [s.samplesWritten] }, false)
    else
      ({ s with playing := false,
                out := clearOutput c.numOutputChannels c.numSamples s.out s.samplesWritten },
       true)
  else if c.paddingSamples > 0 ∧ s.currentSample < c.paddingSamples then
    let paddingSamplesToWrite :=
      jmin samplesToWrite (toInt32 c.paddingSamples - s.currentSample)
    ({ s with out := s.out.clearRange c.channelCount s.samplesWritten paddingSamplesToWrite,
              currentSample := s.currentSample + paddingSamplesToWrite,
              samplesWritten := s.samplesWritten + paddingSamplesToWrite }, false)
  else
    let bufferPos :=
      jlimit 0 (c.totalSamples - 1)
        (toInt32 c.effectiveStart + s.currentSample - toInt32 c.paddingSamples)
    let bufferSamplesToWrite := jmin samplesToWrite (c.totalSamples - bufferPos)
    ({ s with out := s.out.copyRange c.channelCount s.samplesWritten c.buffer bufferPos
                       bufferSamplesToWrite,
              currentSample := s.currentSample + bufferSamplesToWrite,
              samplesWritten := s.samplesWritten + bufferSamplesToWrite }, false)

/-- One iteration of the pass-through loop body. -/
def passBody (c : RenderCtx) (s : PassState) : PassState × Bool :=
  if s.currentSample ≥ c.effectiveLength ∨ (c.hasLoop = true ∧ s.currentSample ≥ c.loopEnd) then
    if c.hasLoop then
      passWrite c { s with currentSample := c.loopStart,
                           wrapFrames := s.wrapFrames ++ [s.samplesWritten] }
    else
      ({ s with playing := false,
                out := clearOutput c.numOutputChannels c.numSamples s.out s.samplesWritten },
       true)
  else passWrite c s

/-- The loop `while (samplesWritten < numSamples)`; `none` when the fuel is
used up before the loop is left. -/
def passLoop (c : RenderCtx) : Nat → PassState → Option PassState
  | 0, s => if s.samplesWritten < c.numSamples then none else some s
  | fuel + 1, s =>
    if s.samplesWritten < c.numSamples then
      match passBody c s with
      | (s', true) => some s'
      | (s', false) => passLoop c fuel s'
    else some s

/-- The variables the resampling `for` loop changes, with the same
instrumentation as `PassState` (the frame index `i` at every wrap). -/
structure ResampleState where
  sourcePos : ℚ
  playing : Bool
  out : OutputChannels
  wrapFrames : List Int

/-- How one iteration of the resampling loop ends: it goes on to the next
frame, or it is the early `return` with the value of `sourceIndex`. -/
inductive ResampleStep where
  | next (s : ResampleState)
  | returned (s : ResampleState) (sourceIndex : Int)

/-- Resampling loop body from the padding test on, for frame `i`. -/
def resampleWrite (c : RenderCtx) (i : Int) (s : ResampleState) (sourceIndex : Int) :
    ResampleState :=
  let out :=
    if c.paddingSamples > 0 ∧ sourceIndex < c.paddingSamples then
      s.out.writeFrame c.channelCount i (fun _ => 0)
    else
      let bufferPos0 :=
        jlimit 0 (c.totalSamples - 1)
          (toInt32 c.effectiveStart + sourceIndex - toInt32 c.paddingSamples)
      let nextPos := jmin (bufferPos0 + 1) (c.totalSamples - 1)
      let fraction := s.sourcePos - (sourceIndex : ℚ)
      s.out.writeFrame c.channelCount i (fun channel =>
        let sample1 := c.buffer.data channel bufferPos0
        let sample2 := c.buffer.data channel nextPos
        sample1 + fraction * (sample2 - sample1))
  { s with out := out, sourcePos := s.sourcePos + c.resamplingRatio }

/-- One iteration of the resampling loop body, for frame `i`. -/
def resampleBody (c : RenderCtx) (i : Int) (s : ResampleState) : ResampleStep :=
  let sourceIndex := truncToInt s.sourcePos
  if sourceIndex ≥ c.effectiveLength ∨ (c.hasLoop = true ∧ sourceIndex ≥ c.loopEnd) then
    if c.hasLoop then
      .next (resampleWrite c i
        { s with sourcePos := (c.loopStart : ℚ), wrapFrames := s.wrapFrames ++ [i] }
        c.loopStart)
    else
      .returned
        { s with playing := false,
                 out := clearOutput c.numOutputChannels c.numSamples s.out i }
        sourceIndex
  else .next (resampleWrite c i s sourceIndex)

/-- The loop `for (int i = 0; i < numSamples; ++i)`, with `remaining`
iterations to go from frame `i`. -/
def resampleLoop (c : RenderCtx) : Nat → Int → ResampleState → ResampleStep
  | 0, _, s => .next s
  | remaining + 1, i, s =>
    match resampleBody c i s with
    | .next s' => resampleLoop c remaining (i + 1) s'
    | .returned s' sourceIndex => .returned s' sourceIndex

/-- What one callback leaves behind: the engine, the output block and the
frames at which it wrapped to the loop start. -/
structure RenderResult where
  player : AudioPlayer
  out : OutputChannels
  wrapFrames : List Int

namespace AudioPlayer

/-- The resampling branch of the callback. -/
def renderResampled (c : RenderCtx) (p : AudioPlayer) (out : OutputChannels) : RenderResult :=
  match resampleLoop c c.numSamples.toNat 0
      { sourcePos := p.fractionalSample, playing := p.playing, out := out, wrapFrames := [] } with
  | .returned s sourceIndex =>
    let currentSample := jlimit 0 c.effectiveLength sourceIndex
    { player := { p with playing := s.playing, fractionalSample := s.sourcePos,
                         currentSample := currentSample,
                         currentPosition := (currentSample : ℚ) / c.sourceSampleRate }
      out := s.out
      wrapFrames := s.wrapFrames }
  | .next s =>
    let fractionalSample := s.sourcePos
    { player := { p with playing := s.playing, fractionalSample := fractionalSample,
                         currentSample := jlimit 0 c.effectiveLength (truncToInt fractionalSample),
                         currentPosition := fractionalSample / c.sourceSampleRate }
      out := s.out
      wrapFrames := s.wrapFrames }

/-- The end of the pass-through branch: the loop variables are written back
and the two positions are recomputed from the cursor. -/
def finishPassThrough (c : RenderCtx) (p : AudioPlayer) (s : PassState) : RenderResult :=
  { player := { p with playing := s.playing, currentSample := s.currentSample,
                       fractionalSample := (s.currentSample : ℚ),
                       currentPosition := (s.currentSample : ℚ) / c.sourceSampleRate }
    out := s.out
    wrapFrames := s.wrapFrames }

/-- The pass-through branch of the callback. -/
def renderPassThrough (fuel : Nat) (c : RenderCtx) (p : AudioPlayer) (out : OutputChannels) :
    Option RenderResult :=
  (passLoop c fuel
      { currentSample := p.currentSample, samplesWritten := 0, playing := p.playing,
        out := out, wrapFrames := [] }).map (finishPassThrough c p)

/-- The method `audioDeviceIOCallbackWithContext`, on the output pointers
`out`; `none` when the pass-through loop does not finish within `fuel`
iterations. -/
def audioDeviceIOCallbackWithContext (fuel : Nat) (p : AudioPlayer) (out : OutputChannels)
    (numOutputChannels numSamples : Int) : Option RenderResult :=
  let out0 := clearOutput numOutputChannels numSamples out 0
  match p.projectState with
  | none => some { player := p, out := out0, wrapFrames := [] }
  | some ps =>
    if !p.playing || !ps.hasAudio then some { player := p, out := out0, wrapFrames := [] }
    else if ps.getSampleRate ≤ 0 ∨ p.deviceSampleRate ≤ 0 ∨ ps.audioBuffer.numSamples ≤ 0 then
      some { player := p, out := out0, wrapFrames := [] }
    else
      let p1 := p.updateResamplingState
      let c := RenderCtx.make p1 ps numOutputChannels numSamples
      if p1.resamplingActive then some (renderResampled c p1 out0)
      else renderPassThrough fuel c p1 out0

end AudioPlayer

/-! ## Sequences of setter calls -/

/-- A call of one of the two loop-point setters. -/
inductive LoopCall where
  | setLoopStart (samplePosition : Int)
  | setLoopEnd (samplePosition : Int)

/-- The state after the setter calls, made in order. -/
def MSUProjectState.applyLoopCalls (s : MSUProjectState) : List LoopCall → MSUProjectState
  | [] => s
  | .setLoopStart x :: rest => (s.setLoopStart x).applyLoopCalls rest
  | .setLoopEnd x :: rest => (s.setLoopEnd x).applyLoopCalls rest

def MSUProjectState.hasPadding (s : MSUProjectState) : Bool := decide (s.paddingSamples > 0)

/-- A call of one of the public mutators of `MSUProjectState` that touch the
buffer or the timeline. -/
inductive Mutator where
  | setAudioBuffer (newBuffer : AudioBuffer) (sampleRate : ℚ)
  | setTrimStart (samplePosition : Int)
  | setLoopStart (samplePosition : Int)
  | setLoopEnd (samplePosition : Int)
  | setPaddingSamples (samples : Int)
  | reset

/-- The state after one mutator call. -/
def Mutator.apply (s : MSUProjectState) : Mutator → MSUProjectState
  | .setAudioBuffer newBuffer sampleRate => s.setAudioBuffer newBuffer sampleRate
  | .setTrimStart x => s.setTrimStart x
  | .setLoopStart x => s.setLoopStart x
  | .setLoopEnd x => s.setLoopEnd x
  | .setPaddingSamples x => s.setPaddingSamples x
  | .reset => s.reset

/-- The state after the mutator calls, made in order. -/
def MSUProjectState.applyMutators (s : MSUProjectState) : List Mutator → MSUProjectState
  | [] => s
  | m :: rest => (m.apply s).applyMutators rest

/-- A buffer handed to `setAudioBuffer` has a sample count `≥ 0`, as every
`juce::AudioBuffer` has; the other calls take any argument. -/
def Mutator.wellFormed : Mutator → Bool
  | .setAudioBuffer newBuffer _ => decide (0 ≤ newBuffer.numSamples)
  | _ => true

/-- No `setAudioBuffer` among the calls installs a buffer shorter than the
trim start stored at that moment. -/
def MSUProjectState.keepsTrim (s : MSUProjectState) : List Mutator → Bool
  | [] => true
  | .setAudioBuffer newBuffer sampleRate :: rest =>
    decide (s.trimStartSample ≤ newBuffer.numSamples) &&
      (s.setAudioBuffer newBuffer sampleRate).keepsTrim rest
  | m :: rest => (m.apply s).keepsTrim rest


/-! ## The before/after preview player

Embedding of `Source/Audio/BeforeAfterPreviewPlayer.{h,cpp}`.  The two
borrowed buffer pointers are `Option AudioBuffer`, `none` for null. -/

/-- The enum `BeforeAfterPreviewPlayer::Target`. -/
inductive BeforeAfterPreviewPlayer.Target where
  | Before
  | After
  deriving DecidableEq

/-- Fields of `BeforeAfterPreviewPlayer`. -/
structure BeforeAfterPreviewPlayer where
  beforeBuffer : Option AudioBuffer
  afterBuffer : Option AudioBuffer
  sourceSampleRate : ℚ
  deviceSampleRate : ℚ
  playbackIncrement : ℚ
  playing : Bool
  currentSample : ℚ
  activeTarget : BeforeAfterPreviewPlayer.Target

namespace BeforeAfterPreviewPlayer

/-- The constant `fallbackSampleRate`. -/
def fallbackSampleRate : ℚ := 44100

def getBufferFor (p : BeforeAfterPreviewPlayer) (target : Target) : Option AudioBuffer :=
  match target with
  | .Before => p.beforeBuffer
  | .After => p.afterBuffer

def bufferHasContent (buffer : Option AudioBuffer) : Bool :=
  match buffer with
  | none => false
  | some b => decide (b.numSamples > 0) && decide (b.numChannels > 0)

def updatePlaybackIncrement (p : BeforeAfterPreviewPlayer) : BeforeAfterPreviewPlayer :=
  let deviceSampleRate := if p.deviceSampleRate ≤ 0 then fallbackSampleRate else p.deviceSampleRate
  let playbackIncrement :=
    if p.sourceSampleRate ≤ 0 then 1 else p.sourceSampleRate / deviceSampleRate
  { p with deviceSampleRate := deviceSampleRate,
           playbackIncrement := if playbackIncrement ≤ 0 then 1 else playbackIncrement }

/-- The freshly constructed player: the member initialisers, then
`updatePlaybackIncrement ()`. -/
def init : BeforeAfterPreviewPlayer :=
  updatePlaybackIncrement
    { beforeBuffer := none
      afterBuffer := none
      sourceSampleRate := 44100
      deviceSampleRate := 44100
      playbackIncrement := 1
      playing := false
      currentSample := 0
      activeTarget := .Before }

def setSourceBuffers (p : BeforeAfterPreviewPlayer) (before after : Option AudioBuffer)
    (bufferSampleRate : ℚ) : BeforeAfterPreviewPlayer :=
  updatePlaybackIncrement
    { p with beforeBuffer := before, afterBuffer := after,
             sourceSampleRate := if bufferSampleRate > 0 then bufferSampleRate
                                 else fallbackSampleRate,
             currentSample := 0, playing := false }

def play (p : BeforeAfterPreviewPlayer) (target : Target) (restartPlayback : Bool) :
    BeforeAfterPreviewPlayer :=
  match p.getBufferFor target with
  | none => p
  | some buffer =>
    if !bufferHasContent (some buffer) then p
    else if p.playing && !restartPlayback then
      { p with activeTarget := target,
               currentSample := jlimit 0 (buffer.numSamples : ℚ) p.currentSample }
    else
      { p with activeTarget := target, currentSample := 0, playing := true }

def stop (p : BeforeAfterPreviewPlayer) : BeforeAfterPreviewPlayer :=
  { p with playing := false, currentSample := 0 }

def isPlaying (p : BeforeAfterPreviewPlayer) : Bool := p.playing

def hasContent (p : BeforeAfterPreviewPlayer) (target : Target) : Bool :=
  bufferHasContent (p.getBufferFor target)

def getActiveTarget (p : BeforeAfterPreviewPlayer) : Target := p.activeTarget

/-- The method `getPlaybackProgress`: the return value, `currentSeconds` and
`totalSeconds`. -/
def getPlaybackProgress (p : BeforeAfterPreviewPlayer) : Bool × ℚ × ℚ :=
  match p.getBufferFor p.activeTarget with
  | none => (false, 0, 0)
  | some buffer =>
    if !p.playing || !bufferHasContent (some buffer) || decide (p.sourceSampleRate ≤ 0) then
      (false, 0, 0)
    else
      let totalSeconds := (buffer.numSamples : ℚ) / p.sourceSampleRate
      let currentSeconds := p.currentSample / p.sourceSampleRate
      (decide (totalSeconds > 0), currentSeconds, totalSeconds)

/-- The method `writeSilence`: it clears `numSamples` frames from the start
of every non-null output channel. -/
def writeSilence (out : OutputChannels) (numOutputChannels numSamples : Int) :
    OutputChannels :=
  out.clearRange numOutputChannels 0 numSamples

/-- The variables the render loop changes. -/
structure LoopState where
  position : ℚ
  playing : Bool
  out : OutputChannels

/-- One iteration of the render loop, for frame `sample`.  The flag is
`true` when the iteration leaves the loop by `break`. -/
def renderBody (p : BeforeAfterPreviewPlayer) (buffer : AudioBuffer)
    (numOutputChannels numSamples sample : Int) (s : LoopState) : LoopState × Bool :=
  let totalSamples := buffer.numSamples
  let channels := jmax 1 buffer.numChannels
  let index := truncToInt s.position
  if index ≥ totalSamples then
    ({ s with playing := false,
              out := writeSilence s.out numOutputChannels (numSamples - sample) }, true)
  else
    let nextIndex := jmin (index + 1) (totalSamples - 1)
    let fraction := s.position - (index : ℚ)
    ({ s with out := s.out.writeFrame numOutputChannels sample (fun ch =>
                let sourceChannel := Int.tmod ch channels
                let sampleA := buffer.data sourceChannel index
                let sampleB := buffer.data sourceChannel nextIndex
                sampleA + fraction * (sampleB - sampleA)),
              position := s.position + p.playbackIncrement }, false)

/-- The loop `for (int sample = 0; sample < numSamples; ++sample)`, with
`remaining` iterations to go from frame `sample`. -/
def renderLoop (p : BeforeAfterPreviewPlayer) (buffer : AudioBuffer)
    (numOutputChannels numSamples : Int) : Nat → Int → LoopState → LoopState
  | 0, _, s => s
  | remaining + 1, sample, s =>
    match renderBody p buffer numOutputChannels numSamples sample s with
    | (s', true) => s'
    | (s', false) => renderLoop p buffer numOutputChannels numSamples remaining (sample + 1) s'

/-- The method `audioDeviceIOCallbackWithContext`: the player and the output
block after the call. -/
def audioDeviceIOCallbackWithContext (p : BeforeAfterPreviewPlayer) (out : OutputChannels)
    (numOutputChannels numSamples : Int) : BeforeAfterPreviewPlayer × OutputChannels :=
  match p.getBufferFor p.activeTarget with
  | none => ({ p with playing := false }, writeSilence out numOutputChannels numSamples)
  | some buffer =>
    if !p.playing || !bufferHasContent (some buffer) then
      ({ p with playing := false }, writeSilence out numOutputChannels numSamples)
    else
      let s := renderLoop p buffer numOutputChannels numSamples numSamples.toNat 0
        { position := p.currentSample, playing := p.playing, out := out }
      ({ p with playing := s.playing,
                currentSample := if !s.playing then 0 else s.position }, s.out)

/-- The device hook `audioDeviceAboutToStart`; `device` is the current
sample rate of the device, `none` for a null device. -/
def audioDeviceAboutToStart (p : BeforeAfterPreviewPlayer) (device : Option ℚ) :
    BeforeAfterPreviewPlayer :=
  updatePlaybackIncrement
    { p with deviceSampleRate :=
        match device with
        | some rate => if rate > 0 then rate else fallbackSampleRate
        | none => fallbackSampleRate }

def audioDeviceStopped (p : BeforeAfterPreviewPlayer) : BeforeAfterPreviewPlayer :=
  updatePlaybackIncrement { p with deviceSampleRate := fallbackSampleRate }

end BeforeAfterPreviewPlayer



/-! ## MSU-1 PCM files: `MSU1Exporter` and `AudioFileHandler`

Bytes are natural numbers below 256.  The host is little-endian, so
`ByteOrder::swapIfBigEndian` is the identity and an `int16_t` read through a
pointer into raw bytes has its low byte first. -/

/-- Conversion to `int16_t`: wrap into `[-2^15, 2^15)`. -/
def toInt16 (x : Int) : Int := (x + 32768) % 65536 - 32768

namespace MSU1Exporter

/-- The local `int16Sample` of `exportPCM` for one `sample` of the buffer:
`jlimit (-1.0f, 1.0f, sample)`, then `static_cast<int16_t> (sample * 32767.0f)`,
the product being a `float`. -/
def int16Sample (sample : ℚ) : Int :=
  let sample := jlimit (-1) 1 sample
  truncToInt (roundFloat (sample * 32767))

/-- The static helper `convertFloatToInt16`, on the array `floatData`. -/
def convertFloatToInt16 (floatData : List ℚ) : List Int :=
  floatData.map (fun x => truncToInt (roundFloat (jlimit (-1) 1 x * 32767)))

end MSU1Exporter

/-- A `juce::FileInputStream` on a file: whether it opened, the length of
the file, its bytes, and what `read` returns (the count of bytes read) for a
request of `maxBytesToRead` bytes at offset `pos`. -/
structure FileInputStream where
  openedOk : Bool
  totalLength : Int
  byte : Int → Nat
  readCount : Int → Int → Int

/-- The `int16_t` stored at byte `offset` of the stream. -/
def FileInputStream.int16At (f : FileInputStream) (offset : Int) : Int :=
  toInt16 ((f.byte offset : Int) + 256 * (f.byte (offset + 1) : Int))

/-- JUCE library `FileInputStream::read (dest, maxBytesToRead)` at offset
`pos`: both the request and the result are `int`. -/
def FileInputStream.read (f : FileInputStream) (pos maxBytesToRead : Int) : Int :=
  toInt32 (f.readCount pos (toInt32 maxBytesToRead))

/-- A stream that gives every byte it is asked for: a request of `n` bytes
inside the file reads `n` bytes. -/
def FileInputStream.readsInFull (f : FileInputStream) : Prop :=
  ∀ pos n : Int, 0 ≤ pos → 0 ≤ n → pos + n ≤ f.totalLength → f.readCount pos n = n

/-- The reference parameters of the loaders after the call, with the
returned flag. -/
structure LoadResult where
  ok : Bool
  buffer : AudioBuffer
  sampleRate : ℚ
  loopPoint : Int

namespace AudioFileHandler

/-- The conversion `int16Data[...] / 32768.0f` of `loadMSU1PCMFile`. -/
def int16ToFloat (value : Int) : ℚ := (value : ℚ) / 32768

/-- The branch of `getAudioFileInfo` for the extension `.pcm`, on a file of
`fileSize` bytes: `sampleRate`, `numChannels` and `lengthInSamples`, or
`none` for the return value `false`. -/
def getAudioFileInfo (fileSize : Int) : Option (ℚ × Int × Int) :=
  if fileSize < 8 then none
  else some (44100, 2, Int.tdiv (fileSize - 8) 4)

/-- The method `loadMSU1PCMFile` (with a non-null `loopPoint`).  The sample
contents of a buffer that was only resized are not specified, here 0. -/
def loadMSU1PCMFile (inputStream : FileInputStream) (buffer : AudioBuffer)
    (sampleRate : ℚ) (loopPoint : Int) : LoadResult :=
  if !inputStream.openedOk then ⟨false, buffer, sampleRate, loopPoint⟩
  else if inputStream.read 0 4 ≠ 4 then ⟨false, buffer, sampleRate, loopPoint⟩
  else if [inputStream.byte 0, inputStream.byte 1, inputStream.byte 2, inputStream.byte 3]
      ≠ [77, 83, 85, 49] then
    ⟨false, buffer, sampleRate, loopPoint⟩
  else if inputStream.read 4 4 ≠ 4 then ⟨false, buffer, sampleRate, loopPoint⟩
  else
    let loopPointValue : Int :=
      (inputStream.byte 4 : Int) + 256 * (inputStream.byte 5 : Int)
        + 65536 * (inputStream.byte 6 : Int) + 16777216 * (inputStream.byte 7 : Int)
    let remainingBytes := inputStream.totalLength - 8
    let numSamples64 := Int.tdiv remainingBytes 4
    if numSamples64 ≤ 0 then ⟨false, buffer, sampleRate, loopPointValue⟩
    else if numSamples64 > 2147483647 then ⟨false, buffer, sampleRate, loopPointValue⟩
    else
      let numSamples := toInt32 numSamples64
      let bytesRead := inputStream.read 8 (numSamples * 4)
      if bytesRead ≠ numSamples * 4 then
        ⟨false, ⟨2, numSamples, fun _ _ => 0⟩, 44100, loopPointValue⟩
      else
        ⟨true,
         ⟨2, numSamples, fun channel i =>
            if channel = 0 then int16ToFloat (inputStream.int16At (8 + (i * 2) * 2))
            else if channel = 1 then int16ToFloat (inputStream.int16At (8 + (i * 2 + 1) * 2))
            else 0⟩,
         44100, loopPointValue⟩

end AudioFileHandler


/-! ## The file-browser preview: `PreviewPlayer`

The JUCE reader and resampling sources of the standard-format path are kept
only as far as the player itself inspects them; a callback that pulls audio
through them is outside the model (`none`). -/

/-- What the player uses of a `juce::AudioFormatReader`. -/
structure AudioFormatReader where
  sampleRate : ℚ
  numChannels : Int
  lengthInSamples : Int

/-- What the player sets on its `juce::ResamplingAudioSource`: the ratio
(1.0 after construction) and whether `prepareToPlay` was called. -/
structure ResamplingAudioSource where
  ratio : ℚ
  prepared : Bool

/-- What `refreshDeviceSampleRate` asks of the `juce::AudioDeviceManager`:
the sample rate of the device setup and that of the current device, if any. -/
structure AudioDeviceManager where
  setupSampleRate : ℚ
  currentDeviceSampleRate : Option ℚ

/-- What `loadAndPlay` asks of its file: the file system and the decoder are
inputs.  The field `loopFile` is the companion `.pcm.loop` file when it
exists and opens: the bytes remaining and the value `readInt ()` gives. -/
structure PreviewFile where
  existsAsFile : Bool
  hasPcmExtension : Bool
  loopFile : Option (Int × Int)
  pcmStream : FileInputStream
  createReader : Option AudioFormatReader

/-- Fields of `PreviewPlayer`; `none` is the null pointer.  The member
`pcmInputStream` is never assigned and is left out. -/
structure PreviewPlayer where
  readerSource : Option AudioFormatReader
  resamplingSource : Option ResamplingAudioSource
  currentReader : Option AudioFormatReader
  pcmBuffer : AudioBuffer
  pcmPosition : Int
  pcmFractionalPosition : ℚ
  pcmLoopPoint : Int
  pcmTotalSamples : Int
  isPCMFile : Bool
  playing : Bool
  deviceSampleRate : ℚ
  audioDeviceManager : Option AudioDeviceManager

namespace PreviewPlayer

/-- The constant `pcmNativeSampleRate`. -/
def pcmNativeSampleRate : ℚ := 44100

def refreshDeviceSampleRate (p : PreviewPlayer) : PreviewPlayer :=
  match p.audioDeviceManager with
  | none => p
  | some manager =>
    if manager.setupSampleRate > 0 then { p with deviceSampleRate := manager.setupSampleRate }
    else
      match manager.currentDeviceSampleRate with
      | none => p
      | some rate => if rate > 0 then { p with deviceSampleRate := rate } else p

def stop (p : PreviewPlayer) : PreviewPlayer :=
  { p with playing := false, resamplingSource := none, readerSource := none,
           currentReader := none, pcmBuffer := AudioBuffer.empty, pcmPosition := 0,
           pcmFractionalPosition := 0, pcmLoopPoint := 0, pcmTotalSamples := 0,
           isPCMFile := false }

def isPlaying (p : PreviewPlayer) : Bool := p.playing

def getTotalLength (p : PreviewPlayer) : ℚ :=
  if p.isPCMFile then roundDouble ((p.pcmBuffer.numSamples : ℚ) / pcmNativeSampleRate)
  else
    match p.currentReader with
    | none => 0
    | some reader => roundDouble ((reader.lengthInSamples : ℚ) / reader.sampleRate)

def loadPCMIntoBuffer (p : PreviewPlayer) (file : PreviewFile) : PreviewPlayer :=
  let pcmLoopPoint :=
    match file.loopFile with
    | none => 0
    | some (bytesRemaining, value) => if bytesRemaining ≥ 4 then value else 0
  let p := { p with pcmTotalSamples := 0, pcmLoopPoint := pcmLoopPoint }
  let pcmStream := file.pcmStream
  if !pcmStream.openedOk then { p with pcmBuffer := AudioBuffer.empty }
  else
    let fileSize := pcmStream.totalLength
    let totalSamples := Int.tdiv fileSize 4
    if totalSamples ≤ 0 ∨ totalSamples > 2147483647 then
      { p with pcmBuffer := AudioBuffer.empty }
    else if pcmStream.read 0 fileSize ≠ fileSize then
      { p with pcmBuffer := AudioBuffer.empty }
    else
      { p with
        pcmBuffer :=
          ⟨2, toInt32 totalSamples, fun channel i =>
            if channel = 0 then (pcmStream.int16At (i * 4) : ℚ) / 32768
            else if channel = 1 then (pcmStream.int16At (i * 4 + 2) : ℚ) / 32768
            else 0⟩
        pcmTotalSamples := totalSamples }

/-- The method `loadAndPlay`: the returned flag and the player after it. -/
def loadAndPlay (p : PreviewPlayer) (file : PreviewFile) : Bool × PreviewPlayer :=
  let p := p.stop
  if !file.existsAsFile then (false, p)
  else if file.hasPcmExtension then
    let p := (p.loadPCMIntoBuffer file).refreshDeviceSampleRate
    if p.pcmBuffer.numSamples = 0 then (false, p)
    else
      (true, { p with isPCMFile := true, pcmPosition := 0, pcmFractionalPosition := 0,
                      playing := true })
  else
    match file.createReader with
    | none => (false, { p with currentReader := none })
    | some reader =>
      let p := { p with currentReader := some reader, isPCMFile := false,
                        readerSource := some reader,
                        resamplingSource := some ⟨1, false⟩ }
      let p := p.refreshDeviceSampleRate
      if p.deviceSampleRate > 0 then
        (true, { p with resamplingSource :=
                          some ⟨roundDouble (reader.sampleRate / p.deviceSampleRate), true⟩,
                        playing := true })
      else (true, p)

/-- The lambda `clearTail (startSample)` of the callback. -/
def clearTail (numOutputChannels numSamples : Int) (out : OutputChannels)
    (startSample : Int) : OutputChannels :=
  if startSample ≥ numSamples then out
  else out.clearRange numOutputChannels startSample (numSamples - startSample)

/-- The variables the raw-PCM render loop changes. -/
structure PcmState where
  pcmFractionalPosition : ℚ
  playing : Bool
  out : OutputChannels

/-- The assignment `outputChannelData[ch][i] = 0.0f` for every non-null
channel `ch` with `chFrom ≤ ch < chLimit`. -/
def zeroExtraChannels (out : OutputChannels) (chFrom chLimit i : Int) : OutputChannels :=
  { out with samples := fun ch j =>
      if chFrom ≤ ch ∧ ch < chLimit ∧ out.isNull ch = false ∧ j = i then 0
      else out.samples ch j }

/-- One iteration of the raw-PCM render loop, for frame `i`.  The flag is
`true` when the iteration leaves the loop by `break`.  The difference of the
two `float` samples is a `float`; its product with the `double` fraction,
the sum and `pcmFractionalPosition += ratio` are `double`. -/
def pcmBody (pcmBuffer : AudioBuffer) (ratio : ℚ) (availableChannels : Int)
    (numOutputChannels numSamples i : Int) (s : PcmState) : PcmState × Bool :=
  if s.pcmFractionalPosition ≥ (pcmBuffer.numSamples : ℚ) then
    ({ s with playing := false,
              out := clearTail numOutputChannels numSamples s.out i }, true)
  else
    let sourceIndex := truncToInt s.pcmFractionalPosition
    let nextIndex := jmin (sourceIndex + 1) (pcmBuffer.numSamples - 1)
    let fraction := roundDouble (s.pcmFractionalPosition - (sourceIndex : ℚ))
    let out1 := s.out.writeFrame availableChannels i (fun ch =>
      let sample1 := pcmBuffer.data ch sourceIndex
      let sample2 := pcmBuffer.data ch nextIndex
      roundFloat (roundDouble (sample1 + roundDouble (roundFloat (sample2 - sample1) * fraction))))
    let out2 := zeroExtraChannels out1 availableChannels numOutputChannels i
    ({ s with out := out2,
              pcmFractionalPosition := roundDouble (s.pcmFractionalPosition + ratio) }, false)

/-- The loop `for (int i = 0; i < numSamples; ++i)` of the raw-PCM branch,
with `remaining` iterations to go from frame `i`. -/
def pcmLoop (pcmBuffer : AudioBuffer) (ratio : ℚ) (availableChannels : Int)
    (numOutputChannels numSamples : Int) : Nat → Int → PcmState → PcmState
  | 0, _, s => s
  | remaining + 1, i, s =>
    match pcmBody pcmBuffer ratio availableChannels numOutputChannels numSamples i s with
    | (s', true) => s'
    | (s', false) =>
      pcmLoop pcmBuffer ratio availableChannels numOutputChannels numSamples remaining (i + 1) s'

/-- The local `ratio` of the raw-PCM branch, from the device rate the
player holds after `refreshDeviceSampleRate`. -/
def pcmRatio (p : PreviewPlayer) : ℚ :=
  let playbackRate := if p.deviceSampleRate > 0 then p.deviceSampleRate else pcmNativeSampleRate
  roundDouble (pcmNativeSampleRate / playbackRate)

/-- The branch `if (isPCMFile)` of the callback. -/
def renderPCM (p : PreviewPlayer) (out : OutputChannels)
    (numOutputChannels numSamples : Int) : PreviewPlayer × OutputChannels :=
  if p.pcmBuffer.numSamples = 0 then
    ({ p with playing := false }, clearTail numOutputChannels numSamples out 0)
  else
    let p := p.refreshDeviceSampleRate
    let ratio := pcmRatio p
    let availableChannels := jmin numOutputChannels p.pcmBuffer.numChannels
    let s := pcmLoop p.pcmBuffer ratio availableChannels numOutputChannels numSamples
      numSamples.toNat 0
      { pcmFractionalPosition := p.pcmFractionalPosition, playing := p.playing, out := out }
    ({ p with playing := s.playing, pcmFractionalPosition := s.pcmFractionalPosition,
              pcmPosition := truncToInt s.pcmFractionalPosition }, s.out)

/-- The method `audioDeviceIOCallbackWithContext` on the output pointers
`out`.  The result is `none` where the block is pulled through the JUCE
resampling source.  The `zeromem` of the idle branches is taken on the
non-null channels. -/
def audioDeviceIOCallbackWithContext (p : PreviewPlayer) (out : OutputChannels)
    (numOutputChannels numSamples : Int) : Option (PreviewPlayer × OutputChannels) :=
  if !p.playing then some (p, out.clearRange numOutputChannels 0 numSamples)
  else if p.isPCMFile then some (renderPCM p out numOutputChannels numSamples)
  else
    match p.resamplingSource with
    | none => some (p, out.clearRange numOutputChannels 0 numSamples)
    | some _ => none

end PreviewPlayer


/-! ## The MSU-1 PCM layout as the format description words it -/

/-- The loop state a step of the resampling loop carries. -/
def ResampleStep.state : ResampleStep → ResampleState
  | .next s => s
  | .returned s _ => s

/-- One memory access of a render call: a read of the buffer frames
`[start, start + count)` of a channel, or a write of the output frames
`[start, start + count)` of a channel. -/
inductive Access where
  | bufferRead (start count : Int)
  | outputWrite (start count : Int)

/-- The access is inside a buffer of `totalSamples` frames and an output
block of `numSamples` frames. -/
def Access.inBounds (totalSamples numSamples : Int) : Access → Prop
  | .bufferRead start count => 0 ≤ start ∧ 0 ≤ count ∧ start + count ≤ totalSamples
  | .outputWrite start count => 0 ≤ start ∧ 0 ≤ count ∧ start + count ≤ numSamples

/-- Every access of the list is in bounds. -/
def Access.allInBounds (totalSamples numSamples : Int) (accesses : List Access) : Prop :=
  ∀ a ∈ accesses, a.inBounds totalSamples numSamples


/-! ## The audio callback in machine arithmetic

The callback of `AudioPlayer` once more, with the arithmetic of the compiled
program: every operation on `int` is wrapped to 32 bits (`toInt32`), every
operation on `double` or `float` is rounded (`roundDouble`, `roundFloat`).
The functions return, next to their result, the memory accesses they make,
in order. -/

namespace Machine

/-- The constant `sampleRateToleranceHz`, the `double` nearest to `0.1`. -/
def sampleRateToleranceHz : ℚ := roundDouble (1 / 10)

/-- Conversion `static_cast<int>` of a `double`: truncation towards zero;
a value outside the `int` range (where the conversion is undefined) is
wrapped like the integer arithmetic. -/
def doubleToInt (x : ℚ) : Int := toInt32 (truncToInt x)

/-- The method `updateResamplingState`: the rate difference and the ratio
are `double` results. -/
def updateResamplingState (p : AudioPlayer) : AudioPlayer :=
  match p.projectState with
  | none =>
    { p with resamplingActive := false, resamplingRatio := 1,
             fractionalSample := (p.currentSample : ℚ) }
  | some ps =>
    if !ps.hasAudio then
      { p with resamplingActive := false, resamplingRatio := 1,
               fractionalSample := (p.currentSample : ℚ) }
    else
      let sourceRate := ps.getSampleRate
      if sourceRate ≤ 0 ∨ p.deviceSampleRate ≤ 0 then
        { p with resamplingActive := false, resamplingRatio := 1 }
      else
        let active : Bool :=
          decide (|roundDouble (sourceRate - p.deviceSampleRate)| > sampleRateToleranceHz)
        { p with resamplingActive := active,
                 resamplingRatio :=
                   if active then roundDouble (sourceRate / p.deviceSampleRate) else 1,
                 fractionalSample := (p.currentSample : ℚ) }

/-- The lambda `clearOutput (startSample)` of the callback. -/
def clearOutput (numOutputChannels numSamples : Int) (out : OutputChannels)
    (startSample : Int) : OutputChannels × List Access :=
  if startSample ≥ numSamples then (out, [])
  else
    let count := toInt32 (numSamples - startSample)
    (out.clearRange numOutputChannels startSample count, [.outputWrite startSample count])

/-- The locals computed between the early returns and the two paths. -/
def RenderCtx.make (p : AudioPlayer) (ps : MSUProjectState)
    (numOutputChannels numSamples : Int) : RenderCtx :=
  let buffer := ps.audioBuffer
  let totalSamples := buffer.numSamples
  let paddingSamples := ps.getPaddingSamples
  let effectiveStart := ps.getEffectivePlaybackStart
  let hasLoop := p.looping && ps.hasLoopPoints
  let loopStart := if hasLoop then toInt32 (ps.getLoopStart - effectiveStart) else 0
  let loopEnd := if hasLoop then toInt32 (ps.getLoopEnd - effectiveStart) else totalSamples
  let effectiveLength0 := toInt32 (totalSamples - toInt32 effectiveStart)
  let effectiveLength :=
    if paddingSamples > 0 then toInt32 (effectiveLength0 + toInt32 paddingSamples)
    else effectiveLength0
  { numOutputChannels := numOutputChannels
    numSamples := numSamples
    buffer := buffer
    totalSamples := totalSamples
    sourceSampleRate := ps.getSampleRate
    resamplingRatio := p.resamplingRatio
    paddingSamples := paddingSamples
    effectiveStart := effectiveStart
    hasLoop := hasLoop
    loopStart := loopStart
    loopEnd := loopEnd
    effectiveLength := effectiveLength
    channelCount := jmin numOutputChannels buffer.numChannels }

/-- The local `samplesToWrite` of the pass-through loop body. -/
def samplesToWrite (c : RenderCtx) (s : PassState) : Int :=
  jmin (toInt32 (c.numSamples - s.samplesWritten))
    (if c.hasLoop then jmax 0 (toInt32 (c.loopEnd - s.currentSample))
     else jmax 0 (toInt32 (c.effectiveLength - s.currentSample)))

/-- Pass-through loop body from the computation of `samplesToWrite` on.
The flag is `true` when the iteration leaves the loop by `break`. -/
def passWrite (c : RenderCtx) (s : PassState) : (PassState × Bool) × List Access :=
  if samplesToWrite c s ≤ 0 then
    if c.hasLoop then
      (({ s with currentSample := c.loopStart,
                 wrapFrames := s.wrapFrames ++ [s.samplesWritten] }, false), [])
    else
      let cleared := clearOutput c.numOutputChannels c.numSamples s.out s.samplesWritten
      (({ s with playing := false, out := cleared.1 }, true), cleared.2)
  else if c.paddingSamples > 0 ∧ s.currentSample < c.paddingSamples then
    let paddingSamplesToWrite :=
      jmin (samplesToWrite c s) (toInt32 (toInt32 c.paddingSamples - s.currentSample))
    (({ s with out := s.out.clearRange c.channelCount s.samplesWritten paddingSamplesToWrite,
               currentSample := toInt32 (s.currentSample + paddingSamplesToWrite),
               samplesWritten := toInt32 (s.samplesWritten + paddingSamplesToWrite) }, false),
      [.outputWrite s.samplesWritten paddingSamplesToWrite])
  else
    let bufferPos :=
      jlimit 0 (toInt32 (c.totalSamples - 1))
        (toInt32 (toInt32 (toInt32 c.effectiveStart + s.currentSample) -
          toInt32 c.paddingSamples))
    let bufferSamplesToWrite := jmin (samplesToWrite c s) (toInt32 (c.totalSamples - bufferPos))
    (({ s with out := s.out.copyRange c.channelCount s.samplesWritten c.buffer bufferPos
                        bufferSamplesToWrite,
               currentSample := toInt32 (s.currentSample + bufferSamplesToWrite),
               samplesWritten := toInt32 (s.samplesWritten + bufferSamplesToWrite) }, false),
      [.bufferRead bufferPos bufferSamplesToWrite,
       .outputWrite s.samplesWritten bufferSamplesToWrite])

/-- One iteration of the pass-through loop body. -/
def passBody (c : RenderCtx) (s : PassState) : (PassState × Bool) × List Access :=
  if s.currentSample ≥ c.effectiveLength ∨ (c.hasLoop = true ∧ s.currentSample ≥ c.loopEnd) then
    if c.hasLoop then
      passWrite c { s with currentSample := c.loopStart,
                           wrapFrames := s.wrapFrames ++ [s.samplesWritten] }
    else
      let cleared := clearOutput c.numOutputChannels c.numSamples s.out s.samplesWritten
      (({ s with playing := false, out := cleared.1 }, true), cleared.2)
  else passWrite c s

/-- The loop `while (samplesWritten < numSamples)`: the state it is left
with, `none` when the fuel is used up before the loop is left, and the
accesses made (also those of a run that uses up its fuel). -/
def passLoop (c : RenderCtx) : Nat → PassState → Option PassState × List Access
  | 0, s => (if s.samplesWritten < c.numSamples then none else some s, [])
  | fuel + 1, s =>
    if s.samplesWritten < c.numSamples then
      match passBody c s with
      | ((s', true), accesses) => (some s', accesses)
      | ((s', false), accesses) =>
        ((passLoop c fuel s').1, accesses ++ (passLoop c fuel s').2)
    else (some s, [])

/-- Resampling loop body from the padding test on, for frame `i`.  The
difference of the two `float` samples is a `float`; its product with the
`double` fraction, the sum and `sourcePos += resamplingRatio` are `double`. -/
def resampleWrite (c : RenderCtx) (i : Int) (s : ResampleState) (sourceIndex : Int) :
    ResampleState × List Access :=
  if c.paddingSamples > 0 ∧ sourceIndex < c.paddingSamples then
    ({ s with out := s.out.writeFrame c.channelCount i (fun _ => 0),
              sourcePos := roundDouble (s.sourcePos + c.resamplingRatio) },
      [.outputWrite i 1])
  else
    let bufferPos :=
      jlimit 0 (toInt32 (c.totalSamples - 1))
        (toInt32 (toInt32 (toInt32 c.effectiveStart + sourceIndex) - toInt32 c.paddingSamples))
    let nextPos := jmin (toInt32 (bufferPos + 1)) (toInt32 (c.totalSamples - 1))
    let fraction := roundDouble (s.sourcePos - (sourceIndex : ℚ))
    ({ s with
        out := s.out.writeFrame c.channelCount i (fun channel =>
          let sample1 := c.buffer.data channel bufferPos
          let sample2 := c.buffer.data channel nextPos
          roundFloat (roundDouble (sample1 + roundDouble (fraction * roundFloat (sample2 - sample1)))))
        sourcePos := roundDouble (s.sourcePos + c.resamplingRatio) },
      [.bufferRead bufferPos 1, .bufferRead nextPos 1, .outputWrite i 1])

/-- One iteration of the resampling loop body, for frame `i`. -/
def resampleBody (c : RenderCtx) (i : Int) (s : ResampleState) : ResampleStep × List Access :=
  let sourceIndex := doubleToInt s.sourcePos
  if sourceIndex ≥ c.effectiveLength ∨ (c.hasLoop = true ∧ sourceIndex ≥ c.loopEnd) then
    if c.hasLoop then
      let written := resampleWrite c i
        { s with sourcePos := (c.loopStart : ℚ), wrapFrames := s.wrapFrames ++ [i] } c.loopStart
      (.next written.1, written.2)
    else
      let cleared := clearOutput c.numOutputChannels c.numSamples s.out i
      (.returned { s with playing := false, out := cleared.1 } sourceIndex, cleared.2)
  else
    let written := resampleWrite c i s sourceIndex
    (.next written.1, written.2)

/-- The loop `for (int i = 0; i < numSamples; ++i)`, with `remaining`
iterations to go from frame `i`. -/
def resampleLoop (c : RenderCtx) : Nat → Int → ResampleState → ResampleStep × List Access
  | 0, _, s => (.next s, [])
  | remaining + 1, i, s =>
    match resampleBody c i s with
    | (.next s', accesses) =>
      ((resampleLoop c remaining (i + 1) s').1,
        accesses ++ (resampleLoop c remaining (i + 1) s').2)
    | (.returned s' sourceIndex, accesses) => (.returned s' sourceIndex, accesses)

/-- The resampling branch of the callback. -/
def renderResampled (c : RenderCtx) (p : AudioPlayer) (out : OutputChannels) :
    RenderResult × List Access :=
  let run := resampleLoop c c.numSamples.toNat 0
    { sourcePos := p.fractionalSample, playing := p.playing, out := out, wrapFrames := [] }
  match run.1 with
  | .returned s sourceIndex =>
    let currentSample := jlimit 0 c.effectiveLength sourceIndex
    ({ player := { p with playing := s.playing, fractionalSample := s.sourcePos,
                          currentSample := currentSample,
                          currentPosition :=
                            roundDouble ((currentSample : ℚ) / c.sourceSampleRate) }
       out := s.out
       wrapFrames := s.wrapFrames }, run.2)
  | .next s =>
    let fractionalSample := s.sourcePos
    ({ player := { p with playing := s.playing, fractionalSample := fractionalSample,
                          currentSample :=
                            jlimit 0 c.effectiveLength (doubleToInt fractionalSample),
                          currentPosition :=
                            roundDouble (fractionalSample / c.sourceSampleRate) }
       out := s.out
       wrapFrames := s.wrapFrames }, run.2)

/-- The end of the pass-through branch: the loop variables are written back
and the two positions are recomputed from the cursor. -/
def finishPassThrough (c : RenderCtx) (p : AudioPlayer) (s : PassState) : RenderResult :=
  { player := { p with playing := s.playing, currentSample := s.currentSample,
                       fractionalSample := (s.currentSample : ℚ),
                       currentPosition :=
                         roundDouble ((s.currentSample : ℚ) / c.sourceSampleRate) }
    out := s.out
    wrapFrames := s.wrapFrames }

/-- The pass-through branch of the callback. -/
def renderPassThrough (fuel : Nat) (c : RenderCtx) (p : AudioPlayer) (out : OutputChannels) :
    Option RenderResult × List Access :=
  let run := passLoop c fuel
    { currentSample := p.currentSample, samplesWritten := 0, playing := p.playing,
      out := out, wrapFrames := [] }
  (run.1.map (finishPassThrough c p), run.2)

/-- The method `audioDeviceIOCallbackWithContext`, on the output pointers
`out`: what it leaves behind (`none` when the pass-through loop does not
finish within `fuel` iterations) and the accesses it makes. -/
def audioDeviceIOCallbackWithContext (fuel : Nat) (p : AudioPlayer) (out : OutputChannels)
    (numOutputChannels numSamples : Int) : Option RenderResult × List Access :=
  let cleared := clearOutput numOutputChannels numSamples out 0
  match p.projectState with
  | none => (some { player := p, out := cleared.1, wrapFrames := [] }, cleared.2)
  | some ps =>
    if !p.playing || !ps.hasAudio then
      (some { player := p, out := cleared.1, wrapFrames := [] }, cleared.2)
    else if ps.getSampleRate ≤ 0 ∨ p.deviceSampleRate ≤ 0 ∨ ps.audioBuffer.numSamples ≤ 0 then
      (some { player := p, out := cleared.1, wrapFrames := [] }, cleared.2)
    else
      let p1 := updateResamplingState p
      let c := RenderCtx.make p1 ps numOutputChannels numSamples
      if p1.resamplingActive then
        let rendered := renderResampled c p1 cleared.1
        (some rendered.1, cleared.2 ++ rendered.2)
      else
        let rendered := renderPassThrough fuel c p1 cleared.1
        (rendered.1, cleared.2 ++ rendered.2)

end Machine

/-! ## Concrete inputs -/

/-- A one-frame stereo project whose padding is `2^32` samples. -/
def hugePaddingProject : MSUProjectState :=
  { audioBuffer := ⟨2, 1, fun _ _ => 1⟩
    projectSampleRate := 44100
    loopStartSample := -1
    loopEndSample := -1
    trimStartSample := 0
    paddingSamples := 4294967296
    padAmountMs := 200
    modified := false }

/-- A playing engine at cursor 0 on `hugePaddingProject`, device at 44.1 kHz. -/
def hugePaddingPlayer : AudioPlayer :=
  { projectState := some hugePaddingProject
    playing := true
    looping := false
    currentPosition := 0
    currentSample := 0
    fractionalSample := 0
    deviceSampleRate := 44100
    resamplingRatio := 1
    resamplingActive := false }

/-- Two non-null output channels holding silence. -/
def silentOutput : OutputChannels := ⟨fun _ => false, fun _ _ => 0⟩

/-- A one-channel-pair project of eight frames at 66.15 kHz, no loop, trim
or padding. -/
def driftProject : MSUProjectState :=
  { audioBuffer := ⟨2, 8, fun _ i => (i : ℚ)⟩
    projectSampleRate := 66150
    loopStartSample := -1
    loopEndSample := -1
    trimStartSample := 0
    paddingSamples := 0
    padAmountMs := 200
    modified := false }

/-- A playing engine at cursor 0 on `driftProject`, device at 44.1 kHz, so
that the resampling ratio is `3 / 2`. -/
def driftPlayer : AudioPlayer :=
  { projectState := some driftProject
    playing := true
    looping := false
    currentPosition := 0
    currentSample := 0
    fractionalSample := 0
    deviceSampleRate := 44100
    resamplingRatio := 1
    resamplingActive := false }

/-- A fresh project holding a one-frame stereo buffer at 44.1 kHz. -/
def oneFrameProject : MSUProjectState :=
  MSUProjectState.init.setAudioBuffer ⟨2, 1, fun _ _ => 0⟩ 44100

/-- The 44100-frame stereo project of the looping scenario, holding a ramp. -/
def scenarioProject : MSUProjectState :=
  { audioBuffer := ⟨2, 44100, fun ch i => (ch : ℚ) + (i : ℚ)⟩
    projectSampleRate := 44100
    loopStartSample := 22050
    loopEndSample := 33075
    trimStartSample := 0
    paddingSamples := 0
    padAmountMs := 200
    modified := false }

/-- A playing, looping engine at cursor 0 on `scenarioProject`, device at
44.1 kHz. -/
def scenarioPlayer : AudioPlayer :=
  { projectState := some scenarioProject
    playing := true
    looping := true
    currentPosition := 0
    currentSample := 0
    fractionalSample := 0
    deviceSampleRate := 44100
    resamplingRatio := 1
    resamplingActive := false }

/-- An eight-frame stereo ramp at 44.1 kHz, no loop, trim or padding. -/
def demoProject : MSUProjectState :=
  { audioBuffer := ⟨2, 8, fun ch i => (ch : ℚ) + (i : ℚ)⟩
    projectSampleRate := 44100
    loopStartSample := -1
    loopEndSample := -1
    trimStartSample := 0
    paddingSamples := 0
    padAmountMs := 200
    modified := false }

/-- A playing engine at cursor 0 on `demoProject`, device at 44.1 kHz. -/
def demoPlayer : AudioPlayer :=
  { projectState := some demoProject
    playing := true
    looping := false
    currentPosition := 0
    currentSample := 0
    fractionalSample := 0
    deviceSampleRate := 44100
    resamplingRatio := 1
    resamplingActive := false }

/-- A 4000-frame stereo ramp at 44.1 kHz with the loop window
`[1000, 2000)`. -/
def wrapProject : MSUProjectState :=
  { audioBuffer := ⟨2, 4000, fun ch i => (ch : ℚ) + (i : ℚ)⟩
    projectSampleRate := 44100
    loopStartSample := 1000
    loopEndSample := 2000
    trimStartSample := 0
    paddingSamples := 0
    padAmountMs := 200
    modified := false }

/-- A playing, looping engine at cursor 1990 on `wrapProject`. -/
def wrapPlayer : AudioPlayer :=
  { projectState := some wrapProject
    playing := true
    looping := true
    currentPosition := 0
    currentSample := 1990
    fractionalSample := 1990
    deviceSampleRate := 44100
    resamplingRatio := 1
    resamplingActive := false }

/-- A 1000-frame stereo ramp at 44.1 kHz behind 441 frames of padding. -/
def paddedProject : MSUProjectState :=
  { audioBuffer := ⟨2, 1000, fun ch i => (ch : ℚ) + (i : ℚ)⟩
    projectSampleRate := 44100
    loopStartSample := -1
    loopEndSample := -1
    trimStartSample := 0
    paddingSamples := 441
    padAmountMs := 10
    modified := false }

/-- Two non-null output channels still holding the value `7` of an earlier
block. -/
def staleOutput : OutputChannels := ⟨fun _ => false, fun _ _ => 7⟩

/-- A playing before/after player at cursor 5 of its eight-frame "before"
buffer; the "after" buffer has two frames, `1` and `2` on both channels. -/
def comparePlayer : BeforeAfterPreviewPlayer :=
  { beforeBuffer := some ⟨2, 8, fun ch i => (ch : ℚ) + (i : ℚ)⟩
    afterBuffer := some ⟨2, 2, fun _ i => (i : ℚ) + 1⟩
    sourceSampleRate := 44100
    deviceSampleRate := 44100
    playbackIncrement := 1
    playing := true
    currentSample := 5
    activeTarget := .Before }

/-- The player of `comparePlayer` just after `play (After, true)`: playing
the two-frame "after" buffer from cursor 0. -/
def shortPlayer : BeforeAfterPreviewPlayer := comparePlayer.play .After true

/-- An eight-frame stereo buffer holding its own frame index, with the loop
window `[3, 6)`, no trim and two frames of padding (the state the auto
trim/pad action leaves when the file starts with too little silence). -/
def padLoopProject : MSUProjectState :=
  { audioBuffer := ⟨2, 8, fun _ i => (i : ℚ)⟩
    projectSampleRate := 44100
    loopStartSample := 3
    loopEndSample := 6
    trimStartSample := 0
    paddingSamples := 2
    padAmountMs := 200
    modified := false }

/-- A playing, looping engine at cursor 0 on `padLoopProject`. -/
def padLoopPlayer : AudioPlayer :=
  { projectState := some padLoopProject
    playing := true
    looping := true
    currentPosition := 0
    currentSample := 0
    fractionalSample := 0
    deviceSampleRate := 44100
    resamplingRatio := 1
    resamplingActive := false }

/-- An eight-frame stereo buffer holding its own frame index, trimmed at
frame 4 behind two frames of padding, no loop. -/
def padTrimProject : MSUProjectState :=
  { audioBuffer := ⟨2, 8, fun _ i => (i : ℚ)⟩
    projectSampleRate := 44100
    loopStartSample := -1
    loopEndSample := -1
    trimStartSample := 4
    paddingSamples := 2
    padAmountMs := 200
    modified := false }

/-- A playing engine at cursor 0 on `padTrimProject`, looping off. -/
def padTrimPlayer : AudioPlayer :=
  { projectState := some padTrimProject
    playing := true
    looping := false
    currentPosition := 0
    currentSample := 0
    fractionalSample := 0
    deviceSampleRate := 44100
    resamplingRatio := 1
    resamplingActive := false }


/-! ## Concrete inputs: PCM files -/

/-- A freshly constructed `PreviewPlayer` without a device manager. -/
def idlePreviewPlayer : PreviewPlayer :=
  { readerSource := none
    resamplingSource := none
    currentReader := none
    pcmBuffer := AudioBuffer.empty
    pcmPosition := 0
    pcmFractionalPosition := 0
    pcmLoopPoint := 0
    pcmTotalSamples := 0
    isPCMFile := false
    playing := false
    deviceSampleRate := 0
    audioDeviceManager := none }

/-- A stream on an MSU-1 PCM file of `size` bytes that is read in full: the
header `MSU1`, loop point 0, then the bytes `1, 2, 3, ...` (modulo 256). -/
def pcmStreamOfSize (size : Int) : FileInputStream :=
  { openedOk := true
    totalLength := size
    byte := fun i =>
      if i = 0 then 77 else if i = 1 then 83 else if i = 2 then 85 else if i = 3 then 49
      else if i < 8 then 0 else ((i - 7) % 256).toNat
    readCount := fun pos maxBytesToRead => max 0 (min maxBytesToRead (size - pos)) }

/-- A `.pcm` file of `size` bytes without a companion loop file. -/
def pcmFileOfSize (size : Int) : PreviewFile :=
  { existsAsFile := true
    hasPcmExtension := true
    loopFile := none
    pcmStream := pcmStreamOfSize size
    createReader := none }


/-! ## Concrete inputs: rounding and overflow -/

/-- A stereo project of three frames at 44.1 kHz. -/
def threeFrameProject : MSUProjectState :=
  MSUProjectState.init.setAudioBuffer ⟨2, 3, fun _ i => (i : ℚ)⟩ 44100

/-- A stopped engine on `threeFrameProject`. -/
def threeFramePlayer : AudioPlayer :=
  { projectState := some threeFrameProject
    playing := false
    looping := false
    currentPosition := 0
    currentSample := 0
    fractionalSample := 0
    deviceSampleRate := 44100
    resamplingRatio := 1
    resamplingActive := false }

/-- A stereo project of fifteen frames at 44.1 kHz. -/
def fifteenFrameProject : MSUProjectState :=
  MSUProjectState.init.setAudioBuffer ⟨2, 15, fun _ i => (i : ℚ)⟩ 44100

/-- A stopped engine on `fifteenFrameProject`. -/
def fifteenFramePlayer : AudioPlayer :=
  { threeFramePlayer with projectState := some fifteenFrameProject }

/-- A preview player on a raw-PCM buffer of one frame (sample 1 on both
channels), at position 0, with no device manager and a device rate of
441 kHz: the ratio is the `double` nearest to `1 / 10`. -/
def tenthRatioPcmPlayer : PreviewPlayer :=
  { idlePreviewPlayer with
    pcmBuffer := ⟨2, 1, fun _ _ => 1⟩
    isPCMFile := true
    playing := true
    deviceSampleRate := 441000 }

/-- A one-frame project after a buffer swap: the trim start 7 and the loop
window `[0, 4)` are those of the longer buffer it replaced, and the padding
is `2^31 - 2` samples. -/
def overflowProject : MSUProjectState :=
  { audioBuffer := ⟨2, 1, fun _ _ => 1⟩
    projectSampleRate := 44100
    loopStartSample := 0
    loopEndSample := 4
    trimStartSample := 7
    paddingSamples := 2147483646
    padAmountMs := 200
    modified := true }

/-- A playing engine on `overflowProject`, looping off, device at 44.1 kHz,
with the cursor at the virtual sample `-2` that an earlier loop wrap left. -/
def overflowPlayer : AudioPlayer :=
  { projectState := some overflowProject
    playing := true
    looping := false
    currentPosition := 0
    currentSample := -2
    fractionalSample := -2
    deviceSampleRate := 44100
    resamplingRatio := 1
    resamplingActive := false }

/-- The engine `overflowPlayer` with looping on. -/
def overflowLoopPlayer : AudioPlayer := { overflowPlayer with looping := true }

/-- An eight-frame stereo ramp at 8 kHz, no loop, trim or padding. -/
def sixthProject : MSUProjectState :=
  { audioBuffer := ⟨2, 8, fun _ i => (i : ℚ)⟩
    projectSampleRate := 8000
    loopStartSample := -1
    loopEndSample := -1
    trimStartSample := 0
    paddingSamples := 0
    padAmountMs := 200
    modified := false }

/-- A playing engine at cursor 0 on `sixthProject`, device at 48 kHz: the
resampling ratio is the `double` nearest to `1 / 6`. -/
def sixthPlayer : AudioPlayer :=
  { projectState := some sixthProject
    playing := true
    looping := false
    currentPosition := 0
    currentSample := 0
    fractionalSample := 0
    deviceSampleRate := 48000
    resamplingRatio := 1
    resamplingActive := false }


/-! ## Rounding: the facts used about `roundFloat` and `roundDouble` -/

theorem roundHalfEven_intCast (z : Int) : roundHalfEven (z : ℚ) = z := by
  unfold roundHalfEven
  simp

theorem roundHalfEven_bounds (x : ℚ) :
    x - 1 / 2 ≤ (roundHalfEven x : ℚ) ∧ (roundHalfEven x : ℚ) ≤ x + 1 / 2 := by
  have h1 := Int.floor_le x
  have h2 := Int.lt_floor_add_one x
  unfold roundHalfEven
  split_ifs <;> push_cast <;> constructor <;> linarith

theorem roundHalfEven_mono {x y : ℚ} (h : x ≤ y) : roundHalfEven x ≤ roundHalfEven y := by
  have hx1 := Int.floor_le x
  have hx2 := Int.lt_floor_add_one x
  have hy1 := Int.floor_le y
  have hy2 := Int.lt_floor_add_one y
  rcases lt_or_eq_of_le (Int.floor_le_floor h) with hlt | heq
  · have hxle : roundHalfEven x ≤ ⌊x⌋ + 1 := by
      unfold roundHalfEven
      split_ifs <;> omega
    have hyge : ⌊y⌋ ≤ roundHalfEven y := by
      unfold roundHalfEven
      split_ifs <;> omega
    omega
  · unfold roundHalfEven
    rw [← heq]
    split_ifs <;> first | omega | (exfalso; linarith)

theorem roundHalfEven_eq_of_lt (x : ℚ) (m : Int) (h1 : (m : ℚ) - 1 / 2 < x)
    (h2 : x < (m : ℚ) + 1 / 2) : roundHalfEven x = m := by
  have hb := roundHalfEven_bounds x
  have h3 : ((m - 1 : Int) : ℚ) < (roundHalfEven x : ℚ) := by push_cast; linarith
  have h4 : (roundHalfEven x : ℚ) < ((m + 1 : Int) : ℚ) := by push_cast; linarith
  have h5 := Int.cast_lt.mp h3
  have h6 := Int.cast_lt.mp h4
  omega

theorem roundHalfEven_le_intCast {x : ℚ} {m : Int} (h : x ≤ (m : ℚ)) : roundHalfEven x ≤ m := by
  have := roundHalfEven_mono h
  rwa [roundHalfEven_intCast] at this

theorem intCast_le_roundHalfEven {x : ℚ} {m : Int} (h : (m : ℚ) ≤ x) : m ≤ roundHalfEven x := by
  have := roundHalfEven_mono h
  rwa [roundHalfEven_intCast] at this

theorem ulp_pos (prec : Nat) (emin : Int) (x : ℚ) : 0 < ulp prec emin x := by
  unfold ulp
  positivity

theorem log_two_eq (x : ℚ) (e : Int) (h1 : (2 : ℚ) ^ e ≤ |x|) (h2 : |x| < (2 : ℚ) ^ (e + 1)) :
    Int.log 2 |x| = e := by
  have hpos : 0 < |x| := lt_of_lt_of_le (by positivity) h1
  have ha : e ≤ Int.log 2 |x| := (Int.zpow_le_iff_le_log (by norm_num) hpos).mp (by exact_mod_cast h1)
  have hb : Int.log 2 |x| < e + 1 := (Int.lt_zpow_iff_log_lt (by norm_num) hpos).mp (by exact_mod_cast h2)
  omega


theorem zpow_log_le_abs (x : ℚ) (hx : x ≠ 0) : (2 : ℚ) ^ Int.log 2 |x| ≤ |x| := by
  have := Int.zpow_log_le_self (b := 2) (r := |x|) (by norm_num) (abs_pos.mpr hx)
  exact_mod_cast this

theorem abs_lt_zpow_log_succ (x : ℚ) : |x| < (2 : ℚ) ^ (Int.log 2 |x| + 1) := by
  have := Int.lt_zpow_succ_log_self (b := 2) (by norm_num) |x|
  exact_mod_cast this

theorem binaryExponent_ge (emin : Int) (x : ℚ) : emin ≤ binaryExponent emin x :=
  le_max_right _ _

theorem abs_lt_zpow_binaryExponent_succ (emin : Int) (x : ℚ) :
    |x| < (2 : ℚ) ^ (binaryExponent emin x + 1) :=
  lt_of_lt_of_le (abs_lt_zpow_log_succ x)
    (zpow_le_zpow_right₀ (by norm_num) (by unfold binaryExponent; omega))

/-- The quotient by the unit in the last place is below `2 ^ prec` in magnitude. -/
theorem abs_div_ulp_lt (prec : Nat) (emin : Int) (x : ℚ) :
    |x / ulp prec emin x| < (2 : ℚ) ^ prec := by
  have hu := ulp_pos prec emin x
  rw [abs_div, abs_of_pos hu, div_lt_iff₀ hu]
  have h := abs_lt_zpow_binaryExponent_succ emin x
  have e : (2 : ℚ) ^ prec * ulp prec emin x = (2 : ℚ) ^ (binaryExponent emin x + 1) := by
    unfold ulp
    rw [← zpow_natCast, ← zpow_add₀ (by norm_num)]
    congr 1
    omega
  rw [e]
  exact h

theorem roundBinary_error (prec : Nat) (emin : Int) (x : ℚ) :
    |roundBinary prec emin x - x| ≤ ulp prec emin x / 2 := by
  have hu := ulp_pos prec emin x
  have hb := roundHalfEven_bounds (x / ulp prec emin x)
  unfold roundBinary
  have hx : x = x / ulp prec emin x * ulp prec emin x := by field_simp
  rw [abs_le]
  constructor
  · have h1 : (x / ulp prec emin x - 1 / 2) * ulp prec emin x ≤
        (roundHalfEven (x / ulp prec emin x) : ℚ) * ulp prec emin x :=
      mul_le_mul_of_nonneg_right hb.1 hu.le
    nlinarith [hx]
  · have h1 : (roundHalfEven (x / ulp prec emin x) : ℚ) * ulp prec emin x ≤
        (x / ulp prec emin x + 1 / 2) * ulp prec emin x :=
      mul_le_mul_of_nonneg_right hb.2 hu.le
    nlinarith [hx]

theorem roundBinary_zero (prec : Nat) (emin : Int) : roundBinary prec emin 0 = 0 := by
  unfold roundBinary
  rw [zero_div]
  have : roundHalfEven 0 = 0 := by
    have := roundHalfEven_intCast 0
    simpa using this
  rw [this]
  simp

theorem roundBinary_nonneg (prec : Nat) (emin : Int) {x : ℚ} (hx : 0 ≤ x) :
    0 ≤ roundBinary prec emin x := by
  unfold roundBinary
  have hu := ulp_pos prec emin x
  have : (0 : Int) ≤ roundHalfEven (x / ulp prec emin x) :=
    intCast_le_roundHalfEven (by push_cast; positivity)
  have h2 : (0 : ℚ) ≤ (roundHalfEven (x / ulp prec emin x) : ℚ) := by exact_mod_cast this
  positivity

theorem roundBinary_nonpos (prec : Nat) (emin : Int) {x : ℚ} (hx : x ≤ 0) :
    roundBinary prec emin x ≤ 0 := by
  unfold roundBinary
  have hu := ulp_pos prec emin x
  have : roundHalfEven (x / ulp prec emin x) ≤ (0 : Int) :=
    roundHalfEven_le_intCast (by push_cast; exact div_nonpos_of_nonpos_of_nonneg hx hu.le)
  have h2 : (roundHalfEven (x / ulp prec emin x) : ℚ) ≤ 0 := by exact_mod_cast this
  exact mul_nonpos_of_nonpos_of_nonneg h2 hu.le


theorem binaryExponent_eq (emin : Int) (x : ℚ) (e : Int) (h1 : (2 : ℚ) ^ e ≤ |x|)
    (h2 : |x| < (2 : ℚ) ^ (e + 1)) (hemin : emin ≤ e) : binaryExponent emin x = e := by
  unfold binaryExponent
  rw [log_two_eq x e h1 h2]
  exact max_eq_left hemin

/-- Evaluation of a rounding away from a tie: `e` is the exponent of `x`
and `m` the nearest multiple of the unit in the last place. -/
theorem roundBinary_eval (prec : Nat) (emin : Int) (x : ℚ) (e m : Int)
    (h1 : (2 : ℚ) ^ e ≤ |x|) (h2 : |x| < (2 : ℚ) ^ (e + 1)) (hemin : emin ≤ e)
    (h3 : ((m : ℚ) - 1 / 2) * 2 ^ (e - ((prec : Int) - 1)) < x)
    (h4 : x < ((m : ℚ) + 1 / 2) * 2 ^ (e - ((prec : Int) - 1))) :
    roundBinary prec emin x = (m : ℚ) * 2 ^ (e - ((prec : Int) - 1)) := by
  have he := binaryExponent_eq emin x e h1 h2 hemin
  have hpos : (0 : ℚ) < 2 ^ (e - ((prec : Int) - 1)) := by positivity
  unfold roundBinary ulp
  rw [he, roundHalfEven_eq_of_lt _ m ((lt_div_iff₀ hpos).mpr h3) ((div_lt_iff₀ hpos).mpr h4)]

theorem binaryExponent_dyadic_le (prec : Nat) (emin : Int) (m j : Int) (hm0 : m ≠ 0)
    (hm : |m| < 2 ^ prec) (hj : emin - ((prec : Int) - 1) ≤ j) :
    binaryExponent emin ((m : ℚ) * 2 ^ j) - ((prec : Int) - 1) ≤ j := by
  have hpos : (0 : ℚ) < |(m : ℚ) * 2 ^ j| := by
    apply abs_pos.mpr
    have : (m : ℚ) ≠ 0 := by exact_mod_cast hm0
    positivity
  have hlt : |(m : ℚ) * 2 ^ j| < (2 : ℚ) ^ ((prec : Int) + j) := by
    rw [abs_mul, abs_of_pos (show (0 : ℚ) < 2 ^ j by positivity), zpow_add₀ (by norm_num),
      zpow_natCast]
    apply mul_lt_mul_of_pos_right _ (by positivity)
    have : ((|m| : Int) : ℚ) < ((2 ^ prec : Int) : ℚ) := by exact_mod_cast hm
    simpa using this
  have hlog : Int.log 2 |(m : ℚ) * 2 ^ j| < (prec : Int) + j :=
    (Int.lt_zpow_iff_log_lt (by norm_num) hpos).mp (by exact_mod_cast hlt)
  unfold binaryExponent
  rcases max_cases (Int.log 2 |(m : ℚ) * 2 ^ j|) emin with ⟨h, _⟩ | ⟨h, _⟩ <;> rw [h] <;> omega

/-- A number `m * 2 ^ j` with a significand of at most `prec` bits and an
exponent in range is its own rounding. -/
theorem roundBinary_dyadic (prec : Nat) (emin : Int) (m j : Int)
    (hm : |m| < 2 ^ prec) (hj : emin - ((prec : Int) - 1) ≤ j) :
    roundBinary prec emin ((m : ℚ) * 2 ^ j) = (m : ℚ) * 2 ^ j := by
  by_cases hm0 : m = 0
  · subst hm0
    simp [roundBinary_zero]
  have hE := binaryExponent_dyadic_le prec emin m j hm0 hm hj
  obtain ⟨d, hd⟩ : ∃ d : Nat,
      j = binaryExponent emin ((m : ℚ) * 2 ^ j) - ((prec : Int) - 1) + d :=
    ⟨(j - (binaryExponent emin ((m : ℚ) * 2 ^ j) - ((prec : Int) - 1))).toNat, by omega⟩
  have h2j : (2 : ℚ) ^ j =
      2 ^ (binaryExponent emin ((m : ℚ) * 2 ^ j) - ((prec : Int) - 1)) * 2 ^ d := by
    rw [← zpow_natCast, ← zpow_add₀ (by norm_num)]
    congr 1
  unfold roundBinary ulp
  have hq : (m : ℚ) * 2 ^ j / 2 ^ (binaryExponent emin ((m : ℚ) * 2 ^ j) - ((prec : Int) - 1)) =
      ((m * 2 ^ d : Int) : ℚ) := by
    rw [div_eq_iff (by positivity)]
    conv_lhs => rw [h2j]
    push_cast
    ring
  rw [hq, roundHalfEven_intCast]
  conv_rhs => rw [h2j]
  push_cast
  ring

/-- The rounding is `m * 2 ^ j` with `|m| ≤ 2 ^ prec` and `j` the exponent of
the unit in the last place. -/
theorem roundBinary_significand (prec : Nat) (emin : Int) (x : ℚ) :
    |roundHalfEven (x / ulp prec emin x)| ≤ 2 ^ prec := by
  have h := abs_div_ulp_lt prec emin x
  rw [abs_lt] at h
  rw [abs_le]
  constructor
  · apply intCast_le_roundHalfEven
    push_cast
    linarith
  · apply roundHalfEven_le_intCast
    push_cast
    linarith


theorem roundBinary_dyadic_le (prec : Nat) (emin : Int) (m j : Int) (hp : 1 ≤ prec)
    (hm : |m| ≤ 2 ^ prec) (hj : emin - ((prec : Int) - 1) ≤ j) :
    roundBinary prec emin ((m : ℚ) * 2 ^ j) = (m : ℚ) * 2 ^ j := by
  rcases lt_or_eq_of_le hm with hlt | heq
  · exact roundBinary_dyadic prec emin m j hlt hj
  · obtain ⟨q, rfl⟩ : ∃ q : Nat, prec = q + 1 := ⟨prec - 1, by omega⟩
    have h2 : (2 : Int) ^ (q + 1) = 2 * 2 ^ q := by ring
    have hq : (0 : Int) < 2 ^ q := by positivity
    have hm2 : m = 2 * 2 ^ q ∨ m = -(2 * 2 ^ q) := by
      rcases abs_cases m with ⟨h, _⟩ | ⟨h, _⟩ <;> omega
    have key : ∀ s : Int, |s| = 1 →
        roundBinary (q + 1) emin (((s * 2 ^ q : Int) : ℚ) * 2 ^ (j + 1)) =
          ((s * 2 ^ q : Int) : ℚ) * 2 ^ (j + 1) := by
      intro s hs
      apply roundBinary_dyadic
      · rw [abs_mul, hs, one_mul, abs_of_pos hq, h2]
        omega
      · push_cast at hj ⊢
        omega
    have hx : ∀ s : Int, ((s * (2 * 2 ^ q) : Int) : ℚ) * 2 ^ j =
        ((s * 2 ^ q : Int) : ℚ) * 2 ^ (j + 1) := by
      intro s
      rw [zpow_add₀ (by norm_num)]
      push_cast
      ring
    rcases hm2 with h | h
    · have := key 1 (by simp)
      rw [← hx 1] at this
      simpa [h] using this
    · have := key (-1) (by simp)
      rw [← hx (-1)] at this
      simpa [h] using this

/-- Rounding is idempotent. -/
theorem roundBinary_idem (prec : Nat) (emin : Int) (hp : 1 ≤ prec) (x : ℚ) :
    roundBinary prec emin (roundBinary prec emin x) = roundBinary prec emin x := by
  have h := roundBinary_dyadic_le prec emin (roundHalfEven (x / ulp prec emin x))
    (binaryExponent emin x - ((prec : Int) - 1)) hp (roundBinary_significand prec emin x)
    (by have := binaryExponent_ge emin x; omega)
  exact h

/-- A value of the narrower format is a value of the wider one. -/
theorem roundBinary_widen (prec prec2 : Nat) (emin emin2 : Int) (hp : 1 ≤ prec)
    (hprec : prec ≤ prec2) (hemin : emin2 - ((prec2 : Int) - 1) ≤ emin - ((prec : Int) - 1))
    (x : ℚ) (hx : roundBinary prec emin x = x) : roundBinary prec2 emin2 x = x := by
  have hm := roundBinary_significand prec emin x
  have h := roundBinary_dyadic_le prec2 emin2 (roundHalfEven (x / ulp prec emin x))
    (binaryExponent emin x - ((prec : Int) - 1)) (by omega)
    (hm.trans (pow_le_pow_right₀ (by norm_num) hprec))
    (by have := binaryExponent_ge emin x; omega)
  have e : (roundHalfEven (x / ulp prec emin x) : ℚ) *
      2 ^ (binaryExponent emin x - ((prec : Int) - 1)) = x := hx
  rw [e] at h
  exact h

theorem roundBinary_intCast (prec : Nat) (emin : Int) (z : Int) (hp : 1 ≤ prec)
    (hz : |z| ≤ 2 ^ prec) (hemin : emin - ((prec : Int) - 1) ≤ 0) :
    roundBinary prec emin (z : ℚ) = z := by
  have := roundBinary_dyadic_le prec emin z 0 hp hz hemin
  simpa using this

/-- Rounding is monotone on the non-negative numbers. -/
theorem roundBinary_mono (prec : Nat) (emin : Int) (hp : 1 ≤ prec) {x y : ℚ} (hx : 0 ≤ x)
    (hxy : x ≤ y) : roundBinary prec emin x ≤ roundBinary prec emin y := by
  have hy : 0 ≤ y := hx.trans hxy
  rcases eq_or_lt_of_le hx with h0 | hpos
  · rw [← h0, roundBinary_zero]
    exact roundBinary_nonneg prec emin hy
  have hypos : 0 < y := lt_of_lt_of_le hpos hxy
  have hlog : Int.log 2 |x| ≤ Int.log 2 |y| := by
    rw [abs_of_pos hpos, abs_of_pos hypos]
    exact Int.log_mono_right hpos hxy
  have hE : binaryExponent emin x ≤ binaryExponent emin y := by
    unfold binaryExponent
    exact max_le_max hlog le_rfl
  rcases eq_or_lt_of_le hE with heq | hlt
  · have hu : ulp prec emin x = ulp prec emin y := by unfold ulp; rw [heq]
    unfold roundBinary
    rw [hu]
    have hupos := ulp_pos prec emin y
    apply mul_le_mul_of_nonneg_right _ hupos.le
    have := roundHalfEven_mono (div_le_div_of_nonneg_right hxy hupos.le)
    exact_mod_cast this
  · -- the binades differ: the power of two between them separates the roundings
    have h1 : roundBinary prec emin x ≤ (2 : ℚ) ^ (binaryExponent emin x + 1) := by
      have hs := roundBinary_significand prec emin x
      have hs2 : (roundHalfEven (x / ulp prec emin x) : ℚ) ≤ (2 : ℚ) ^ prec := by
        have : roundHalfEven (x / ulp prec emin x) ≤ 2 ^ prec := (abs_le.mp hs).2
        exact_mod_cast this
      unfold roundBinary
      have hupos := ulp_pos prec emin x
      calc (roundHalfEven (x / ulp prec emin x) : ℚ) * ulp prec emin x
          ≤ (2 : ℚ) ^ prec * ulp prec emin x := mul_le_mul_of_nonneg_right hs2 hupos.le
        _ = (2 : ℚ) ^ (binaryExponent emin x + 1) := by
          unfold ulp
          rw [← zpow_natCast, ← zpow_add₀ (by norm_num)]
          congr 1
          omega
    have h2 : (2 : ℚ) ^ (binaryExponent emin x + 1) ≤ (2 : ℚ) ^ binaryExponent emin y :=
      zpow_le_zpow_right₀ (by norm_num) (by omega)
    have hEy : binaryExponent emin y = Int.log 2 |y| := by
      have := binaryExponent_ge emin x
      unfold binaryExponent at hlt ⊢
      rcases max_cases (Int.log 2 |y|) emin with ⟨h, _⟩ | ⟨h, _⟩
      · exact h
      · rw [h] at hlt
        exfalso
        have := le_max_right (Int.log 2 |x|) emin
        omega
    have h3 : (2 : ℚ) ^ binaryExponent emin y ≤ roundBinary prec emin y := by
      obtain ⟨q, rfl⟩ : ∃ q : Nat, prec = q + 1 := ⟨prec - 1, by omega⟩
      have hupos := ulp_pos (q + 1) emin y
      have hle : (2 : ℚ) ^ binaryExponent emin y ≤ y := by
        rw [hEy]
        exact (zpow_log_le_abs y (ne_of_gt hypos)).trans (le_of_eq (abs_of_pos hypos))
      have hpow : (2 : ℚ) ^ binaryExponent emin y = ((2 ^ q : Int) : ℚ) * ulp (q + 1) emin y := by
        unfold ulp
        push_cast
        rw [← zpow_natCast, ← zpow_add₀ (by norm_num)]
        congr 1
        ring
      have hq : ((2 ^ q : Int) : ℚ) ≤ y / ulp (q + 1) emin y := by
        rw [le_div_iff₀ hupos, ← hpow]
        exact hle
      have := intCast_le_roundHalfEven hq
      have h4 : ((2 ^ q : Int) : ℚ) ≤ (roundHalfEven (y / ulp (q + 1) emin y) : ℚ) := by
        exact_mod_cast this
      unfold roundBinary
      rw [hpow]
      exact mul_le_mul_of_nonneg_right h4 hupos.le
    linarith

theorem ulp_le (prec : Nat) (emin : Int) (x : ℚ) (hx : x ≠ 0) :
    ulp prec emin x ≤ |x| * 2 ^ (1 - (prec : Int)) + 2 ^ (emin - ((prec : Int) - 1)) := by
  unfold ulp binaryExponent
  rcases max_cases (Int.log 2 |x|) emin with ⟨h, hge⟩ | ⟨h, hlt⟩
  · rw [h]
    have h1 := zpow_log_le_abs x hx
    have h2 : (2 : ℚ) ^ (Int.log 2 |x| - ((prec : Int) - 1)) =
        2 ^ Int.log 2 |x| * 2 ^ (1 - (prec : Int)) := by
      rw [← zpow_add₀ (by norm_num)]
      congr 1
      ring
    rw [h2]
    have h3 : (2 : ℚ) ^ Int.log 2 |x| * 2 ^ (1 - (prec : Int)) ≤ |x| * 2 ^ (1 - (prec : Int)) :=
      mul_le_mul_of_nonneg_right h1 (by positivity)
    have h4 : (0 : ℚ) < 2 ^ (emin - ((prec : Int) - 1)) := by positivity
    linarith
  · rw [h]
    have : (0 : ℚ) ≤ |x| * 2 ^ (1 - (prec : Int)) := by positivity
    linarith


/-- The rounding error: half a unit in the last place, which is at most the
relative error `2 ^ (-prec)` plus half the least subnormal. -/
theorem roundBinary_abs_error (prec : Nat) (emin : Int) (x : ℚ) :
    |roundBinary prec emin x - x| ≤
      (|x| * 2 ^ (1 - (prec : Int)) + 2 ^ (emin - ((prec : Int) - 1))) / 2 := by
  by_cases hx : x = 0
  · subst hx
    rw [roundBinary_zero]
    simp only [sub_zero, abs_zero, zero_mul, zero_add]
    positivity
  · have h1 := roundBinary_error prec emin x
    have h2 := ulp_le prec emin x hx
    linarith


theorem roundHalfEven_neg (x : ℚ) : roundHalfEven (-x) = -roundHalfEven x := by
  have h1 := Int.floor_le x
  have h2 := Int.lt_floor_add_one x
  by_cases hx : x = (⌊x⌋ : ℚ)
  · have hg : ⌊-x⌋ = -⌊x⌋ := by
      rw [Int.floor_eq_iff]
      push_cast
      constructor <;> linarith
    unfold roundHalfEven
    rw [hg]
    push_cast
    rw [if_pos (by linarith), if_pos (by linarith)]
  · have hlt : (⌊x⌋ : ℚ) < x := lt_of_le_of_ne h1 (Ne.symm hx)
    have hg : ⌊-x⌋ = -⌊x⌋ - 1 := by
      rw [Int.floor_eq_iff]
      push_cast
      constructor <;> linarith
    unfold roundHalfEven
    rw [hg]
    push_cast
    split_ifs <;> first | omega | (exfalso; linarith)

/-- Rounding is odd. -/
theorem roundBinary_neg (prec : Nat) (emin : Int) (x : ℚ) :
    roundBinary prec emin (-x) = -roundBinary prec emin x := by
  have hu : ulp prec emin (-x) = ulp prec emin x := by
    unfold ulp binaryExponent
    rw [abs_neg]
  unfold roundBinary
  rw [hu, neg_div, roundHalfEven_neg]
  push_cast
  ring

/-- Rounding is monotone. -/
theorem roundBinary_monotone (prec : Nat) (emin : Int) (hp : 1 ≤ prec) {x y : ℚ}
    (hxy : x ≤ y) : roundBinary prec emin x ≤ roundBinary prec emin y := by
  rcases le_or_lt 0 x with hx | hx
  · exact roundBinary_mono prec emin hp hx hxy
  · rcases le_or_lt 0 y with hy | hy
    · exact (roundBinary_nonpos prec emin hx.le).trans (roundBinary_nonneg prec emin hy)
    · have h := roundBinary_mono prec emin hp (x := -y) (y := -x) (by linarith) (by linarith)
      rw [roundBinary_neg, roundBinary_neg] at h
      linarith

theorem roundDouble_zero : roundDouble 0 = 0 := roundBinary_zero 53 (-1022)

theorem roundFloat_zero : roundFloat 0 = 0 := roundBinary_zero 24 (-126)

theorem roundDouble_nonneg {x : ℚ} (hx : 0 ≤ x) : 0 ≤ roundDouble x :=
  roundBinary_nonneg 53 (-1022) hx

theorem roundDouble_mono {x y : ℚ} (hxy : x ≤ y) : roundDouble x ≤ roundDouble y :=
  roundBinary_monotone 53 (-1022) (by norm_num) hxy

theorem roundFloat_mono {x y : ℚ} (hxy : x ≤ y) : roundFloat x ≤ roundFloat y :=
  roundBinary_monotone 24 (-126) (by norm_num) hxy

theorem roundDouble_idem (x : ℚ) : roundDouble (roundDouble x) = roundDouble x :=
  roundBinary_idem 53 (-1022) (by norm_num) x

/-- Every integer of magnitude at most `2 ^ 53` is a `double`. -/
theorem roundDouble_intCast (z : Int) (hz : |z| ≤ 9007199254740992) :
    roundDouble (z : ℚ) = z :=
  roundBinary_intCast 53 (-1022) z (by norm_num) (by norm_num; exact hz) (by norm_num)

/-- Every integer of magnitude at most `2 ^ 24` is a `float`. -/
theorem roundFloat_intCast (z : Int) (hz : |z| ≤ 16777216) : roundFloat (z : ℚ) = z :=
  roundBinary_intCast 24 (-126) z (by norm_num) (by norm_num; exact hz) (by norm_num)

/-- Every `float` is a `double`. -/
theorem roundDouble_of_roundFloat (x : ℚ) (hx : roundFloat x = x) : roundDouble x = x :=
  roundBinary_widen 24 53 (-126) (-1022) (by norm_num) (by norm_num) (by norm_num) x hx

/-- Adding a non-negative number to a `double` does not give a smaller `double`. -/
theorem le_roundDouble_add (x r : ℚ) (hx : roundDouble x = x) (hr : 0 ≤ r) :
    x ≤ roundDouble (x + r) := by
  have := roundDouble_mono (show x ≤ x + r by linarith)
  rwa [hx] at this

/-- The error of a rounding into `double`. -/
theorem roundDouble_abs_error (x : ℚ) :
    |roundDouble x - x| ≤ (|x| * 2 ^ (-52 : Int) + 2 ^ (-1074 : Int)) / 2 := by
  have := roundBinary_abs_error 53 (-1022) x
  norm_num at this ⊢
  exact this

/-- The error of a rounding into `float`. -/
theorem roundFloat_abs_error (x : ℚ) :
    |roundFloat x - x| ≤ (|x| * 2 ^ (-23 : Int) + 2 ^ (-149 : Int)) / 2 := by
  have := roundBinary_abs_error 24 (-126) x
  norm_num at this ⊢
  exact this

theorem roundHalfEven_tie (m : Int) :
    roundHalfEven ((m : ℚ) + 1 / 2) = if m % 2 = 0 then m else m + 1 := by
  have hf : ⌊(m : ℚ) + 1 / 2⌋ = m := by
    rw [Int.floor_eq_iff]
    constructor <;> linarith
  unfold roundHalfEven
  rw [hf]
  rw [if_neg (by linarith), if_neg (by linarith)]

/-- Evaluation of a rounding at a tie: `x` is `m + 1/2` units in the last
place and `r` is the even one of `m` and `m + 1`. -/
theorem roundBinary_eval_tie (prec : Nat) (emin : Int) (x : ℚ) (e m r : Int)
    (h1 : (2 : ℚ) ^ e ≤ |x|) (h2 : |x| < (2 : ℚ) ^ (e + 1)) (hemin : emin ≤ e)
    (hx : x = ((m : ℚ) + 1 / 2) * 2 ^ (e - ((prec : Int) - 1)))
    (hr : r = if m % 2 = 0 then m else m + 1) :
    roundBinary prec emin x = (r : ℚ) * 2 ^ (e - ((prec : Int) - 1)) := by
  have he := binaryExponent_eq emin x e h1 h2 hemin
  have hpos : (0 : ℚ) < 2 ^ (e - ((prec : Int) - 1)) := by positivity
  unfold roundBinary ulp
  rw [he]
  have hq : x / 2 ^ (e - ((prec : Int) - 1)) = (m : ℚ) + 1 / 2 := by
    rw [div_eq_iff (ne_of_gt hpos)]
    exact hx
  rw [hq, roundHalfEven_tie, ← hr]

/-- With a step that is not negative the accumulated position does not
move back. -/
theorem le_accumulate (step : ℚ) (hstep : 0 ≤ step) (j : Nat) :
    ∀ x : ℚ, roundDouble x = x → x ≤ accumulate step j x := by
  induction j with
  | zero => intro x _; exact le_rfl
  | succ j ih =>
    intro x hx
    exact (le_roundDouble_add x step hx hstep).trans (ih _ (roundDouble_idem _))

theorem accumulate_succ (step : ℚ) (j : Nat) (x : ℚ) :
    accumulate step (j + 1) x = accumulate step j (roundDouble (x + step)) := rfl

/-- The last of `j + 1` additions. -/
theorem accumulate_succ_last (step : ℚ) (j : Nat) :
    ∀ x : ℚ, accumulate step (j + 1) x = roundDouble (accumulate step j x + step) := by
  induction j with
  | zero => intro x; rfl
  | succ j ih =>
    intro x
    rw [accumulate_succ, ih]
    rfl



/-! ## Helper lemmas: eleven additions of the `double` nearest to `1 / 10` -/

/-- The `double` nearest to `1 / 10`. -/
theorem roundDouble_tenth : roundDouble (1 / 10) = 3602879701896397 / 36028797018963968 := by
  unfold roundDouble
  rw [roundBinary_eval 53 (-1022) _ (-4) 7205759403792794 (by norm_num [abs_of_pos])
    (by norm_num [abs_of_pos]) (by norm_num) (by norm_num) (by norm_num)]
  norm_num

/-- The positions that repeated addition of the `double` nearest to `1 / 10`
gives from 0: after ten additions `1 - 2 ^ (-53)`, not 1. -/
theorem accumulate_tenth :
    ∀ j : Nat, j ≤ 11 →
      accumulate (3602879701896397 / 36028797018963968) j 0 =
        [0, 3602879701896397 / 36028797018963968, 3602879701896397 / 18014398509481984, 1351079888211149 / 4503599627370496, 3602879701896397 / 9007199254740992, 1 / 2, 5404319552844595 / 9007199254740992, 3152519739159347 / 4503599627370496, 7205759403792793 / 9007199254740992, 2026619832316723 / 2251799813685248, 9007199254740991 / 9007199254740992, 4953959590107545 / 4503599627370496].getD j 0 := by
  have a0 : accumulate (3602879701896397 / 36028797018963968) 0 0 = 0 := rfl
  have s0 : roundDouble ((0 : ℚ) + 3602879701896397 / 36028797018963968) = 3602879701896397 / 36028797018963968 := by
    unfold roundDouble
    rw [roundBinary_eval 53 (-1022) _ (-4) (7205759403792794) (by norm_num [abs_of_pos, abs_of_neg])
      (by norm_num [abs_of_pos, abs_of_neg]) (by norm_num) (by norm_num) (by norm_num)]
    norm_num
  have a1 : accumulate (3602879701896397 / 36028797018963968) 1 0 = 3602879701896397 / 36028797018963968 := by
    rw [accumulate_succ_last, a0, s0]
  have s1 : roundDouble ((3602879701896397 / 36028797018963968 : ℚ) + 3602879701896397 / 36028797018963968) = 3602879701896397 / 18014398509481984 := by
    unfold roundDouble
    rw [roundBinary_eval 53 (-1022) _ (-3) (7205759403792794) (by norm_num [abs_of_pos, abs_of_neg])
      (by norm_num [abs_of_pos, abs_of_neg]) (by norm_num) (by norm_num) (by norm_num)]
    norm_num
  have a2 : accumulate (3602879701896397 / 36028797018963968) 2 0 = 3602879701896397 / 18014398509481984 := by
    rw [accumulate_succ_last, a1, s1]
  have s2 : roundDouble ((3602879701896397 / 18014398509481984 : ℚ) + 3602879701896397 / 36028797018963968) = 1351079888211149 / 4503599627370496 := by
    unfold roundDouble
    rw [roundBinary_eval_tie 53 (-1022) _ (-2) (5404319552844595) (5404319552844596) (by norm_num [abs_of_pos, abs_of_neg])
      (by norm_num [abs_of_pos, abs_of_neg]) (by norm_num) (by norm_num) (by norm_num)]
    norm_num
  have a3 : accumulate (3602879701896397 / 36028797018963968) 3 0 = 1351079888211149 / 4503599627370496 := by
    rw [accumulate_succ_last, a2, s2]
  have s3 : roundDouble ((1351079888211149 / 4503599627370496 : ℚ) + 3602879701896397 / 36028797018963968) = 3602879701896397 / 9007199254740992 := by
    unfold roundDouble
    rw [roundBinary_eval_tie 53 (-1022) _ (-2) (7205759403792794) (7205759403792794) (by norm_num [abs_of_pos, abs_of_neg])
      (by norm_num [abs_of_pos, abs_of_neg]) (by norm_num) (by norm_num) (by norm_num)]
    norm_num
  have a4 : accumulate (3602879701896397 / 36028797018963968) 4 0 = 3602879701896397 / 9007199254740992 := by
    rw [accumulate_succ_last, a3, s3]
  have s4 : roundDouble ((3602879701896397 / 9007199254740992 : ℚ) + 3602879701896397 / 36028797018963968) = 1 / 2 := by
    unfold roundDouble
    rw [roundBinary_eval 53 (-1022) _ (-1) (4503599627370496) (by norm_num [abs_of_pos, abs_of_neg])
      (by norm_num [abs_of_pos, abs_of_neg]) (by norm_num) (by norm_num) (by norm_num)]
    norm_num
  have a5 : accumulate (3602879701896397 / 36028797018963968) 5 0 = 1 / 2 := by
    rw [accumulate_succ_last, a4, s4]
  have s5 : roundDouble ((1 / 2 : ℚ) + 3602879701896397 / 36028797018963968) = 5404319552844595 / 9007199254740992 := by
    unfold roundDouble
    rw [roundBinary_eval 53 (-1022) _ (-1) (5404319552844595) (by norm_num [abs_of_pos, abs_of_neg])
      (by norm_num [abs_of_pos, abs_of_neg]) (by norm_num) (by norm_num) (by norm_num)]
    norm_num
  have a6 : accumulate (3602879701896397 / 36028797018963968) 6 0 = 5404319552844595 / 9007199254740992 := by
    rw [accumulate_succ_last, a5, s5]
  have s6 : roundDouble ((5404319552844595 / 9007199254740992 : ℚ) + 3602879701896397 / 36028797018963968) = 3152519739159347 / 4503599627370496 := by
    unfold roundDouble
    rw [roundBinary_eval 53 (-1022) _ (-1) (6305039478318694) (by norm_num [abs_of_pos, abs_of_neg])
      (by norm_num [abs_of_pos, abs_of_neg]) (by norm_num) (by norm_num) (by norm_num)]
    norm_num
  have a7 : accumulate (3602879701896397 / 36028797018963968) 7 0 = 3152519739159347 / 4503599627370496 := by
    rw [accumulate_succ_last, a6, s6]
  have s7 : roundDouble ((3152519739159347 / 4503599627370496 : ℚ) + 3602879701896397 / 36028797018963968) = 7205759403792793 / 9007199254740992 := by
    unfold roundDouble
    rw [roundBinary_eval 53 (-1022) _ (-1) (7205759403792793) (by norm_num [abs_of_pos, abs_of_neg])
      (by norm_num [abs_of_pos, abs_of_neg]) (by norm_num) (by norm_num) (by norm_num)]
    norm_num
  have a8 : accumulate (3602879701896397 / 36028797018963968) 8 0 = 7205759403792793 / 9007199254740992 := by
    rw [accumulate_succ_last, a7, s7]
  have s8 : roundDouble ((7205759403792793 / 9007199254740992 : ℚ) + 3602879701896397 / 36028797018963968) = 2026619832316723 / 2251799813685248 := by
    unfold roundDouble
    rw [roundBinary_eval 53 (-1022) _ (-1) (8106479329266892) (by norm_num [abs_of_pos, abs_of_neg])
      (by norm_num [abs_of_pos, abs_of_neg]) (by norm_num) (by norm_num) (by norm_num)]
    norm_num
  have a9 : accumulate (3602879701896397 / 36028797018963968) 9 0 = 2026619832316723 / 2251799813685248 := by
    rw [accumulate_succ_last, a8, s8]
  have s9 : roundDouble ((2026619832316723 / 2251799813685248 : ℚ) + 3602879701896397 / 36028797018963968) = 9007199254740991 / 9007199254740992 := by
    unfold roundDouble
    rw [roundBinary_eval 53 (-1022) _ (-1) (9007199254740991) (by norm_num [abs_of_pos, abs_of_neg])
      (by norm_num [abs_of_pos, abs_of_neg]) (by norm_num) (by norm_num) (by norm_num)]
    norm_num
  have a10 : accumulate (3602879701896397 / 36028797018963968) 10 0 = 9007199254740991 / 9007199254740992 := by
    rw [accumulate_succ_last, a9, s9]
  have s10 : roundDouble ((9007199254740991 / 9007199254740992 : ℚ) + 3602879701896397 / 36028797018963968) = 4953959590107545 / 4503599627370496 := by
    unfold roundDouble
    rw [roundBinary_eval 53 (-1022) _ (0) (4953959590107545) (by norm_num [abs_of_pos, abs_of_neg])
      (by norm_num [abs_of_pos, abs_of_neg]) (by norm_num) (by norm_num) (by norm_num)]
    norm_num
  have a11 : accumulate (3602879701896397 / 36028797018963968) 11 0 = 4953959590107545 / 4503599627370496 := by
    rw [accumulate_succ_last, a10, s10]

  intro j hj
  interval_cases j
  · exact a0
  · exact a1
  · exact a2
  · exact a3
  · exact a4
  · exact a5
  · exact a6
  · exact a7
  · exact a8
  · exact a9
  · exact a10
  · exact a11


/-! ## Helper lemmas: six additions of the `double` nearest to `1 / 6` -/

/-- The `double` nearest to `1 / 6`. -/
theorem roundDouble_sixth : roundDouble (1 / 6) = 6004799503160661 / 36028797018963968 := by
  have h : roundDouble (1 / 6) = 6004799503160661 / 36028797018963968 := by
    unfold roundDouble
    rw [roundBinary_eval 53 (-1022) _ (-3) (6004799503160661) (by norm_num [abs_of_pos, abs_of_neg])
      (by norm_num [abs_of_pos, abs_of_neg]) (by norm_num) (by norm_num) (by norm_num)]
    norm_num
  exact h

/-- The `float` nearest to the `double` nearest to `1 / 6`. -/
theorem roundFloat_sixth : roundFloat (6004799503160661 / 36028797018963968) = 11184811 / 67108864 := by
  have h : roundFloat (6004799503160661 / 36028797018963968) = 11184811 / 67108864 := by
    unfold roundFloat
    rw [roundBinary_eval 24 (-126) _ (-3) (11184811) (by norm_num [abs_of_pos, abs_of_neg])
      (by norm_num [abs_of_pos, abs_of_neg]) (by norm_num) (by norm_num) (by norm_num)]
    norm_num
  exact h

/-- The positions that repeated addition of the `double` nearest to `1 / 6`
gives from 0: after six additions `1 - 2 ^ (-53)`, not 1. -/
theorem accumulate_sixth :
    ∀ j : Nat, j ≤ 6 →
      accumulate (6004799503160661 / 36028797018963968) j 0 =
        [0, 6004799503160661 / 36028797018963968, 6004799503160661 / 18014398509481984, 1 / 2, 6004799503160661 / 9007199254740992, 3752999689475413 / 4503599627370496, 9007199254740991 / 9007199254740992].getD j 0 := by
  have a0 : accumulate (6004799503160661 / 36028797018963968) 0 0 = 0 := rfl
  have s0 : roundDouble ((0 : ℚ) + 6004799503160661 / 36028797018963968) = 6004799503160661 / 36028797018963968 := by
    unfold roundDouble
    rw [roundBinary_eval 53 (-1022) _ (-3) (6004799503160661) (by norm_num [abs_of_pos, abs_of_neg])
      (by norm_num [abs_of_pos, abs_of_neg]) (by norm_num) (by norm_num) (by norm_num)]
    norm_num
  have a1 : accumulate (6004799503160661 / 36028797018963968) 1 0 = 6004799503160661 / 36028797018963968 := by
    rw [accumulate_succ_last, a0, s0]
  have s1 : roundDouble ((6004799503160661 / 36028797018963968 : ℚ) + 6004799503160661 / 36028797018963968) = 6004799503160661 / 18014398509481984 := by
    unfold roundDouble
    rw [roundBinary_eval 53 (-1022) _ (-2) (6004799503160661) (by norm_num [abs_of_pos, abs_of_neg])
      (by norm_num [abs_of_pos, abs_of_neg]) (by norm_num) (by norm_num) (by norm_num)]
    norm_num
  have a2 : accumulate (6004799503160661 / 36028797018963968) 2 0 = 6004799503160661 / 18014398509481984 := by
    rw [accumulate_succ_last, a1, s1]
  have s2 : roundDouble ((6004799503160661 / 18014398509481984 : ℚ) + 6004799503160661 / 36028797018963968) = 1 / 2 := by
    unfold roundDouble
    rw [roundBinary_eval_tie 53 (-1022) _ (-2) (9007199254740991) (9007199254740992) (by norm_num [abs_of_pos, abs_of_neg])
      (by norm_num [abs_of_pos, abs_of_neg]) (by norm_num) (by norm_num) (by norm_num)]
    norm_num
  have a3 : accumulate (6004799503160661 / 36028797018963968) 3 0 = 1 / 2 := by
    rw [accumulate_succ_last, a2, s2]
  have s3 : roundDouble ((1 / 2 : ℚ) + 6004799503160661 / 36028797018963968) = 6004799503160661 / 9007199254740992 := by
    unfold roundDouble
    rw [roundBinary_eval 53 (-1022) _ (-1) (6004799503160661) (by norm_num [abs_of_pos, abs_of_neg])
      (by norm_num [abs_of_pos, abs_of_neg]) (by norm_num) (by norm_num) (by norm_num)]
    norm_num
  have a4 : accumulate (6004799503160661 / 36028797018963968) 4 0 = 6004799503160661 / 9007199254740992 := by
    rw [accumulate_succ_last, a3, s3]
  have s4 : roundDouble ((6004799503160661 / 9007199254740992 : ℚ) + 6004799503160661 / 36028797018963968) = 3752999689475413 / 4503599627370496 := by
    unfold roundDouble
    rw [roundBinary_eval 53 (-1022) _ (-1) (7505999378950826) (by norm_num [abs_of_pos, abs_of_neg])
      (by norm_num [abs_of_pos, abs_of_neg]) (by norm_num) (by norm_num) (by norm_num)]
    norm_num
  have a5 : accumulate (6004799503160661 / 36028797018963968) 5 0 = 3752999689475413 / 4503599627370496 := by
    rw [accumulate_succ_last, a4, s4]
  have s5 : roundDouble ((3752999689475413 / 4503599627370496 : ℚ) + 6004799503160661 / 36028797018963968) = 9007199254740991 / 9007199254740992 := by
    unfold roundDouble
    rw [roundBinary_eval 53 (-1022) _ (-1) (9007199254740991) (by norm_num [abs_of_pos, abs_of_neg])
      (by norm_num [abs_of_pos, abs_of_neg]) (by norm_num) (by norm_num) (by norm_num)]
    norm_num
  have a6 : accumulate (6004799503160661 / 36028797018963968) 6 0 = 9007199254740991 / 9007199254740992 := by
    rw [accumulate_succ_last, a5, s5]
  intro j hj
  interval_cases j
  · exact a0
  · exact a1
  · exact a2
  · exact a3
  · exact a4
  · exact a5
  · exact a6

/-! ## Arithmetic of the helpers -/

@[simp] theorem jmin_int (a b : Int) : jmin a b = min a b := by
  unfold jmin; split_ifs <;> omega
@[simp] theorem jmax_int (a b : Int) : jmax a b = max a b := by
  unfold jmax; split_ifs <;> omega
theorem jlimit_int (lo hi v : Int) (h : lo ≤ hi) : jlimit lo hi v = min (max v lo) hi := by
  unfold jlimit; split_ifs <;> omega
theorem toInt32_of_range (x : Int) (h1 : -2147483648 ≤ x) (h2 : x < 2147483648) : toInt32 x = x := by
  unfold toInt32; omega
@[simp] theorem toInt32_zero : toInt32 0 = 0 := by decide

theorem truncToInt_intCast (z : Int) : truncToInt (z : ℚ) = z := by
  simp [truncToInt]

theorem truncToInt_of_nonneg (x : ℚ) (h : 0 ≤ x) : truncToInt x = ⌊x⌋ := by
  unfold truncToInt
  rw [Rat.floor_def, Int.tdiv_eq_ediv (Rat.num_nonneg.mpr h) (Int.ofNat_nonneg _)]

theorem passLoop_done (c : RenderCtx) (fuel : Nat) (s : PassState)
    (h : c.numSamples ≤ s.samplesWritten) : passLoop c fuel s = some s := by
  cases fuel <;> simp [passLoop, not_lt.mpr h]

theorem passLoop_succ (c : RenderCtx) (fuel : Nat) (s : PassState)
    (h : s.samplesWritten < c.numSamples) :
    passLoop c (fuel + 1) s =
      if (passBody c s).2 = true then some (passBody c s).1 else passLoop c fuel (passBody c s).1 := by
  rw [passLoop, if_pos h]
  rcases hb : passBody c s with ⟨s', b⟩
  cases b <;> simp

theorem passBody_inside (c : RenderCtx) (s : PassState)
    (hE : s.currentSample < c.effectiveLength)
    (hL : c.hasLoop = true → s.currentSample < c.loopEnd) :
    passBody c s = passWrite c s := by
  unfold passBody
  rw [if_neg]
  rintro (h | ⟨hh, h⟩)
  · omega
  · have := hL hh; omega

theorem passBody_wrap (c : RenderCtx) (s : PassState) (hh : c.hasLoop = true)
    (hEnd : c.effectiveLength ≤ s.currentSample ∨ c.loopEnd ≤ s.currentSample) :
    passBody c s =
      passWrite c { s with currentSample := c.loopStart,
                           wrapFrames := s.wrapFrames ++ [s.samplesWritten] } := by
  unfold passBody
  rw [if_pos, if_pos hh]
  rcases hEnd with h | h
  · exact Or.inl h
  · exact Or.inr ⟨hh, h⟩

theorem passWrite_copy (c : RenderCtx) (s : PassState) (lim bp k : Int)
    (hlim : lim = if c.hasLoop = true then c.loopEnd else c.effectiveLength)
    (hL : s.currentSample < lim) (hw : s.samplesWritten < c.numSamples)
    (hpad : c.paddingSamples ≤ 0 ∨ c.paddingSamples ≤ s.currentSample)
    (hbp : bp = toInt32 c.effectiveStart + s.currentSample - toInt32 c.paddingSamples)
    (hbp0 : 0 ≤ bp) (hbpN : bp < c.totalSamples)
    (hk : k = min (min (c.numSamples - s.samplesWritten) (lim - s.currentSample))
                (c.totalSamples - bp)) :
    passWrite c s =
      ({ s with out := s.out.copyRange c.channelCount s.samplesWritten c.buffer bp k,
                currentSample := s.currentSample + k,
                samplesWritten := s.samplesWritten + k }, false) := by
  have hjl : jlimit 0 (c.totalSamples - 1)
      (toInt32 c.effectiveStart + s.currentSample - toInt32 c.paddingSamples) = bp := by
    rw [jlimit_int _ _ _ (by omega)]; omega
  have hnp : ¬ (c.paddingSamples > 0 ∧ s.currentSample < c.paddingSamples) := by omega
  have hstw : (jmin (c.numSamples - s.samplesWritten)
      (if c.hasLoop = true then jmax 0 (c.loopEnd - s.currentSample)
       else jmax 0 (c.effectiveLength - s.currentSample)))
      = min (c.numSamples - s.samplesWritten) (lim - s.currentSample) := by
    rw [hlim] at hL ⊢
    split_ifs at hL ⊢ <;> simp only [jmin_int, jmax_int] <;> omega
  unfold passWrite
  simp only [hstw, hjl]
  rw [if_neg (by omega), if_neg hnp, jmin_int, ← hk]

/-- The engine as `updateResamplingState` leaves it when the callback
renders: only the three resampling fields change. -/
theorem updateResamplingState_rendering (p : AudioPlayer) (ps : MSUProjectState)
    (hps : p.projectState = some ps) (hN : 0 < ps.audioBuffer.numSamples)
    (hsr : 0 < ps.projectSampleRate) (hdr : 0 < p.deviceSampleRate) :
    p.updateResamplingState =
      { p with
        resamplingActive :=
          decide (|ps.projectSampleRate - p.deviceSampleRate| > sampleRateToleranceHz)
        resamplingRatio :=
          if |ps.projectSampleRate - p.deviceSampleRate| > sampleRateToleranceHz then
            ps.projectSampleRate / p.deviceSampleRate
          else 1
        fractionalSample := (p.currentSample : ℚ) } := by
  unfold AudioPlayer.updateResamplingState
  simp only [hps, MSUProjectState.hasAudio, MSUProjectState.getSampleRate]
  have h1 : ¬ (ps.projectSampleRate ≤ 0 ∨ p.deviceSampleRate ≤ 0) := by
    rintro (h | h) <;> linarith
  simp [hN, h1]

/-- The callback on a rendering engine: the early returns are not taken. -/
theorem callback_rendering (fuel : Nat) (p : AudioPlayer) (ps : MSUProjectState)
    (out : OutputChannels) (nc n : Int)
    (hps : p.projectState = some ps) (hplay : p.playing = true)
    (hN : 0 < ps.audioBuffer.numSamples)
    (hsr : 0 < ps.projectSampleRate) (hdr : 0 < p.deviceSampleRate) :
    p.audioDeviceIOCallbackWithContext fuel out nc n =
      if p.updateResamplingState.resamplingActive = true then
        some (AudioPlayer.renderResampled (RenderCtx.make p.updateResamplingState ps nc n)
          p.updateResamplingState (clearOutput nc n out 0))
      else
        AudioPlayer.renderPassThrough fuel (RenderCtx.make p.updateResamplingState ps nc n)
          p.updateResamplingState (clearOutput nc n out 0) := by
  unfold AudioPlayer.audioDeviceIOCallbackWithContext
  have h1 : ¬ (ps.getSampleRate ≤ 0 ∨ p.deviceSampleRate ≤ 0 ∨ ps.audioBuffer.numSamples ≤ 0) := by
    unfold MSUProjectState.getSampleRate
    rintro (h | h | h)
    · linarith
    · linarith
    · omega
  simp only [hps, hplay, MSUProjectState.hasAudio, hN, decide_True, Bool.not_true,
    Bool.or_self, Bool.false_eq_true, if_false, if_neg h1]

theorem passLoop_step (c : RenderCtx) (fuel : Nat) (s s' : PassState)
    (hw : s.samplesWritten < c.numSamples) (hbody : passBody c s = (s', false)) :
    passLoop c (fuel + 1) s = passLoop c fuel s' := by
  rw [passLoop_succ c fuel s hw, hbody]; simp

@[simp] theorem clearOutput_isNull (nc n : Int) (out : OutputChannels) (start : Int) :
    (clearOutput nc n out start).isNull = out.isNull := by
  unfold clearOutput; split_ifs <;> rfl

/-- After `clearOutput (start)` every frame from `start` on is silent on
every non-null output channel. -/
theorem clearOutput_samples (nc n : Int) (out : OutputChannels) (start ch i : Int)
    (hch0 : 0 ≤ ch) (hch : ch < nc) (hnull : out.isNull ch = false)
    (hi0 : start ≤ i) (hi : i < n) :
    (clearOutput nc n out start).samples ch i = 0 := by
  unfold clearOutput
  rw [if_neg (by omega)]
  simp only [OutputChannels.clearRange]
  rw [if_pos ⟨hch0, hch, hnull, hi0, by omega⟩]

/-- The fields of the render context when the timeline has neither trim nor
padding. -/
theorem RenderCtx.make_plain (p : AudioPlayer) (ps : MSUProjectState) (nc n : Int)
    (htrim : ps.trimStartSample = 0) (hpad : ps.paddingSamples = 0) :
    RenderCtx.make p ps nc n =
      { numOutputChannels := nc
        numSamples := n
        buffer := ps.audioBuffer
        totalSamples := ps.audioBuffer.numSamples
        sourceSampleRate := ps.projectSampleRate
        resamplingRatio := p.resamplingRatio
        paddingSamples := 0
        effectiveStart := 0
        hasLoop := p.looping && ps.hasLoopPoints
        loopStart := if (p.looping && ps.hasLoopPoints) = true then toInt32 ps.loopStartSample else 0
        loopEnd := if (p.looping && ps.hasLoopPoints) = true then toInt32 ps.loopEndSample
                   else ps.audioBuffer.numSamples
        effectiveLength := ps.audioBuffer.numSamples
        channelCount := min nc ps.audioBuffer.numChannels } := by
  simp [RenderCtx.make, MSUProjectState.getEffectivePlaybackStart,
    MSUProjectState.getPaddingSamples, MSUProjectState.getLoopStart,
    MSUProjectState.getLoopEnd, MSUProjectState.getSampleRate, htrim, hpad]

/-! ## The resampling loop -/

theorem resampleBody_inside (c : RenderCtx) (i : Int) (s : ResampleState)
    (hE : truncToInt s.sourcePos < c.effectiveLength)
    (hL : c.hasLoop = true → truncToInt s.sourcePos < c.loopEnd) :
    resampleBody c i s = .next (resampleWrite c i s (truncToInt s.sourcePos)) := by
  unfold resampleBody
  simp only
  rw [if_neg]
  rintro (h | ⟨hh, h⟩)
  · omega
  · have := hL hh; omega

@[simp] theorem resampleWrite_sourcePos (c : RenderCtx) (i : Int) (s : ResampleState)
    (idx : Int) : (resampleWrite c i s idx).sourcePos = s.sourcePos + c.resamplingRatio := rfl

@[simp] theorem resampleWrite_playing (c : RenderCtx) (i : Int) (s : ResampleState)
    (idx : Int) : (resampleWrite c i s idx).playing = s.playing := rfl

@[simp] theorem resampleWrite_wrapFrames (c : RenderCtx) (i : Int) (s : ResampleState)
    (idx : Int) : (resampleWrite c i s idx).wrapFrames = s.wrapFrames := rfl

/-- Frames met before any loop or content boundary: the loop runs to its
end and the source position has advanced by the ratio once per frame. -/
theorem resampleLoop_inside (c : RenderCtx) (k : Nat) :
    ∀ (i : Int) (s : ResampleState),
      (∀ j : Nat, j < k →
        truncToInt (s.sourcePos + j * c.resamplingRatio) < c.effectiveLength ∧
        (c.hasLoop = true →
          truncToInt (s.sourcePos + j * c.resamplingRatio) < c.loopEnd)) →
      ∃ s', resampleLoop c k i s = .next s' ∧
        s'.sourcePos = s.sourcePos + k * c.resamplingRatio ∧
        s'.playing = s.playing ∧ s'.wrapFrames = s.wrapFrames := by
  induction k with
  | zero => intro i s _; exact ⟨s, rfl, by simp, rfl, rfl⟩
  | succ k ih =>
    intro i s h
    have h0 := h 0 (by omega)
    simp only [Nat.cast_zero, zero_mul, add_zero] at h0
    obtain ⟨s', hs', hpos, hplay, hwrap⟩ :=
      ih (i + 1) (resampleWrite c i s (truncToInt s.sourcePos)) (by
        intro j hj
        have := h (j + 1) (by omega)
        have he : s.sourcePos + ((j + 1 : Nat) : ℚ) * c.resamplingRatio =
            (resampleWrite c i s (truncToInt s.sourcePos)).sourcePos +
              (j : ℚ) * c.resamplingRatio := by
          simp only [resampleWrite_sourcePos]; push_cast; ring
        rw [he] at this
        exact this)
    refine ⟨s', ?_, ?_, ?_, ?_⟩
    · rw [resampleLoop, resampleBody_inside c i s h0.1 h0.2]
      exact hs'
    · rw [hpos]; simp only [resampleWrite_sourcePos]; push_cast; ring
    · rw [hplay]; rfl
    · rw [hwrap]; rfl

/-- The resampling callback on a block that meets no loop or content
boundary: the source position starts from the integer cursor and advances
by the ratio once per frame. -/
theorem callback_resampled_inside (fuel : Nat) (p : AudioPlayer) (ps : MSUProjectState)
    (out : OutputChannels) (nc n : Int)
    (hps : p.projectState = some ps) (hplay : p.playing = true)
    (hN : 0 < ps.audioBuffer.numSamples)
    (hsr : 0 < ps.projectSampleRate) (hdr : 0 < p.deviceSampleRate)
    (hact : |ps.projectSampleRate - p.deviceSampleRate| > sampleRateToleranceHz)
    (hin : ∀ j : Nat, j < n.toNat →
      truncToInt ((p.currentSample : ℚ) + j * (ps.projectSampleRate / p.deviceSampleRate)) <
          (RenderCtx.make p.updateResamplingState ps nc n).effectiveLength ∧
      ((RenderCtx.make p.updateResamplingState ps nc n).hasLoop = true →
        truncToInt ((p.currentSample : ℚ) + j * (ps.projectSampleRate / p.deviceSampleRate)) <
          (RenderCtx.make p.updateResamplingState ps nc n).loopEnd)) :
    ∃ r, p.audioDeviceIOCallbackWithContext fuel out nc n = some r ∧
      r.wrapFrames = [] ∧
      r.player =
        { p with
          resamplingActive := true
          resamplingRatio := ps.projectSampleRate / p.deviceSampleRate
          fractionalSample :=
            (p.currentSample : ℚ) + n.toNat * (ps.projectSampleRate / p.deviceSampleRate)
          currentSample :=
            jlimit 0 (RenderCtx.make p.updateResamplingState ps nc n).effectiveLength
              (truncToInt ((p.currentSample : ℚ) +
                n.toNat * (ps.projectSampleRate / p.deviceSampleRate)))
          currentPosition :=
            ((p.currentSample : ℚ) + n.toNat * (ps.projectSampleRate / p.deviceSampleRate)) /
              ps.projectSampleRate } := by
  have hup := updateResamplingState_rendering p ps hps hN hsr hdr
  rw [callback_rendering fuel p ps out nc n hps hplay hN hsr hdr]
  generalize p.updateResamplingState = p1 at hup hin ⊢
  have h1 : p1.resamplingActive = true := by rw [hup]; simp [hact]
  have h2 : p1.resamplingRatio = ps.projectSampleRate / p.deviceSampleRate := by
    rw [hup]; simp [hact]
  have h3 : p1.fractionalSample = (p.currentSample : ℚ) := by rw [hup]
  have h4 : (RenderCtx.make p1 ps nc n).resamplingRatio =
      ps.projectSampleRate / p.deviceSampleRate := h2
  rw [if_pos h1]
  obtain ⟨s', hs', hpos, hplaying, hwrap⟩ :=
    resampleLoop_inside (RenderCtx.make p1 ps nc n) n.toNat 0
      { sourcePos := p1.fractionalSample, playing := p1.playing,
        out := clearOutput nc n out 0, wrapFrames := [] }
      (by
        intro j hj
        simp only [h3, h4]
        exact hin j hj)
  have hn : (RenderCtx.make p1 ps nc n).numSamples = n := rfl
  refine ⟨_, rfl, ?_, ?_⟩
  · unfold AudioPlayer.renderResampled
    rw [hn, hs']
    exact hwrap
  · unfold AudioPlayer.renderResampled
    rw [hn, hs']
    simp only [hpos, hplaying, h3, h4]
    rw [hup]
    simp [hplay, hact, MSUProjectState.getSampleRate, RenderCtx.make]

@[simp] theorem truncToInt_zero : truncToInt 0 = 0 := by
  simp [truncToInt]

theorem truncToInt_three_halves : truncToInt (3 / 2) = 1 := by
  rw [truncToInt_of_nonneg _ (by norm_num), Int.floor_eq_iff]; norm_num

theorem truncToInt_five_halves : truncToInt (5 / 2) = 2 := by
  rw [truncToInt_of_nonneg _ (by norm_num), Int.floor_eq_iff]; norm_num

/-! ## Looping pass-through blocks without trim or padding -/

/-- The callback of a looping engine on a timeline without trim or padding,
device rate equal to the project rate: the pass-through loop runs in the
context written out here. -/
theorem callback_plain_looping (fuel : Nat) (p : AudioPlayer) (ps : MSUProjectState)
    (out : OutputChannels) (nc n : Int)
    (hps : p.projectState = some ps) (hplaying : p.playing = true)
    (hlooping : p.looping = true)
    (htrim : ps.trimStartSample = 0) (hpad : ps.paddingSamples = 0)
    (hrate : p.deviceSampleRate = ps.projectSampleRate) (hpos : 0 < ps.projectSampleRate)
    (hN32 : ps.audioBuffer.numSamples < 2147483648)
    (ha : 0 ≤ ps.loopStartSample) (hab : ps.loopStartSample < ps.loopEndSample)
    (hb : ps.loopEndSample ≤ ps.audioBuffer.numSamples) :
    p.audioDeviceIOCallbackWithContext fuel out nc n =
      (passLoop
        { numOutputChannels := nc
          numSamples := n
          buffer := ps.audioBuffer
          totalSamples := ps.audioBuffer.numSamples
          sourceSampleRate := ps.projectSampleRate
          resamplingRatio := 1
          paddingSamples := 0
          effectiveStart := 0
          hasLoop := true
          loopStart := ps.loopStartSample
          loopEnd := ps.loopEndSample
          effectiveLength := ps.audioBuffer.numSamples
          channelCount := min nc ps.audioBuffer.numChannels } fuel
        { currentSample := p.currentSample, samplesWritten := 0, playing := true,
          out := clearOutput nc n out 0, wrapFrames := [] }).map
        (fun s =>
          { player :=
              { p with playing := s.playing, currentSample := s.currentSample,
                       fractionalSample := (s.currentSample : ℚ),
                       currentPosition := (s.currentSample : ℚ) / ps.projectSampleRate,
                       resamplingRatio := 1, resamplingActive := false }
            out := s.out
            wrapFrames := s.wrapFrames }) := by
  have hdr : 0 < p.deviceSampleRate := by rw [hrate]; exact hpos
  rw [callback_rendering fuel p ps out _ _ hps hplaying (by omega) hpos hdr,
    updateResamplingState_rendering p ps hps (by omega) hpos hdr]
  have hact : ¬ (|ps.projectSampleRate - p.deviceSampleRate| > sampleRateToleranceHz) := by
    rw [hrate]; simp [sampleRateToleranceHz]
  simp only [hact, decide_False, Bool.false_eq_true, if_false]
  have hhl : (p.looping && ps.hasLoopPoints) = true := by
    simp [hlooping, MSUProjectState.hasLoopPoints, ha, hab]
  rw [RenderCtx.make_plain _ ps _ _ htrim hpad]
  simp only [hhl, if_true, toInt32_of_range ps.loopStartSample (by omega) (by omega),
    toInt32_of_range ps.loopEndSample (by omega) (by omega), hplaying]
  rfl

/-- A stretch of the block that ends at the loop end before the block is
full. -/
theorem passLoop_to_loopEnd (c : RenderCtx) (fuel : Nat) (s : PassState)
    (hh : c.hasLoop = true) (hpad : c.paddingSamples = 0) (hst : c.effectiveStart = 0)
    (hle : c.loopEnd ≤ c.effectiveLength) (hlen : c.effectiveLength ≤ c.totalSamples)
    (hc0 : 0 ≤ s.currentSample) (hc : s.currentSample < c.loopEnd)
    (hmore : c.loopEnd - s.currentSample < c.numSamples - s.samplesWritten) :
    passLoop c (fuel + 1) s =
      passLoop c fuel
        { s with out := s.out.copyRange c.channelCount s.samplesWritten c.buffer
                          s.currentSample (c.loopEnd - s.currentSample),
                 currentSample := s.currentSample + (c.loopEnd - s.currentSample),
                 samplesWritten := s.samplesWritten + (c.loopEnd - s.currentSample) } :=
  passLoop_step c fuel s _ (by omega)
    ((passBody_inside c s (by omega) (fun _ => hc)).trans
      (passWrite_copy c s c.loopEnd s.currentSample (c.loopEnd - s.currentSample) (by simp [hh]) hc (by omega)
        (by omega) (by simp [hpad, hst]) hc0 (by omega) (by omega)))

/-- A whole pass of the loop window, entered by a wrap, that ends at the
loop end before the block is full. -/
theorem passLoop_wrap_to_loopEnd (c : RenderCtx) (fuel : Nat) (s : PassState)
    (hh : c.hasLoop = true) (hpad : c.paddingSamples = 0) (hst : c.effectiveStart = 0)
    (hle : c.loopEnd ≤ c.effectiveLength) (hlen : c.effectiveLength ≤ c.totalSamples)
    (ha : 0 ≤ c.loopStart) (hab : c.loopStart < c.loopEnd)
    (hc : c.loopEnd ≤ s.currentSample)
    (hmore : c.loopEnd - c.loopStart < c.numSamples - s.samplesWritten) :
    passLoop c (fuel + 1) s =
      passLoop c fuel
        { s with out := s.out.copyRange c.channelCount s.samplesWritten c.buffer
                          c.loopStart (c.loopEnd - c.loopStart),
                 currentSample := c.loopStart + (c.loopEnd - c.loopStart),
                 samplesWritten := s.samplesWritten + (c.loopEnd - c.loopStart),
                 wrapFrames := s.wrapFrames ++ [s.samplesWritten] } :=
  passLoop_step c fuel s _ (by omega)
    ((passBody_wrap c s hh (Or.inr hc)).trans
      (passWrite_copy c _ c.loopEnd c.loopStart (c.loopEnd - c.loopStart) (by simp [hh]) hab (by simp; omega)
        (by omega) (by simp [hpad, hst]) ha (by omega) (by simp; omega)))

/-- The last stretch of a block, inside the loop window. -/
theorem passLoop_last (c : RenderCtx) (fuel : Nat) (s : PassState)
    (hh : c.hasLoop = true) (hpad : c.paddingSamples = 0) (hst : c.effectiveStart = 0)
    (hle : c.loopEnd ≤ c.effectiveLength) (hlen : c.effectiveLength ≤ c.totalSamples)
    (hc0 : 0 ≤ s.currentSample) (hc : s.currentSample < c.loopEnd)
    (hw : s.samplesWritten < c.numSamples)
    (hfit : c.numSamples - s.samplesWritten ≤ c.loopEnd - s.currentSample) :
    passLoop c (fuel + 1) s =
      some
        { s with out := s.out.copyRange c.channelCount s.samplesWritten c.buffer
                          s.currentSample (c.numSamples - s.samplesWritten),
                 currentSample := s.currentSample + (c.numSamples - s.samplesWritten),
                 samplesWritten := s.samplesWritten + (c.numSamples - s.samplesWritten) } := by
  rw [passLoop_step c fuel s _ hw
    ((passBody_inside c s (by omega) (fun _ => hc)).trans
      (passWrite_copy c s c.loopEnd s.currentSample (c.numSamples - s.samplesWritten) (by simp [hh]) hc hw
        (by omega) (by simp [hpad, hst]) hc0 (by omega) (by omega)))]
  exact passLoop_done c fuel _ (by simp)

/-- The last stretch of a block, entered by a wrap. -/
theorem passLoop_wrap_last (c : RenderCtx) (fuel : Nat) (s : PassState)
    (hh : c.hasLoop = true) (hpad : c.paddingSamples = 0) (hst : c.effectiveStart = 0)
    (hle : c.loopEnd ≤ c.effectiveLength) (hlen : c.effectiveLength ≤ c.totalSamples)
    (ha : 0 ≤ c.loopStart) (hab : c.loopStart < c.loopEnd)
    (hc : c.loopEnd ≤ s.currentSample)
    (hw : s.samplesWritten < c.numSamples)
    (hfit : c.numSamples - s.samplesWritten ≤ c.loopEnd - c.loopStart) :
    passLoop c (fuel + 1) s =
      some
        { s with out := s.out.copyRange c.channelCount s.samplesWritten c.buffer
                          c.loopStart (c.numSamples - s.samplesWritten),
                 currentSample := c.loopStart + (c.numSamples - s.samplesWritten),
                 samplesWritten := s.samplesWritten + (c.numSamples - s.samplesWritten),
                 wrapFrames := s.wrapFrames ++ [s.samplesWritten] } := by
  rw [passLoop_step c fuel s _ hw
    ((passBody_wrap c s hh (Or.inr hc)).trans
      (passWrite_copy c _ c.loopEnd c.loopStart (c.numSamples - s.samplesWritten) (by simp [hh]) hab (by simpa using hw)
        (by omega) (by simp [hpad, hst]) ha (by omega) (by simp; omega)))]
  exact passLoop_done c fuel _ (by simp)

/-- A looping pass-through block that stays before the loop end. -/
theorem callback_loop_noWrap (fuel : Nat) (p : AudioPlayer) (ps : MSUProjectState)
    (out : OutputChannels) (nc n : Int)
    (hps : p.projectState = some ps) (hplaying : p.playing = true)
    (hlooping : p.looping = true)
    (htrim : ps.trimStartSample = 0) (hpad : ps.paddingSamples = 0)
    (hrate : p.deviceSampleRate = ps.projectSampleRate) (hpos : 0 < ps.projectSampleRate)
    (hN32 : ps.audioBuffer.numSamples < 2147483648)
    (ha : 0 ≤ ps.loopStartSample) (hab : ps.loopStartSample < ps.loopEndSample)
    (hb : ps.loopEndSample ≤ ps.audioBuffer.numSamples)
    (hc0 : 0 ≤ p.currentSample) (hn0 : 0 < n)
    (hn : n ≤ ps.loopEndSample - p.currentSample) (hfuel : 1 ≤ fuel) :
    ∃ r, p.audioDeviceIOCallbackWithContext fuel out nc n = some r ∧
      r.wrapFrames = [] ∧
      r.player =
        { p with currentSample := p.currentSample + n
                 fractionalSample := ((p.currentSample + n : Int) : ℚ)
                 currentPosition := ((p.currentSample + n : Int) : ℚ) / ps.projectSampleRate
                 resamplingRatio := 1
                 resamplingActive := false } ∧
      ∀ ch i, 0 ≤ ch → ch < min nc ps.audioBuffer.numChannels → out.isNull ch = false →
        0 ≤ i → i < n → r.out.samples ch i = ps.audioBuffer.data ch (p.currentSample + i) := by
  rw [callback_plain_looping fuel p ps out nc n hps hplaying hlooping htrim hpad hrate hpos
    hN32 ha hab hb]
  obtain ⟨f, rfl⟩ : ∃ f, fuel = f + 1 := ⟨fuel - 1, by omega⟩
  rw [passLoop_last _ f _ rfl rfl rfl (by simpa using hb) (by simp) (by simpa using hc0)
    (by simp; omega) (by simpa using hn0) (by simpa using hn)]
  refine ⟨_, rfl, rfl, ?_, ?_⟩
  · simp [hplaying]
  · intro ch i hch0 hch hnull hi0 hi
    simp only [Option.map, OutputChannels.copyRange, clearOutput_isNull]
    rw [if_pos ⟨hch0, hch, hnull, by omega, by omega⟩]
    simp

/-- A looping pass-through block that runs into the loop end once. -/
theorem callback_loop_oneWrap (fuel : Nat) (p : AudioPlayer) (ps : MSUProjectState)
    (out : OutputChannels) (nc n : Int)
    (hps : p.projectState = some ps) (hplaying : p.playing = true)
    (hlooping : p.looping = true)
    (htrim : ps.trimStartSample = 0) (hpad : ps.paddingSamples = 0)
    (hrate : p.deviceSampleRate = ps.projectSampleRate) (hpos : 0 < ps.projectSampleRate)
    (hN32 : ps.audioBuffer.numSamples < 2147483648)
    (ha : 0 ≤ ps.loopStartSample) (hab : ps.loopStartSample < ps.loopEndSample)
    (hb : ps.loopEndSample ≤ ps.audioBuffer.numSamples)
    (hc0 : 0 ≤ p.currentSample) (hc : p.currentSample < ps.loopEndSample)
    (hn1 : ps.loopEndSample - p.currentSample < n)
    (hn2 : n ≤ (ps.loopEndSample - p.currentSample) +
      (ps.loopEndSample - ps.loopStartSample))
    (hfuel : 2 ≤ fuel) :
    ∃ r, p.audioDeviceIOCallbackWithContext fuel out nc n = some r ∧
      r.wrapFrames = [ps.loopEndSample - p.currentSample] ∧
      r.player =
        { p with currentSample :=
                   ps.loopStartSample + (n - (ps.loopEndSample - p.currentSample))
                 fractionalSample :=
                   ((ps.loopStartSample + (n - (ps.loopEndSample - p.currentSample)) : Int) : ℚ)
                 currentPosition :=
                   ((ps.loopStartSample + (n - (ps.loopEndSample - p.currentSample)) : Int) : ℚ)
                     / ps.projectSampleRate
                 resamplingRatio := 1
                 resamplingActive := false } ∧
      ∀ ch i, 0 ≤ ch → ch < min nc ps.audioBuffer.numChannels → out.isNull ch = false →
        0 ≤ i → i < n →
        r.out.samples ch i =
          if i < ps.loopEndSample - p.currentSample then
            ps.audioBuffer.data ch (p.currentSample + i)
          else
            ps.audioBuffer.data ch
              (ps.loopStartSample + (i - (ps.loopEndSample - p.currentSample))) := by
  rw [callback_plain_looping fuel p ps out nc n hps hplaying hlooping htrim hpad hrate hpos
    hN32 ha hab hb]
  obtain ⟨f, rfl⟩ : ∃ f, fuel = f + 2 := ⟨fuel - 2, by omega⟩
  rw [passLoop_to_loopEnd _ (f + 1) _ rfl rfl rfl (by simpa using hb) (by simp)
    (by simpa using hc0) (by simpa using hc) (by simpa using hn1)]
  rw [passLoop_wrap_last _ f _ rfl rfl rfl (by simpa using hb) (by simp)
    (by simpa using ha) (by simpa using hab) (by simp) (by simp; omega) (by simp; omega)]
  refine ⟨_, rfl, by simp, ?_, ?_⟩
  · simp [hplaying]
  · intro ch i hch0 hch hnull hi0 hi
    simp only [Option.map, OutputChannels.copyRange, clearOutput_isNull, zero_add]
    by_cases h1 : i < ps.loopEndSample - p.currentSample
    · rw [if_neg (by omega), if_pos ⟨hch0, hch, hnull, by omega, by omega⟩, if_pos h1]
      simp
    · rw [if_pos ⟨hch0, hch, hnull, by omega, by omega⟩, if_neg h1]

/-- A looping pass-through block that runs into the loop end twice. -/
theorem callback_loop_twoWraps (fuel : Nat) (p : AudioPlayer) (ps : MSUProjectState)
    (out : OutputChannels) (nc n : Int)
    (hps : p.projectState = some ps) (hplaying : p.playing = true)
    (hlooping : p.looping = true)
    (htrim : ps.trimStartSample = 0) (hpad : ps.paddingSamples = 0)
    (hrate : p.deviceSampleRate = ps.projectSampleRate) (hpos : 0 < ps.projectSampleRate)
    (hN32 : ps.audioBuffer.numSamples < 2147483648)
    (ha : 0 ≤ ps.loopStartSample) (hab : ps.loopStartSample < ps.loopEndSample)
    (hb : ps.loopEndSample ≤ ps.audioBuffer.numSamples)
    (hc0 : 0 ≤ p.currentSample) (hc : p.currentSample < ps.loopEndSample)
    (hn1 : (ps.loopEndSample - p.currentSample) +
      (ps.loopEndSample - ps.loopStartSample) < n)
    (hn2 : n ≤ (ps.loopEndSample - p.currentSample) +
      (ps.loopEndSample - ps.loopStartSample) + (ps.loopEndSample - ps.loopStartSample))
    (hfuel : 3 ≤ fuel) :
    ∃ r, p.audioDeviceIOCallbackWithContext fuel out nc n = some r ∧
      r.wrapFrames = [ps.loopEndSample - p.currentSample,
        (ps.loopEndSample - p.currentSample) + (ps.loopEndSample - ps.loopStartSample)] ∧
      r.player =
        { p with currentSample :=
                   ps.loopStartSample + (n - ((ps.loopEndSample - p.currentSample) +
                     (ps.loopEndSample - ps.loopStartSample)))
                 fractionalSample :=
                   ((ps.loopStartSample + (n - ((ps.loopEndSample - p.currentSample) +
                     (ps.loopEndSample - ps.loopStartSample))) : Int) : ℚ)
                 currentPosition :=
                   ((ps.loopStartSample + (n - ((ps.loopEndSample - p.currentSample) +
                     (ps.loopEndSample - ps.loopStartSample))) : Int) : ℚ)
                     / ps.projectSampleRate
                 resamplingRatio := 1
                 resamplingActive := false } ∧
      ∀ ch i, 0 ≤ ch → ch < min nc ps.audioBuffer.numChannels → out.isNull ch = false →
        0 ≤ i → i < n →
        r.out.samples ch i =
          if i < ps.loopEndSample - p.currentSample then
            ps.audioBuffer.data ch (p.currentSample + i)
          else if i < (ps.loopEndSample - p.currentSample) +
              (ps.loopEndSample - ps.loopStartSample) then
            ps.audioBuffer.data ch
              (ps.loopStartSample + (i - (ps.loopEndSample - p.currentSample)))
          else
            ps.audioBuffer.data ch
              (ps.loopStartSample + (i - ((ps.loopEndSample - p.currentSample) +
                (ps.loopEndSample - ps.loopStartSample)))) := by
  rw [callback_plain_looping fuel p ps out nc n hps hplaying hlooping htrim hpad hrate hpos
    hN32 ha hab hb]
  obtain ⟨f, rfl⟩ : ∃ f, fuel = f + 3 := ⟨fuel - 3, by omega⟩
  rw [passLoop_to_loopEnd _ (f + 2) _ rfl rfl rfl (by simpa using hb) (by simp)
    (by simpa using hc0) (by simpa using hc) (by simp; omega)]
  rw [passLoop_wrap_to_loopEnd _ (f + 1) _ rfl rfl rfl (by simpa using hb) (by simp)
    (by simpa using ha) (by simpa using hab) (by simp) (by simp; omega)]
  rw [passLoop_wrap_last _ f _ rfl rfl rfl (by simpa using hb) (by simp)
    (by simpa using ha) (by simpa using hab) (by simp) (by simp; omega) (by simp; omega)]
  refine ⟨_, rfl, by simp, ?_, ?_⟩
  · simp [hplaying]
  · intro ch i hch0 hch hnull hi0 hi
    simp only [Option.map, OutputChannels.copyRange, clearOutput_isNull, zero_add]
    by_cases h1 : i < ps.loopEndSample - p.currentSample
    · rw [if_neg (by omega), if_neg (by omega),
        if_pos ⟨hch0, hch, hnull, by omega, by omega⟩, if_pos h1]
      simp
    · by_cases h2 : i < (ps.loopEndSample - p.currentSample) +
          (ps.loopEndSample - ps.loopStartSample)
      · rw [if_neg (by omega), if_pos ⟨hch0, hch, hnull, by omega, by omega⟩, if_neg h1,
          if_pos h2]
      · rw [if_pos ⟨hch0, hch, hnull, by omega, by omega⟩, if_neg h1, if_neg h2]

/-- Three successive 20000-frame blocks of the looping scenario. -/
theorem loop_scenario_blocks (p : AudioPlayer) (ps : MSUProjectState)
    (o1 o2 o3 : OutputChannels) (nc : Int) (fuel : Nat)
    (hps : p.projectState = some ps) (hplaying : p.playing = true)
    (hlooping : p.looping = true) (hcur : p.currentSample = 0)
    (hch : ps.audioBuffer.numChannels = 2) (hN : ps.audioBuffer.numSamples = 44100)
    (hls : ps.loopStartSample = 22050) (hle : ps.loopEndSample = 33075)
    (htrim : ps.trimStartSample = 0) (hpad : ps.paddingSamples = 0)
    (hrate : p.deviceSampleRate = ps.projectSampleRate) (hpos : 0 < ps.projectSampleRate)
    (hfuel : 3 ≤ fuel) :
    ∃ r1 r2 r3,
      p.audioDeviceIOCallbackWithContext fuel o1 nc 20000 = some r1 ∧
      r1.player.audioDeviceIOCallbackWithContext fuel o2 nc 20000 = some r2 ∧
      r2.player.audioDeviceIOCallbackWithContext fuel o3 nc 20000 = some r3 ∧
      (r1.wrapFrames = [] ∧ r1.player.currentSample = 20000 ∧ r1.player.playing = true) ∧
      (r2.wrapFrames = [13075] ∧ r2.player.currentSample = 28975 ∧
        r2.player.playing = true) ∧
      (r3.wrapFrames = [4100, 15125] ∧ r3.player.currentSample = 26925 ∧
        r3.player.playing = true) ∧
      (∀ ch i, 0 ≤ ch → ch < min nc 2 → o1.isNull ch = false → 0 ≤ i → i < 20000 →
        r1.out.samples ch i = ps.audioBuffer.data ch i) ∧
      (∀ ch i, 0 ≤ ch → ch < min nc 2 → o2.isNull ch = false → 0 ≤ i → i < 20000 →
        r2.out.samples ch i =
          if i < 13075 then ps.audioBuffer.data ch (20000 + i)
          else ps.audioBuffer.data ch (22050 + (i - 13075))) ∧
      (∀ ch i, 0 ≤ ch → ch < min nc 2 → o3.isNull ch = false → 0 ≤ i → i < 20000 →
        r3.out.samples ch i =
          if i < 4100 then ps.audioBuffer.data ch (28975 + i)
          else if i < 15125 then ps.audioBuffer.data ch (22050 + (i - 4100))
          else ps.audioBuffer.data ch (22050 + (i - 15125))) := by
  obtain ⟨r1, h1, hw1, hp1, ho1⟩ :=
    callback_loop_noWrap fuel p ps o1 nc 20000 hps hplaying hlooping htrim hpad hrate hpos
      (by omega) (by omega) (by omega) (by omega) (by omega) (by norm_num) (by omega)
      (by omega)
  have hc1 : r1.player.currentSample = 20000 := by rw [hp1]; simp [hcur]
  obtain ⟨r2, h2, hw2, hp2, ho2⟩ :=
    callback_loop_oneWrap fuel r1.player ps o2 nc 20000 (by rw [hp1]; exact hps)
      (by rw [hp1]; exact hplaying) (by rw [hp1]; exact hlooping) htrim hpad
      (by rw [hp1]; exact hrate) hpos
      (by omega) (by omega) (by omega) (by omega) (by omega) (by omega) (by omega)
      (by omega) (by omega)
  have hc2 : r2.player.currentSample = 28975 := by rw [hp2]; simp [hc1, hls, hle]
  obtain ⟨r3, h3, hw3, hp3, ho3⟩ :=
    callback_loop_twoWraps fuel r2.player ps o3 nc 20000 (by rw [hp2, hp1]; exact hps)
      (by rw [hp2, hp1]; exact hplaying) (by rw [hp2, hp1]; exact hlooping) htrim hpad
      (by rw [hp2, hp1]; exact hrate) hpos
      (by omega) (by omega) (by omega) (by omega) (by omega) (by omega) (by omega)
      (by omega) hfuel
  have hc3 : r3.player.currentSample = 26925 := by rw [hp3]; simp [hc2, hls, hle]
  refine ⟨r1, r2, r3, h1, h2, h3, ⟨hw1, hc1, ?_⟩, ⟨?_, hc2, ?_⟩, ⟨?_, hc3, ?_⟩, ?_, ?_, ?_⟩
  · rw [hp1]; exact hplaying
  · rw [hw2, hc1, hle]; rfl
  · rw [hp2, hp1]; exact hplaying
  · rw [hw3, hc2, hle, hls]; rfl
  · rw [hp3, hp2, hp1]; exact hplaying
  · intro ch i hch0 hchn hnull hi0 hi
    rw [ho1 ch i hch0 (by rw [hch]; exact hchn) hnull hi0 hi, hcur, zero_add]
  · intro ch i hch0 hchn hnull hi0 hi
    rw [ho2 ch i hch0 (by rw [hch]; exact hchn) hnull hi0 hi, hc1, hle, hls]
    rfl
  · intro ch i hch0 hchn hnull hi0 hi
    rw [ho3 ch i hch0 (by rw [hch]; exact hchn) hnull hi0 hi, hc2, hle, hls]
    rfl

/-! ## Running out of content -/

/-- The early returns of the callback: the block is cleared and the engine
is left as it was. -/
theorem callback_idle (p : AudioPlayer) (out : OutputChannels)
    (numOutputChannels numSamples : Int) (fuel : Nat)
    (hidle : p.playing = false ∨ p.projectState = none ∨ p.deviceSampleRate ≤ 0 ∨
      ∃ ps, p.projectState = some ps ∧
        (ps.audioBuffer.numSamples ≤ 0 ∨ ps.projectSampleRate ≤ 0)) :
    p.audioDeviceIOCallbackWithContext fuel out numOutputChannels numSamples =
      some { player := p, out := clearOutput numOutputChannels numSamples out 0,
             wrapFrames := [] } := by
  unfold AudioPlayer.audioDeviceIOCallbackWithContext
  rcases hps : p.projectState with _ | ps
  · rfl
  · simp only
    by_cases h1 : (!p.playing || !ps.hasAudio) = true
    · rw [if_pos h1]
    · rw [if_neg h1]
      by_cases h2 : ps.getSampleRate ≤ 0 ∨ p.deviceSampleRate ≤ 0 ∨
          ps.audioBuffer.numSamples ≤ 0
      · rw [if_pos h2]
      · exfalso
        simp only [MSUProjectState.hasAudio, Bool.or_eq_true, Bool.not_eq_true',
          decide_eq_false_iff_not, not_or, Bool.not_eq_false, not_not] at h1
        simp only [MSUProjectState.getSampleRate, not_or, not_le] at h2
        rcases hidle with h | h | h | ⟨ps', h, h'⟩
        · rw [h1.1] at h; exact Bool.noConfusion h
        · rw [hps] at h; exact Option.noConfusion h
        · linarith [h2.2.1]
        · rw [hps] at h
          cases h
          rcases h' with h' | h'
          · omega
          · linarith [h2.1]

/-! ## Timeline mutators, seeking and the before/after player -/

theorem jlimit_rat (lo hi v : ℚ) (h : lo ≤ hi) : jlimit lo hi v = min (max v lo) hi := by
  unfold jlimit
  split_ifs with h1 h2
  · rw [max_eq_right (le_of_lt h1), min_eq_left h]
  · rw [max_eq_left (not_lt.mp h1), min_eq_right (le_of_lt h2)]
  · rw [max_eq_left (not_lt.mp h1), min_eq_left (not_lt.mp h2)]

/-- The retargeting branch of `play`. -/
theorem play_retarget (p : BeforeAfterPreviewPlayer) (target : BeforeAfterPreviewPlayer.Target)
    (buffer : AudioBuffer) (hbuf : p.getBufferFor target = some buffer)
    (hcontent : BeforeAfterPreviewPlayer.bufferHasContent (some buffer) = true)
    (hplaying : p.playing = true) :
    p.play target false =
      { p with activeTarget := target,
               currentSample := jlimit 0 (buffer.numSamples : ℚ) p.currentSample } := by
  unfold BeforeAfterPreviewPlayer.play
  simp [hbuf, hcontent, hplaying]

@[simp] theorem truncToInt_one : truncToInt 1 = 1 := by
  simpa using truncToInt_intCast 1

@[simp] theorem truncToInt_two : truncToInt 2 = 2 := by
  simpa using truncToInt_intCast 2

namespace BeforeAfterPreviewPlayer

theorem renderLoop_inside (p : BeforeAfterPreviewPlayer) (buffer : AudioBuffer)
    (nc n : Int) (remaining : Nat) (sample : Int) (s : LoopState)
    (h : truncToInt s.position < buffer.numSamples) :
    renderLoop p buffer nc n (remaining + 1) sample s =
      renderLoop p buffer nc n remaining (sample + 1)
        { s with out := s.out.writeFrame nc sample (fun ch =>
                   buffer.data (Int.tmod ch (jmax 1 buffer.numChannels)) (truncToInt s.position) +
                     (s.position - (truncToInt s.position : ℚ)) *
                       (buffer.data (Int.tmod ch (jmax 1 buffer.numChannels))
                          (jmin (truncToInt s.position + 1) (buffer.numSamples - 1)) -
                        buffer.data (Int.tmod ch (jmax 1 buffer.numChannels))
                          (truncToInt s.position))),
                 position := s.position + p.playbackIncrement } := by
  rw [renderLoop, renderBody]
  simp only [ge_iff_le, if_neg (not_le.mpr h)]

theorem renderLoop_end (p : BeforeAfterPreviewPlayer) (buffer : AudioBuffer)
    (nc n : Int) (remaining : Nat) (sample : Int) (s : LoopState)
    (h : buffer.numSamples ≤ truncToInt s.position) :
    renderLoop p buffer nc n (remaining + 1) sample s =
      { s with playing := false, out := writeSilence s.out nc (n - sample) } := by
  rw [renderLoop, renderBody]
  simp only [ge_iff_le, if_pos h]

end BeforeAfterPreviewPlayer

theorem getLengthInSeconds_nonneg (ps : MSUProjectState) : 0 ≤ ps.getLengthInSeconds := by
  unfold MSUProjectState.getLengthInSeconds
  split_ifs with h
  · exact le_refl 0
  · have h1 : 0 < ps.projectSampleRate := by
      by_contra hc; exact h (Or.inl (not_lt.mp hc))
    have h2 : (0 : ℚ) < (ps.audioBuffer.numSamples : ℚ) := by
      have : 0 < ps.audioBuffer.numSamples := by
        by_contra hc; exact h (Or.inr (not_lt.mp hc))
      exact_mod_cast this
    exact roundDouble_nonneg (le_of_lt (div_pos h2 h1))

/-- One mutator call keeps `0 ≤ trimStart` and `0 ≤ N`, and keeps
`trimStart ≤ N` unless it is a `setAudioBuffer` with a buffer shorter than
the trim start. -/
theorem Mutator.apply_trim (s : MSUProjectState) (m : Mutator)
    (h0 : 0 ≤ s.trimStartSample) (hN : 0 ≤ s.audioBuffer.numSamples)
    (hwf : m.wellFormed = true) :
    0 ≤ (m.apply s).trimStartSample ∧ 0 ≤ (m.apply s).audioBuffer.numSamples ∧
      (s.trimStartSample ≤ s.audioBuffer.numSamples →
        s.keepsTrim [m] = true →
        (m.apply s).trimStartSample ≤ (m.apply s).audioBuffer.numSamples) := by
  cases m with
  | setAudioBuffer b r =>
    simp only [Mutator.wellFormed, decide_eq_true_eq] at hwf
    refine ⟨h0, hwf, ?_⟩
    intro _ hk
    simp only [MSUProjectState.keepsTrim, Bool.and_true, decide_eq_true_eq] at hk
    exact hk
  | setTrimStart x =>
    have hj := jlimit_int 0 s.audioBuffer.numSamples x hN
    simp only [Mutator.apply, MSUProjectState.setTrimStart, hj]
    refine ⟨by omega, hN, ?_⟩
    intro _ _
    omega
  | setLoopStart x => exact ⟨h0, hN, fun h _ => h⟩
  | setLoopEnd x => exact ⟨h0, hN, fun h _ => h⟩
  | setPaddingSamples x => exact ⟨h0, hN, fun h _ => h⟩
  | reset =>
    refine ⟨?_, ?_, ?_⟩
    · exact le_refl 0
    · exact le_refl 0
    · intro _ _; exact le_refl 0

theorem MSUProjectState.keepsTrim_cons (s : MSUProjectState) (m : Mutator)
    (rest : List Mutator) :
    s.keepsTrim (m :: rest) = (s.keepsTrim [m] && (m.apply s).keepsTrim rest) := by
  cases m <;> simp [MSUProjectState.keepsTrim, Mutator.apply]

theorem applyMutators_trim (calls : List Mutator) :
    ∀ s : MSUProjectState, 0 ≤ s.trimStartSample → 0 ≤ s.audioBuffer.numSamples →
      (∀ m ∈ calls, m.wellFormed = true) →
      0 ≤ (s.applyMutators calls).trimStartSample ∧
        (s.trimStartSample ≤ s.audioBuffer.numSamples → s.keepsTrim calls = true →
          (s.applyMutators calls).trimStartSample ≤
            (s.applyMutators calls).audioBuffer.numSamples) := by
  induction calls with
  | nil => intro s h0 _ _; exact ⟨h0, fun h _ => h⟩
  | cons m rest ih =>
    intro s h0 hN hwf
    obtain ⟨a0, aN, ak⟩ := Mutator.apply_trim s m h0 hN (hwf m (List.mem_cons_self _ _))
    obtain ⟨r0, rk⟩ := ih (m.apply s) a0 aN (fun m' hm' => hwf m' (List.mem_cons_of_mem _ hm'))
    refine ⟨r0, ?_⟩
    intro hle hk
    rw [MSUProjectState.keepsTrim_cons, Bool.and_eq_true] at hk
    exact rk (ak hle hk.1) hk.2

/-! ## Cursor monotonicity and termination -/

theorem toInt16_range (x : Int) : -32768 ≤ toInt16 x ∧ toInt16 x ≤ 32767 := by
  unfold toInt16
  omega

theorem toInt16_of_range (x : Int) (h1 : -32768 ≤ x) (h2 : x ≤ 32767) : toInt16 x = x := by
  unfold toInt16
  omega

theorem int16Sample_of_unit (x : ℚ) (h1 : -1 ≤ x) (h2 : x ≤ 1) :
    MSU1Exporter.int16Sample x = truncToInt (roundFloat (x * 32767)) := by
  unfold MSU1Exporter.int16Sample
  have hj : jlimit (-1 : ℚ) 1 x = x := by
    rw [jlimit_rat _ _ _ (by norm_num)]
    rw [max_eq_left h1, min_eq_left h2]
  simp only [hj]

theorem truncToInt_neg (x : ℚ) : truncToInt (-x) = -truncToInt x := by
  unfold truncToInt
  rw [Rat.neg_num, Rat.neg_den, Int.neg_tdiv]

/-- The `float` product `(s / 32768) * 32767` for `0 < s ≤ 32768` lies in
`[s - 1, s)`: the rounding does not reach `s`. -/
theorem roundFloat_scaled_sample (s : Int) (h1 : 0 < s) (h2 : s ≤ 32768) :
    ((s : ℚ) - 1 ≤ roundFloat ((s : ℚ) / 32768 * 32767)) ∧
      roundFloat ((s : ℚ) / 32768 * 32767) < (s : ℚ) := by
  have hs1 : (1 : ℚ) ≤ (s : ℚ) := by exact_mod_cast h1
  have hs2 : (s : ℚ) ≤ 32768 := by exact_mod_cast h2
  have hy : (s : ℚ) / 32768 * 32767 = s - s / 32768 := by ring
  constructor
  · have hm : roundFloat (((s - 1 : Int) : ℚ)) ≤ roundFloat ((s : ℚ) / 32768 * 32767) := by
      apply roundFloat_mono
      push_cast
      rw [hy]
      linarith
    rw [roundFloat_intCast (s - 1) (by rw [abs_le]; constructor <;> omega)] at hm
    push_cast at hm
    exact hm
  · have he := roundFloat_abs_error ((s : ℚ) / 32768 * 32767)
    have hpos : (0 : ℚ) ≤ (s : ℚ) / 32768 * 32767 := by positivity
    rw [abs_of_nonneg hpos] at he
    have he2 := (abs_le.mp he).2
    norm_num at he2
    rw [hy] at he2 ⊢
    linarith

theorem int16Sample_int16ToFloat_pos (s : Int) (h1 : 0 < s) (h2 : s ≤ 32768) :
    truncToInt (roundFloat ((s : ℚ) / 32768 * 32767)) = s - 1 := by
  obtain ⟨hlo, hhi⟩ := roundFloat_scaled_sample s h1 h2
  have hs1 : (1 : ℚ) ≤ (s : ℚ) := by exact_mod_cast h1
  rw [truncToInt_of_nonneg _ (by linarith), Int.floor_eq_iff]
  push_cast
  constructor <;> linarith

theorem int16Sample_int16ToFloat (s : Int) (h1 : -32768 ≤ s) (h2 : s ≤ 32767) :
    MSU1Exporter.int16Sample (AudioFileHandler.int16ToFloat s) = s - Int.sign s := by
  have hs1 : (-32768 : ℚ) ≤ (s : ℚ) := by exact_mod_cast h1
  have hs2 : (s : ℚ) ≤ 32767 := by exact_mod_cast h2
  have hu1 : (-1 : ℚ) ≤ (s : ℚ) / 32768 := by
    rw [le_div_iff₀ (by norm_num)]; linarith
  have hu2 : (s : ℚ) / 32768 ≤ 1 := by
    rw [div_le_iff₀ (by norm_num)]; linarith
  unfold AudioFileHandler.int16ToFloat
  rw [int16Sample_of_unit _ hu1 hu2]
  rcases lt_trichotomy s 0 with hneg | hzero | hpos
  · have hn : (s : ℚ) / 32768 * 32767 = -(((-s : Int) : ℚ) / 32768 * 32767) := by
      push_cast
      ring
    have hr : roundFloat (-(((-s : Int) : ℚ) / 32768 * 32767)) =
        -roundFloat (((-s : Int) : ℚ) / 32768 * 32767) := roundBinary_neg 24 (-126) _
    rw [hn, hr, truncToInt_neg, int16Sample_int16ToFloat_pos (-s) (by omega) (by omega),
      Int.sign_eq_neg_one_of_neg hneg]
    omega
  · subst hzero
    simp [roundFloat_zero, truncToInt]
  · rw [int16Sample_int16ToFloat_pos s hpos (by omega), Int.sign_eq_one_of_pos hpos]


/-! ## Helper lemmas: the exporter -/

theorem FileInputStream.read_full (f : FileInputStream) (hfull : f.readsInFull)
    (pos n : Int) (hpos : 0 ≤ pos) (hn : 0 ≤ n) (hle : pos + n ≤ f.totalLength)
    (h32 : n < 2147483648) : f.read pos n = n := by
  unfold FileInputStream.read
  rw [toInt32_of_range n (by omega) h32, hfull pos n hpos hn hle,
    toInt32_of_range n (by omega) h32]

theorem FileInputStream.read_lt (f : FileInputStream) (pos n : Int) :
    f.read pos n < 2147483648 := by
  unfold FileInputStream.read toInt32
  omega

theorem loadPCMIntoBuffer_ok (p : PreviewPlayer) (file : PreviewFile)
    (hopen : file.pcmStream.openedOk = true) (hfull : file.pcmStream.readsInFull)
    (h4 : 4 ≤ file.pcmStream.totalLength) (h32 : file.pcmStream.totalLength < 2147483648) :
    (p.loadPCMIntoBuffer file).pcmBuffer =
      ⟨2, file.pcmStream.totalLength / 4, fun channel i =>
        if channel = 0 then (file.pcmStream.int16At (i * 4) : ℚ) / 32768
        else if channel = 1 then (file.pcmStream.int16At (i * 4 + 2) : ℚ) / 32768
        else 0⟩ := by
  have htd : Int.tdiv file.pcmStream.totalLength 4 = file.pcmStream.totalLength / 4 :=
    Int.tdiv_eq_ediv (by omega) (by omega)
  unfold PreviewPlayer.loadPCMIntoBuffer
  simp only [hopen, Bool.not_true, Bool.false_eq_true, if_false, htd]
  rw [if_neg (by omega),
    if_neg (by rw [FileInputStream.read_full _ hfull 0 _ le_rfl (by omega) (by omega) h32]; simp),
    toInt32_of_range _ (by omega) (by omega)]

theorem loadPCMIntoBuffer_too_big (p : PreviewPlayer) (file : PreviewFile)
    (h32 : 2147483648 ≤ file.pcmStream.totalLength) :
    (p.loadPCMIntoBuffer file).pcmBuffer = AudioBuffer.empty := by
  unfold PreviewPlayer.loadPCMIntoBuffer
  have hr := FileInputStream.read_lt file.pcmStream 0 file.pcmStream.totalLength
  simp only []
  split_ifs <;> first | rfl | omega

theorem loadMSU1PCMFile_ok (f : FileInputStream) (buffer : AudioBuffer) (sampleRate : ℚ)
    (loopPoint : Int)
    (hopen : f.openedOk = true) (hfull : f.readsInFull)
    (hmagic : f.byte 0 = 77 ∧ f.byte 1 = 83 ∧ f.byte 2 = 85 ∧ f.byte 3 = 49)
    (h12 : 12 ≤ f.totalLength) (h32 : f.totalLength < 2147483648) :
    AudioFileHandler.loadMSU1PCMFile f buffer sampleRate loopPoint =
      ⟨true,
       ⟨2, (f.totalLength - 8) / 4, fun channel i =>
          if channel = 0 then AudioFileHandler.int16ToFloat (f.int16At (8 + (i * 2) * 2))
          else if channel = 1 then
            AudioFileHandler.int16ToFloat (f.int16At (8 + (i * 2 + 1) * 2))
          else 0⟩,
       44100,
       (f.byte 4 : Int) + 256 * (f.byte 5 : Int) + 65536 * (f.byte 6 : Int)
         + 16777216 * (f.byte 7 : Int)⟩ := by
  have htd : Int.tdiv (f.totalLength - 8) 4 = (f.totalLength - 8) / 4 :=
    Int.tdiv_eq_ediv (by omega) (by omega)
  have hr0 : f.read 0 4 = 4 :=
    FileInputStream.read_full _ hfull 0 4 le_rfl (by omega) (by omega) (by omega)
  have hr4 : f.read 4 4 = 4 :=
    FileInputStream.read_full _ hfull 4 4 (by omega) (by omega) (by omega) (by omega)
  have hn : toInt32 ((f.totalLength - 8) / 4) = (f.totalLength - 8) / 4 :=
    toInt32_of_range _ (by omega) (by omega)
  have hr8 : f.read 8 ((f.totalLength - 8) / 4 * 4) = (f.totalLength - 8) / 4 * 4 :=
    FileInputStream.read_full _ hfull 8 _ (by omega) (by omega) (by omega) (by omega)
  unfold AudioFileHandler.loadMSU1PCMFile
  simp only [hopen, hr0, hr4, hmagic.1, hmagic.2.1, hmagic.2.2.1, hmagic.2.2.2, htd, hn, hr8,
    Bool.not_true, Bool.false_eq_true, if_false, ne_eq, not_true_eq_false]
  rw [if_neg (by omega), if_neg (by omega)]

/-! ## Helper lemmas: `PreviewPlayer` -/

theorem refreshDeviceSampleRate_keeps (p : PreviewPlayer) :
    ∃ r, p.refreshDeviceSampleRate = { p with deviceSampleRate := r } := by
  unfold PreviewPlayer.refreshDeviceSampleRate
  split
  · exact ⟨p.deviceSampleRate, rfl⟩
  · split_ifs
    · exact ⟨_, rfl⟩
    · split
      · exact ⟨p.deviceSampleRate, rfl⟩
      · split_ifs
        · exact ⟨_, rfl⟩
        · exact ⟨p.deviceSampleRate, rfl⟩

theorem loadPCMIntoBuffer_keeps (p : PreviewPlayer) (file : PreviewFile) :
    (p.loadPCMIntoBuffer file).playing = p.playing ∧
      (p.loadPCMIntoBuffer file).isPCMFile = p.isPCMFile ∧
      (p.loadPCMIntoBuffer file).currentReader = p.currentReader ∧
      (p.loadPCMIntoBuffer file).readerSource = p.readerSource ∧
      (p.loadPCMIntoBuffer file).resamplingSource = p.resamplingSource := by
  unfold PreviewPlayer.loadPCMIntoBuffer
  simp only []
  split_ifs <;> exact ⟨rfl, rfl, rfl, rfl, rfl⟩

theorem loadAndPlay_cases (p : PreviewPlayer) (file : PreviewFile) :
    (∃ q, p.loadAndPlay file = (false, q) ∧ q.playing = false ∧
        q.pcmBuffer.numSamples = 0 ∧ q.isPCMFile = false ∧ q.currentReader = none ∧
        q.readerSource = none ∧ q.resamplingSource = none) ∨
      (p.loadAndPlay file).1 = true := by
  have hk := loadPCMIntoBuffer_keeps p.stop file
  obtain ⟨r, hr⟩ := refreshDeviceSampleRate_keeps (p.stop.loadPCMIntoBuffer file)
  unfold PreviewPlayer.loadAndPlay
  dsimp only
  split_ifs with h1 h2 h3
  · left
    exact ⟨_, rfl, rfl, rfl, rfl, rfl, rfl, rfl⟩
  · left
    refine ⟨_, rfl, ?_, h3, ?_, ?_, ?_, ?_⟩ <;> rw [hr] <;> dsimp only
    · rw [hk.1]; rfl
    · rw [hk.2.1]; rfl
    · rw [hk.2.2.1]; rfl
    · rw [hk.2.2.2.1]; rfl
    · rw [hk.2.2.2.2]; rfl
  · right; rfl
  · cases file.createReader with
    | none =>
      left
      exact ⟨_, rfl, rfl, rfl, rfl, rfl, rfl, rfl⟩
    | some reader =>
      right
      dsimp only
      split_ifs <;> rfl

theorem pcmRatio_nonneg (p : PreviewPlayer) : 0 ≤ p.pcmRatio := by
  unfold PreviewPlayer.pcmRatio PreviewPlayer.pcmNativeSampleRate
  dsimp only
  apply roundDouble_nonneg
  split_ifs with h
  · exact (div_pos (by norm_num) h).le
  · norm_num

theorem clearTail_samples (nc n : Int) (out : OutputChannels) (start ch i : Int)
    (hch0 : 0 ≤ ch) (hch : ch < nc) (hnull : out.isNull ch = false)
    (hi0 : start ≤ i) (hi : i < n) :
    (PreviewPlayer.clearTail nc n out start).samples ch i = 0 :=
  clearOutput_samples nc n out start ch i hch0 hch hnull hi0 hi

theorem clearTail_isNull (nc n : Int) (out : OutputChannels) (start : Int) :
    (PreviewPlayer.clearTail nc n out start).isNull = out.isNull := by
  unfold PreviewPlayer.clearTail
  split_ifs <;> rfl

theorem pcmLoop_runs_out (B : AudioBuffer) (ratio : ℚ) (av nc n : Int) (remaining : Nat) :
    ∀ (i : Int) (s : PreviewPlayer.PcmState) (j : Nat), j < remaining →
      (∀ m : Nat, m < j → accumulate ratio m s.pcmFractionalPosition < (B.numSamples : ℚ)) →
      (B.numSamples : ℚ) ≤ accumulate ratio j s.pcmFractionalPosition →
      i + remaining = n →
      (PreviewPlayer.pcmLoop B ratio av nc n remaining i s).playing = false ∧
        (PreviewPlayer.pcmLoop B ratio av nc n remaining i s).pcmFractionalPosition =
          accumulate ratio j s.pcmFractionalPosition ∧
        ∀ ch x, 0 ≤ ch → ch < nc → s.out.isNull ch = false → i + j ≤ x → x < n →
          (PreviewPlayer.pcmLoop B ratio av nc n remaining i s).out.samples ch x = 0 := by
  induction remaining with
  | zero => intro i s j hj; omega
  | succ remaining ih =>
    intro i s j hj hbefore hreach hin
    unfold PreviewPlayer.pcmLoop
    cases j with
    | zero =>
      have hge : s.pcmFractionalPosition ≥ (B.numSamples : ℚ) := hreach
      unfold PreviewPlayer.pcmBody
      rw [if_pos hge]
      refine ⟨rfl, rfl, ?_⟩
      intro ch x h0 h1 hnull hx hxn
      exact clearTail_samples nc n s.out i ch x h0 h1 hnull (by simpa using hx) hxn
    | succ j =>
      have hlt : ¬ s.pcmFractionalPosition ≥ (B.numSamples : ℚ) :=
        not_le.mpr (hbefore 0 (by omega))
      unfold PreviewPlayer.pcmBody
      rw [if_neg hlt]
      dsimp only
      have h := ih (i + 1)
        { s with
          out := PreviewPlayer.zeroExtraChannels
            (s.out.writeFrame av i (fun ch =>
              roundFloat (roundDouble (B.data ch (truncToInt s.pcmFractionalPosition) +
                roundDouble (roundFloat
                  (B.data ch (jmin (truncToInt s.pcmFractionalPosition + 1) (B.numSamples - 1)) -
                    B.data ch (truncToInt s.pcmFractionalPosition)) *
                  roundDouble
                    (s.pcmFractionalPosition - (truncToInt s.pcmFractionalPosition : ℚ)))))))
            av nc i
          pcmFractionalPosition := roundDouble (s.pcmFractionalPosition + ratio) } j (by omega)
        (fun m hm => hbefore (m + 1) (by omega))
        hreach
        (by push_cast at hin ⊢; omega)
      refine ⟨h.1, h.2.1, ?_⟩
      intro ch x h0 h1 hnull hx hxn
      exact h.2.2 ch x h0 h1 hnull (by push_cast at hx ⊢; omega) hxn

theorem refreshDeviceSampleRate_loopPoint (p : PreviewPlayer) (lp : Int) :
    ({ p with pcmLoopPoint := lp } : PreviewPlayer).refreshDeviceSampleRate =
      { p.refreshDeviceSampleRate with pcmLoopPoint := lp } := by
  unfold PreviewPlayer.refreshDeviceSampleRate
  dsimp only
  split
  · rfl
  · split_ifs
    · rfl
    · split
      · rfl
      · split_ifs <;> rfl

theorem renderPCM_loopPoint (p : PreviewPlayer) (out : OutputChannels) (nc n lp : Int) :
    PreviewPlayer.renderPCM { p with pcmLoopPoint := lp } out nc n =
      ({ (PreviewPlayer.renderPCM p out nc n).1 with pcmLoopPoint := lp },
        (PreviewPlayer.renderPCM p out nc n).2) := by
  unfold PreviewPlayer.renderPCM
  rw [refreshDeviceSampleRate_loopPoint]
  dsimp only
  split_ifs <;> rfl

theorem previewCallback_loopPoint (p : PreviewPlayer) (out : OutputChannels) (nc n lp : Int) :
    PreviewPlayer.audioDeviceIOCallbackWithContext { p with pcmLoopPoint := lp } out nc n =
      (p.audioDeviceIOCallbackWithContext out nc n).map
        (fun r => ({ r.1 with pcmLoopPoint := lp }, r.2)) := by
  unfold PreviewPlayer.audioDeviceIOCallbackWithContext
  dsimp only
  split_ifs
  · rfl
  · rw [renderPCM_loopPoint]; rfl
  · cases h : p.resamplingSource with
    | none => simp [h]
    | some src => rfl

theorem renderPCM_stops (p : PreviewPlayer) (out : OutputChannels) (nc n : Int) (k : Nat)
    (hk : (k : Int) < n)
    (hbefore : ∀ j : Nat, j < k →
      accumulate p.refreshDeviceSampleRate.pcmRatio j p.pcmFractionalPosition <
        (p.pcmBuffer.numSamples : ℚ))
    (hreach : (p.pcmBuffer.numSamples : ℚ) ≤
      accumulate p.refreshDeviceSampleRate.pcmRatio k p.pcmFractionalPosition) :
    (PreviewPlayer.renderPCM p out nc n).1.playing = false ∧
      (roundDouble p.pcmFractionalPosition = p.pcmFractionalPosition →
        p.pcmFractionalPosition ≤ (PreviewPlayer.renderPCM p out nc n).1.pcmFractionalPosition) ∧
      (p.pcmBuffer.numSamples ≠ 0 →
        (PreviewPlayer.renderPCM p out nc n).1.pcmFractionalPosition =
          accumulate p.refreshDeviceSampleRate.pcmRatio k p.pcmFractionalPosition) ∧
      ∀ ch i, 0 ≤ ch → ch < nc → out.isNull ch = false → (k : Int) ≤ i → i < n →
        (PreviewPlayer.renderPCM p out nc n).2.samples ch i = 0 := by
  obtain ⟨r, hr⟩ := refreshDeviceSampleRate_keeps p
  have hbuf : p.refreshDeviceSampleRate.pcmBuffer = p.pcmBuffer := by rw [hr]
  have hpos : p.refreshDeviceSampleRate.pcmFractionalPosition = p.pcmFractionalPosition := by
    rw [hr]
  unfold PreviewPlayer.renderPCM
  by_cases hN : p.pcmBuffer.numSamples = 0
  · rw [if_pos hN]
    refine ⟨rfl, fun _ => le_rfl, fun h => absurd hN h, ?_⟩
    intro ch i h0 h1 hnull hi hin
    exact clearTail_samples nc n out 0 ch i h0 h1 hnull (by omega) hin
  · rw [if_neg hN]
    dsimp only
    have hrun := pcmLoop_runs_out p.refreshDeviceSampleRate.pcmBuffer
      p.refreshDeviceSampleRate.pcmRatio
      (jmin nc p.refreshDeviceSampleRate.pcmBuffer.numChannels) nc n n.toNat 0
      { pcmFractionalPosition := p.refreshDeviceSampleRate.pcmFractionalPosition,
        playing := p.refreshDeviceSampleRate.playing, out := out } k (by omega)
      (by intro m hm; rw [hbuf, hpos]; exact hbefore m hm)
      (by rw [hbuf, hpos]; exact hreach)
      (by omega)
    refine ⟨hrun.1, fun hd => ?_, fun _ => ?_, ?_⟩
    · rw [hrun.2.1, hpos]
      exact le_accumulate _ (pcmRatio_nonneg p.refreshDeviceSampleRate) k _ hd
    · rw [hrun.2.1, hpos]
    · intro ch i h0 h1 hnull hi hin
      exact hrun.2.2 ch i h0 h1 hnull (by omega) hin

/-! ## Helper lemmas: memory accesses -/

theorem inBounds_bufferRead (N n start count : Int) (h1 : 0 ≤ start) (h2 : 0 ≤ count)
    (h3 : start + count ≤ N) : (Access.bufferRead start count).inBounds N n :=
  ⟨h1, h2, h3⟩

theorem inBounds_outputWrite (N n start count : Int) (h1 : 0 ≤ start) (h2 : 0 ≤ count)
    (h3 : start + count ≤ n) : (Access.outputWrite start count).inBounds N n :=
  ⟨h1, h2, h3⟩

theorem tolerance_pos : 0 < Machine.sampleRateToleranceHz := by
  unfold Machine.sampleRateToleranceHz
  rw [roundDouble_tenth]
  norm_num

theorem Machine.updateResamplingState_rendering_machine (p : AudioPlayer) (ps : MSUProjectState)
    (hps : p.projectState = some ps) (hN : 0 < ps.audioBuffer.numSamples)
    (hsr : 0 < ps.projectSampleRate) (hdr : 0 < p.deviceSampleRate) :
    Machine.updateResamplingState p =
      { p with
        resamplingActive :=
          decide (|roundDouble (ps.projectSampleRate - p.deviceSampleRate)| >
            Machine.sampleRateToleranceHz)
        resamplingRatio :=
          if |roundDouble (ps.projectSampleRate - p.deviceSampleRate)| >
              Machine.sampleRateToleranceHz then
            roundDouble (ps.projectSampleRate / p.deviceSampleRate)
          else 1
        fractionalSample := (p.currentSample : ℚ) } := by
  unfold Machine.updateResamplingState
  simp only [hps, MSUProjectState.hasAudio, MSUProjectState.getSampleRate]
  have h1 : ¬ (ps.projectSampleRate ≤ 0 ∨ p.deviceSampleRate ≤ 0) := by
    rintro (h | h) <;> linarith
  simp [hN, h1]

/-- With equal rates the pass-through path is taken. -/
theorem Machine.updateResamplingState_equal_rates (p : AudioPlayer) (ps : MSUProjectState)
    (hps : p.projectState = some ps) (hN : 0 < ps.audioBuffer.numSamples)
    (hsr : 0 < ps.projectSampleRate) (hrate : p.deviceSampleRate = ps.projectSampleRate) :
    Machine.updateResamplingState p =
      { p with resamplingActive := false, resamplingRatio := 1,
               fractionalSample := (p.currentSample : ℚ) } := by
  rw [Machine.updateResamplingState_rendering_machine p ps hps hN hsr (by rw [hrate]; exact hsr)]
  have h : ¬ (|roundDouble (ps.projectSampleRate - p.deviceSampleRate)| >
      Machine.sampleRateToleranceHz) := by
    rw [hrate, sub_self, roundDouble_zero, abs_zero]
    exact not_lt.mpr tolerance_pos.le
  simp [h]

/-- The callback on a rendering engine: the early returns are not taken. -/
theorem Machine.callback_rendering_machine (fuel : Nat) (p : AudioPlayer) (ps : MSUProjectState)
    (out : OutputChannels) (nc n : Int)
    (hps : p.projectState = some ps) (hplay : p.playing = true)
    (hN : 0 < ps.audioBuffer.numSamples)
    (hsr : 0 < ps.projectSampleRate) (hdr : 0 < p.deviceSampleRate) :
    Machine.audioDeviceIOCallbackWithContext fuel p out nc n =
      if (Machine.updateResamplingState p).resamplingActive = true then
        (some (Machine.renderResampled
            (Machine.RenderCtx.make (Machine.updateResamplingState p) ps nc n)
            (Machine.updateResamplingState p) (Machine.clearOutput nc n out 0).1).1,
          (Machine.clearOutput nc n out 0).2 ++
            (Machine.renderResampled
              (Machine.RenderCtx.make (Machine.updateResamplingState p) ps nc n)
              (Machine.updateResamplingState p) (Machine.clearOutput nc n out 0).1).2)
      else
        ((Machine.renderPassThrough fuel
            (Machine.RenderCtx.make (Machine.updateResamplingState p) ps nc n)
            (Machine.updateResamplingState p) (Machine.clearOutput nc n out 0).1).1,
          (Machine.clearOutput nc n out 0).2 ++
            (Machine.renderPassThrough fuel
              (Machine.RenderCtx.make (Machine.updateResamplingState p) ps nc n)
              (Machine.updateResamplingState p) (Machine.clearOutput nc n out 0).1).2) := by
  unfold Machine.audioDeviceIOCallbackWithContext
  have h1 : ¬ (ps.getSampleRate ≤ 0 ∨ p.deviceSampleRate ≤ 0 ∨ ps.audioBuffer.numSamples ≤ 0) := by
    unfold MSUProjectState.getSampleRate
    rintro (h | h | h)
    · linarith
    · linarith
    · omega
  simp only [hps, hplay, MSUProjectState.hasAudio, hN, decide_True, Bool.not_true,
    Bool.or_self, Bool.false_eq_true, if_false, if_neg h1]

theorem Machine.passLoop_zero (c : RenderCtx) (s : PassState)
    (hw : s.samplesWritten < c.numSamples) : Machine.passLoop c 0 s = (none, []) := by
  simp [Machine.passLoop, hw]

theorem Machine.passLoop_step_machine (c : RenderCtx) (fuel : Nat) (s s' : PassState)
    (accesses : List Access) (hw : s.samplesWritten < c.numSamples)
    (hbody : Machine.passBody c s = ((s', false), accesses)) :
    Machine.passLoop c (fuel + 1) s =
      ((Machine.passLoop c fuel s').1, accesses ++ (Machine.passLoop c fuel s').2) := by
  rw [Machine.passLoop, if_pos hw, hbody]

theorem Machine.passLoop_break_machine (c : RenderCtx) (fuel : Nat) (s s' : PassState)
    (accesses : List Access) (hw : s.samplesWritten < c.numSamples)
    (hbody : Machine.passBody c s = ((s', true), accesses)) :
    Machine.passLoop c (fuel + 1) s = (some s', accesses) := by
  rw [Machine.passLoop, if_pos hw, hbody]

/-- With a loop, once `numSamples - samplesWritten` has wrapped to a value
that is not positive, every iteration takes the branch `samplesToWrite <= 0`
and goes back to the loop start: the loop makes no access and is never
left. -/
theorem Machine.passLoop_stalls_wrapped (c : RenderCtx) (hh : c.hasLoop = true) (fuel : Nat) :
    ∀ s : PassState, s.samplesWritten < c.numSamples →
      toInt32 (c.numSamples - s.samplesWritten) ≤ 0 →
      Machine.passLoop c fuel s = (none, []) := by
  have hwrite : ∀ s : PassState, toInt32 (c.numSamples - s.samplesWritten) ≤ 0 →
      Machine.passWrite c s =
        (({ s with currentSample := c.loopStart,
                   wrapFrames := s.wrapFrames ++ [s.samplesWritten] }, false), []) := by
    intro s hs
    have hstw : Machine.samplesToWrite c s ≤ 0 := by
      unfold Machine.samplesToWrite
      rw [jmin_int]
      exact (min_le_left _ _).trans hs
    unfold Machine.passWrite
    rw [if_pos hstw, if_pos hh]
  induction fuel with
  | zero => intro s hw _; exact Machine.passLoop_zero c s hw
  | succ f ih =>
    intro s hw hs
    by_cases htop : s.currentSample ≥ c.effectiveLength ∨
        (c.hasLoop = true ∧ s.currentSample ≥ c.loopEnd)
    · have hbody : Machine.passBody c s =
          (({ s with currentSample := c.loopStart,
                     wrapFrames := s.wrapFrames ++ [s.samplesWritten] ++ [s.samplesWritten] },
            false), []) := by
        unfold Machine.passBody
        rw [if_pos htop, if_pos hh,
          hwrite { s with currentSample := c.loopStart,
                          wrapFrames := s.wrapFrames ++ [s.samplesWritten] } hs]
      rw [Machine.passLoop_step_machine c f s _ _ hw hbody,
        ih { s with currentSample := c.loopStart,
                    wrapFrames := s.wrapFrames ++ [s.samplesWritten] ++ [s.samplesWritten] }
          hw hs]
      rfl
    · have hbody : Machine.passBody c s =
          (({ s with currentSample := c.loopStart,
                     wrapFrames := s.wrapFrames ++ [s.samplesWritten] }, false), []) := by
        unfold Machine.passBody
        rw [if_neg htop, hwrite s hs]
      rw [Machine.passLoop_step_machine c f s _ _ hw hbody,
        ih { s with currentSample := c.loopStart,
                    wrapFrames := s.wrapFrames ++ [s.samplesWritten] } hw hs]
      rfl

/-- Inside the padding, where the `int` difference `(int) padding - cursor`
is 0, the padding branch clears zero frames and the loop never advances. -/
theorem Machine.passLoop_stalls_padding (c : RenderCtx) (fuel : Nat) :
    ∀ s : PassState, s.samplesWritten < c.numSamples →
      toInt32 s.samplesWritten = s.samplesWritten →
      toInt32 s.currentSample = s.currentSample →
      s.currentSample < c.effectiveLength →
      (c.hasLoop = true → s.currentSample < c.loopEnd) →
      0 < Machine.samplesToWrite c s →
      0 < c.paddingSamples → s.currentSample < c.paddingSamples →
      toInt32 (toInt32 c.paddingSamples - s.currentSample) = 0 →
      (Machine.passLoop c fuel s).1 = none := by
  induction fuel with
  | zero => intro s hw _ _ _ _ _ _ _ _; rw [Machine.passLoop_zero c s hw]
  | succ f ih =>
    intro s hw hw32 hc32 hE hL hstw hP0 hP hcount
    have htop : ¬ (s.currentSample ≥ c.effectiveLength ∨
        (c.hasLoop = true ∧ s.currentSample ≥ c.loopEnd)) := by
      rintro (h | ⟨hh, h⟩)
      · omega
      · have := hL hh; omega
    have hbody : Machine.passBody c s =
        (({ s with out := s.out.clearRange c.channelCount s.samplesWritten 0,
                   currentSample := s.currentSample,
                   samplesWritten := s.samplesWritten }, false),
          [.outputWrite s.samplesWritten 0]) := by
      unfold Machine.passBody
      rw [if_neg htop]
      unfold Machine.passWrite
      rw [if_neg (by omega), if_pos ⟨hP0, hP⟩]
      simp only [hcount, jmin_int, min_eq_right hstw.le, add_zero, hw32, hc32]
    rw [Machine.passLoop_step_machine c f s _ _ hw hbody]
    exact ih { s with out := s.out.clearRange c.channelCount s.samplesWritten 0,
                      currentSample := s.currentSample,
                      samplesWritten := s.samplesWritten } hw hw32 hc32 hE hL hstw hP0 hP hcount

/-! ## Helper lemmas: the accesses of the resampling path -/

theorem Machine.clearOutput_inBounds (N nc n : Int) (out : OutputChannels) (start : Int)
    (h0 : 0 ≤ start) (hn32 : n < 2147483648) :
    Access.allInBounds N n (Machine.clearOutput nc n out start).2 := by
  intro a ha
  unfold Machine.clearOutput at ha
  split_ifs at ha with h
  · cases ha
  · simp only [List.mem_singleton] at ha
    subst ha
    have hc : toInt32 (n - start) = n - start := toInt32_of_range _ (by omega) (by omega)
    rw [hc]
    exact inBounds_outputWrite _ _ _ _ h0 (by omega) (by omega)

/-- One iteration of the resampling loop reads the buffer inside `[0, N - 1]`
and writes the frame `i`, whatever the position, the trim, the padding and
the loop points are. -/
theorem Machine.resampleBody_inBounds (c : RenderCtx) (hT : 1 ≤ c.totalSamples)
    (hT32 : c.totalSamples < 2147483648) (hn32 : c.numSamples < 2147483648)
    (i : Int) (h0 : 0 ≤ i) (hi : i < c.numSamples) (s : ResampleState) :
    Access.allInBounds c.totalSamples c.numSamples (Machine.resampleBody c i s).2 := by
  have hlast : toInt32 (c.totalSamples - 1) = c.totalSamples - 1 :=
    toInt32_of_range _ (by omega) (by omega)
  have hwrite : ∀ (s : ResampleState) (idx : Int),
      Access.allInBounds c.totalSamples c.numSamples (Machine.resampleWrite c i s idx).2 := by
    intro s idx a ha
    unfold Machine.resampleWrite at ha
    dsimp only at ha
    split_ifs at ha
    · simp only [List.mem_singleton] at ha
      subst ha
      exact inBounds_outputWrite _ _ _ _ h0 (by omega) (by omega)
    · rw [hlast] at ha
      have hb : 0 ≤ jlimit 0 (c.totalSamples - 1)
            (toInt32 (toInt32 (toInt32 c.effectiveStart + idx) - toInt32 c.paddingSamples)) ∧
          jlimit 0 (c.totalSamples - 1)
            (toInt32 (toInt32 (toInt32 c.effectiveStart + idx) - toInt32 c.paddingSamples)) ≤
            c.totalSamples - 1 := by
        rw [jlimit_int _ _ _ (by omega)]; omega
      generalize jlimit 0 (c.totalSamples - 1)
        (toInt32 (toInt32 (toInt32 c.effectiveStart + idx) - toInt32 c.paddingSamples)) =
        bufferPos at hb ha
      have hnext : toInt32 (bufferPos + 1) = bufferPos + 1 :=
        toInt32_of_range _ (by omega) (by omega)
      rw [hnext] at ha
      simp only [List.mem_cons, List.mem_singleton, List.not_mem_nil, or_false, jmin_int] at ha
      rcases ha with ha | ha | ha <;> subst ha
      · exact inBounds_bufferRead _ _ _ _ hb.1 (by omega) (by omega)
      · exact inBounds_bufferRead _ _ _ _ (by omega) (by omega) (by omega)
      · exact inBounds_outputWrite _ _ _ _ h0 (by omega) (by omega)
  unfold Machine.resampleBody
  dsimp only
  split_ifs
  · exact hwrite _ _
  · exact Machine.clearOutput_inBounds _ _ _ _ _ h0 hn32
  · exact hwrite _ _

theorem Machine.resampleLoop_inBounds (c : RenderCtx) (hT : 1 ≤ c.totalSamples)
    (hT32 : c.totalSamples < 2147483648) (hn32 : c.numSamples < 2147483648)
    (remaining : Nat) :
    ∀ (i : Int) (s : ResampleState), 0 ≤ i → i + (remaining : Int) ≤ c.numSamples →
      Access.allInBounds c.totalSamples c.numSamples (Machine.resampleLoop c remaining i s).2 := by
  induction remaining with
  | zero => intro i s _ _ a ha; cases ha
  | succ remaining ih =>
    intro i s h0 hi a ha
    unfold Machine.resampleLoop at ha
    have hb := Machine.resampleBody_inBounds c hT hT32 hn32 i h0 (by push_cast at hi; omega) s
    rcases hbt : Machine.resampleBody c i s with ⟨step, accesses⟩
    rw [hbt] at hb ha
    cases step with
    | next s' =>
      dsimp only at ha
      rcases List.mem_append.mp ha with h | h
      · exact hb a h
      · exact ih (i + 1) s' (by omega) (by push_cast at hi ⊢; omega) a h
    | returned s' idx => exact hb a ha

theorem Machine.renderResampled_accesses (c : RenderCtx) (p : AudioPlayer)
    (out : OutputChannels) :
    (Machine.renderResampled c p out).2 =
      (Machine.resampleLoop c c.numSamples.toNat 0
        { sourcePos := p.fractionalSample, playing := p.playing, out := out,
          wrapFrames := [] }).2 := by
  unfold Machine.renderResampled
  dsimp only
  cases (Machine.resampleLoop c c.numSamples.toNat 0
    { sourcePos := p.fractionalSample, playing := p.playing, out := out,
      wrapFrames := [] }).1 <;> rfl

/-- The resampling path is index-safe in every state: on a buffer of
`1 ≤ N < 2^31` frames and a block of `0 ≤ n < 2^31` frames every access of a
callback that takes the resampling path is in bounds. -/
theorem Machine.callback_resampled_inBounds (fuel : Nat) (p : AudioPlayer)
    (ps : MSUProjectState) (out : OutputChannels) (nc n : Int)
    (hps : p.projectState = some ps) (hplay : p.playing = true)
    (hN : 0 < ps.audioBuffer.numSamples) (hN32 : ps.audioBuffer.numSamples < 2147483648)
    (hsr : 0 < ps.projectSampleRate) (hdr : 0 < p.deviceSampleRate)
    (hn0 : 0 ≤ n) (hn32 : n < 2147483648)
    (hact : (Machine.updateResamplingState p).resamplingActive = true) :
    Access.allInBounds ps.audioBuffer.numSamples n
      (Machine.audioDeviceIOCallbackWithContext fuel p out nc n).2 := by
  rw [Machine.callback_rendering_machine fuel p ps out nc n hps hplay hN hsr hdr, if_pos hact]
  intro a ha
  dsimp only at ha
  rcases List.mem_append.mp ha with h | h
  · exact Machine.clearOutput_inBounds _ _ _ _ _ le_rfl hn32 a h
  · rw [Machine.renderResampled_accesses] at h
    exact Machine.resampleLoop_inBounds
      (Machine.RenderCtx.make (Machine.updateResamplingState p) ps nc n) hN hN32 hn32
      (Machine.RenderCtx.make (Machine.updateResamplingState p) ps nc n).numSamples.toNat 0
      _ le_rfl
      (by
        show (0 : Int) + ((n.toNat : Nat) : Int) ≤ n
        rw [Int.toNat_of_nonneg hn0]; omega) a h

/-! ## Helper lemmas: single frames of the resampling loop -/

theorem Machine.clearOutput_isNull_machine (nc n : Int) (out : OutputChannels) (start : Int) :
    (Machine.clearOutput nc n out start).1.isNull = out.isNull := by
  unfold Machine.clearOutput
  split_ifs <;> rfl

theorem Machine.clearOutput_samples_before (nc n : Int) (out : OutputChannels)
    (start ch x : Int) (hx : x < start) :
    (Machine.clearOutput nc n out start).1.samples ch x = out.samples ch x := by
  unfold Machine.clearOutput
  split_ifs
  · rfl
  · simp only [OutputChannels.clearRange]
    rw [if_neg (by omega)]

theorem Machine.resampleWrite_isNull_machine (c : RenderCtx) (i : Int) (s : ResampleState)
    (idx : Int) : (Machine.resampleWrite c i s idx).1.out.isNull = s.out.isNull := by
  unfold Machine.resampleWrite
  dsimp only
  split_ifs <;> rfl

theorem Machine.resampleWrite_sourcePos_machine (c : RenderCtx) (i : Int) (s : ResampleState)
    (idx : Int) :
    (Machine.resampleWrite c i s idx).1.sourcePos =
      roundDouble (s.sourcePos + c.resamplingRatio) := by
  unfold Machine.resampleWrite
  dsimp only
  split_ifs <;> rfl

theorem Machine.resampleWrite_out_other (c : RenderCtx) (i : Int) (s : ResampleState)
    (idx : Int) (ch x : Int) (hx : x ≠ i) :
    (Machine.resampleWrite c i s idx).1.out.samples ch x = s.out.samples ch x := by
  unfold Machine.resampleWrite
  dsimp only
  split_ifs <;> simp [OutputChannels.writeFrame, hx]

theorem Machine.resampleBody_keeps_earlier (c : RenderCtx) (i : Int) (s : ResampleState) :
    (Machine.resampleBody c i s).1.state.out.isNull = s.out.isNull ∧
      ∀ ch x, x < i →
        (Machine.resampleBody c i s).1.state.out.samples ch x = s.out.samples ch x := by
  unfold Machine.resampleBody
  dsimp only
  split_ifs
  · exact ⟨Machine.resampleWrite_isNull_machine _ _ _ _,
      fun ch x hx => Machine.resampleWrite_out_other _ _ _ _ _ _ (by omega)⟩
  · exact ⟨Machine.clearOutput_isNull_machine _ _ _ _,
      fun ch x hx => Machine.clearOutput_samples_before _ _ _ _ _ _ hx⟩
  · exact ⟨Machine.resampleWrite_isNull_machine _ _ _ _,
      fun ch x hx => Machine.resampleWrite_out_other _ _ _ _ _ _ (by omega)⟩

theorem Machine.resampleLoop_keeps_earlier (c : RenderCtx) (remaining : Nat) :
    ∀ (i : Int) (s : ResampleState),
      (Machine.resampleLoop c remaining i s).1.state.out.isNull = s.out.isNull ∧
        ∀ ch x, x < i →
          (Machine.resampleLoop c remaining i s).1.state.out.samples ch x =
            s.out.samples ch x := by
  induction remaining with
  | zero => intro i s; exact ⟨rfl, fun _ _ _ => rfl⟩
  | succ remaining ih =>
    intro i s
    have hb := Machine.resampleBody_keeps_earlier c i s
    unfold Machine.resampleLoop
    rcases hbody : Machine.resampleBody c i s with ⟨step, accesses⟩
    rw [hbody] at hb
    cases step with
    | next s1 =>
      dsimp only at hb ⊢
      have h := ih (i + 1) s1
      refine ⟨h.1.trans hb.1, fun ch x hx => ?_⟩
      rw [h.2 ch x (by omega)]
      exact hb.2 ch x hx
    | returned s1 idx => exact hb

/-- The conversion of a position inside a buffer of fewer than `2^31`
frames is its floor. -/
theorem Machine.doubleToInt_inside (x : ℚ) (N : Int) (h0 : 0 ≤ x) (hN : x < (N : ℚ))
    (hN32 : N < 2147483648) : Machine.doubleToInt x = ⌊x⌋ ∧ 0 ≤ ⌊x⌋ ∧ ⌊x⌋ < N := by
  have hf0 : 0 ≤ ⌊x⌋ := Int.floor_nonneg.mpr h0
  have hfN : ⌊x⌋ < N := Int.floor_lt.mpr hN
  refine ⟨?_, hf0, hfN⟩
  unfold Machine.doubleToInt
  rw [truncToInt_of_nonneg _ h0]
  exact toInt32_of_range _ (by omega) (by omega)

/-- Frame `i0 + j` of a block rendered on the resampling path without trim,
padding and loop, while the position is inside the buffer: the value
interpolated at the accumulated position, each operation rounded. -/
theorem Machine.resampleLoop_frame (c : RenderCtx) (hh : c.hasLoop = false)
    (hP : c.paddingSamples = 0) (hS : c.effectiveStart = 0)
    (hE : c.effectiveLength = c.totalSamples) (hT32 : c.totalSamples < 2147483648)
    (hr : 0 ≤ c.resamplingRatio) (remaining : Nat) :
    ∀ (i0 : Int) (s : ResampleState), 0 ≤ s.sourcePos → roundDouble s.sourcePos = s.sourcePos →
      ∀ j : Nat, j < remaining →
        accumulate c.resamplingRatio j s.sourcePos < (c.totalSamples : ℚ) →
        ∀ ch, 0 ≤ ch → ch < c.channelCount → s.out.isNull ch = false →
          (Machine.resampleLoop c remaining i0 s).1.state.out.samples ch (i0 + j) =
            roundFloat (roundDouble
              (c.buffer.data ch ⌊accumulate c.resamplingRatio j s.sourcePos⌋ +
                roundDouble
                  (roundDouble (accumulate c.resamplingRatio j s.sourcePos -
                      (⌊accumulate c.resamplingRatio j s.sourcePos⌋ : ℚ)) *
                    roundFloat
                      (c.buffer.data ch
                          (min (⌊accumulate c.resamplingRatio j s.sourcePos⌋ + 1)
                            (c.totalSamples - 1)) -
                        c.buffer.data ch ⌊accumulate c.resamplingRatio j s.sourcePos⌋)))) := by
  induction remaining with
  | zero => intro i0 s _ _ j hj; omega
  | succ remaining ih =>
    intro i0 s hs hd j hj hin ch hch0 hch hnull
    have hle : s.sourcePos ≤ accumulate c.resamplingRatio j s.sourcePos :=
      le_accumulate _ hr j _ hd
    obtain ⟨hidx, hk0, hkN⟩ :=
      Machine.doubleToInt_inside s.sourcePos c.totalSamples hs (lt_of_le_of_lt hle hin) hT32
    have hbody : Machine.resampleBody c i0 s =
        (.next (Machine.resampleWrite c i0 s ⌊s.sourcePos⌋).1,
          (Machine.resampleWrite c i0 s ⌊s.sourcePos⌋).2) := by
      unfold Machine.resampleBody
      dsimp only
      rw [hidx, if_neg]
      rintro (h | ⟨h1, _⟩)
      · rw [hE] at h; omega
      · rw [hh] at h1; cases h1
    unfold Machine.resampleLoop
    rw [hbody]
    dsimp only
    cases j with
    | zero =>
      rw [(Machine.resampleLoop_keeps_earlier c remaining (i0 + 1) _).2 ch
        (i0 + ((0 : Nat) : Int)) (by push_cast; omega)]
      simp only [accumulate, Nat.cast_zero, add_zero]
      unfold Machine.resampleWrite
      dsimp only
      rw [if_neg (by rw [hP]; omega)]
      simp only [OutputChannels.writeFrame]
      rw [if_pos ⟨hch0, hch, hnull, trivial⟩, hS, hP]
      have hlast : toInt32 (c.totalSamples - 1) = c.totalSamples - 1 :=
        toInt32_of_range _ (by omega) (by omega)
      have hpos : jlimit 0 (toInt32 (c.totalSamples - 1))
          (toInt32 (toInt32 (toInt32 0 + ⌊s.sourcePos⌋) - toInt32 0)) = ⌊s.sourcePos⌋ := by
        have h1 : toInt32 ⌊s.sourcePos⌋ = ⌊s.sourcePos⌋ :=
          toInt32_of_range _ (by omega) (by omega)
        rw [hlast, jlimit_int _ _ _ (by omega)]
        simp only [toInt32_zero, zero_add, sub_zero]
        rw [h1, h1]
        omega
      rw [hpos, hlast, toInt32_of_range (⌊s.sourcePos⌋ + 1) (by omega) (by omega), jmin_int]
    | succ j =>
      have h := ih (i0 + 1) (Machine.resampleWrite c i0 s ⌊s.sourcePos⌋).1
        (by
          rw [Machine.resampleWrite_sourcePos_machine]
          exact roundDouble_nonneg (by linarith))
        (by
          rw [Machine.resampleWrite_sourcePos_machine]
          exact roundDouble_idem _)
        j (by omega)
        (by
          rw [Machine.resampleWrite_sourcePos_machine]
          exact hin)
        ch hch0 hch (by rw [Machine.resampleWrite_isNull_machine]; exact hnull)
      rw [Machine.resampleWrite_sourcePos_machine] at h
      have e2 : i0 + 1 + (j : Int) = i0 + ((j + 1 : Nat) : Int) := by push_cast; ring
      rw [e2] at h
      exact h

theorem Machine.renderResampled_out (c : RenderCtx) (p : AudioPlayer) (out : OutputChannels) :
    (Machine.renderResampled c p out).1.out =
      (Machine.resampleLoop c c.numSamples.toNat 0
        { sourcePos := p.fractionalSample, playing := p.playing, out := out,
          wrapFrames := [] }).1.state.out := by
  unfold Machine.renderResampled
  dsimp only
  cases (Machine.resampleLoop c c.numSamples.toNat 0
    { sourcePos := p.fractionalSample, playing := p.playing, out := out,
      wrapFrames := [] }).1 <;> rfl

/-- The context of a callback on a project without trim and padding. -/
theorem Machine.RenderCtx.make_plain_machine (p : AudioPlayer) (ps : MSUProjectState) (nc n : Int)
    (htrim : ps.trimStartSample = 0) (hpad : ps.paddingSamples = 0)
    (hN32 : ps.audioBuffer.numSamples < 2147483648) (hN : 0 < ps.audioBuffer.numSamples)
    (hnoloop : (p.looping && ps.hasLoopPoints) = false) :
    (Machine.RenderCtx.make p ps nc n).hasLoop = false ∧
      (Machine.RenderCtx.make p ps nc n).paddingSamples = 0 ∧
      (Machine.RenderCtx.make p ps nc n).effectiveStart = 0 ∧
      (Machine.RenderCtx.make p ps nc n).effectiveLength = ps.audioBuffer.numSamples ∧
      (Machine.RenderCtx.make p ps nc n).totalSamples = ps.audioBuffer.numSamples ∧
      (Machine.RenderCtx.make p ps nc n).channelCount = min nc ps.audioBuffer.numChannels ∧
      (Machine.RenderCtx.make p ps nc n).buffer = ps.audioBuffer ∧
      (Machine.RenderCtx.make p ps nc n).resamplingRatio = p.resamplingRatio ∧
      (Machine.RenderCtx.make p ps nc n).numSamples = n := by
  have hS : ps.getEffectivePlaybackStart = 0 := by
    unfold MSUProjectState.getEffectivePlaybackStart
    rw [if_neg (by omega), htrim]
  have hT : toInt32 (ps.audioBuffer.numSamples - toInt32 0) = ps.audioBuffer.numSamples := by
    rw [toInt32_zero, sub_zero]
    exact toInt32_of_range _ (by omega) hN32
  refine ⟨hnoloop, hpad, hS, ?_, rfl, ?_, rfl, rfl, rfl⟩
  · simp only [Machine.RenderCtx.make, MSUProjectState.getPaddingSamples, hS, hpad]
    rw [if_neg (by omega)]
    exact hT
  · simp only [Machine.RenderCtx.make, jmin_int]

/-- A block whose positions all stay inside the buffer runs to its end and
leaves the accumulated position. -/
theorem Machine.resampleLoop_inside_machine (c : RenderCtx) (hh : c.hasLoop = false)
    (hE : c.effectiveLength = c.totalSamples) (hT32 : c.totalSamples < 2147483648)
    (remaining : Nat) :
    ∀ (i0 : Int) (s : ResampleState), 0 ≤ s.sourcePos →
      (∀ j : Nat, j < remaining →
        0 ≤ accumulate c.resamplingRatio j s.sourcePos ∧
          accumulate c.resamplingRatio j s.sourcePos < (c.totalSamples : ℚ)) →
      ∃ s', (Machine.resampleLoop c remaining i0 s).1 = .next s' ∧
        s'.sourcePos = accumulate c.resamplingRatio remaining s.sourcePos ∧
        s'.playing = s.playing := by
  induction remaining with
  | zero => intro i0 s _ _; exact ⟨s, rfl, rfl, rfl⟩
  | succ remaining ih =>
    intro i0 s hs hin
    obtain ⟨hidx, hk0, hkN⟩ :=
      Machine.doubleToInt_inside s.sourcePos c.totalSamples hs (hin 0 (by omega)).2 hT32
    have hbody : Machine.resampleBody c i0 s =
        (.next (Machine.resampleWrite c i0 s ⌊s.sourcePos⌋).1,
          (Machine.resampleWrite c i0 s ⌊s.sourcePos⌋).2) := by
      unfold Machine.resampleBody
      dsimp only
      rw [hidx, if_neg]
      rintro (h | ⟨h1, _⟩)
      · rw [hE] at h; omega
      · rw [hh] at h1; cases h1
    unfold Machine.resampleLoop
    rw [hbody]
    dsimp only
    cases remaining with
    | zero =>
      refine ⟨(Machine.resampleWrite c i0 s ⌊s.sourcePos⌋).1, rfl, ?_, ?_⟩
      · rw [Machine.resampleWrite_sourcePos_machine]; rfl
      · unfold Machine.resampleWrite
        dsimp only
        split_ifs <;> rfl
    | succ remaining =>
      obtain ⟨s', h1, h2, h3⟩ := ih (i0 + 1) (Machine.resampleWrite c i0 s ⌊s.sourcePos⌋).1
        (by
          rw [Machine.resampleWrite_sourcePos_machine]
          exact (hin 1 (by omega)).1)
        (by
          intro j hj
          rw [Machine.resampleWrite_sourcePos_machine]
          exact hin (j + 1) (by omega))
      refine ⟨s', h1, ?_, ?_⟩
      · rw [h2, Machine.resampleWrite_sourcePos_machine]; rfl
      · rw [h3]
        unfold Machine.resampleWrite
        dsimp only
        split_ifs <;> rfl

/-- C1. Pass-through path: a playing engine at cursor 0 on a buffer of
`N ≥ 1` frames, looping off or no loop points, no trim, no padding, device
rate equal to the project rate (`> 0`). For every block size `n ≤ N` and
every fuel `≥ n` the callback returns, the cursor is `n`, and
`out[ch][i] = buffer[ch][i]` for every `i < n` and every non-null channel
`ch < min (output channels, buffer channels)`. -/
theorem passThrough_reproduces_buffer (p : AudioPlayer) (ps : MSUProjectState)
    (out : OutputChannels) (numOutputChannels numSamples : Int) (fuel : Nat)
    (hps : p.projectState = some ps) (hplaying : p.playing = true)
    (hloop : p.looping = false ∨ ps.hasLoopPoints = false)
    (htrim : ps.trimStartSample = 0) (hpad : ps.paddingSamples = 0)
    (hrate : p.deviceSampleRate = ps.projectSampleRate) (hpos : 0 < ps.projectSampleRate)
    (hN : 1 ≤ ps.audioBuffer.numSamples) (hcur : p.currentSample = 0)
    (hn0 : 0 ≤ numSamples) (hn : numSamples ≤ ps.audioBuffer.numSamples)
    (hfuel : numSamples.toNat ≤ fuel) :
    ∃ r, p.audioDeviceIOCallbackWithContext fuel out numOutputChannels numSamples = some r ∧
      r.player.currentSample = numSamples ∧
      ∀ ch i, 0 ≤ ch → ch < min numOutputChannels ps.audioBuffer.numChannels →
        out.isNull ch = false → 0 ≤ i → i < numSamples →
        r.out.samples ch i = ps.audioBuffer.data ch i := by
  have hdr : 0 < p.deviceSampleRate := by rw [hrate]; exact hpos
  rw [callback_rendering fuel p ps out _ _ hps hplaying (by omega) hpos hdr,
    updateResamplingState_rendering p ps hps (by omega) hpos hdr]
  have hact : ¬ (|ps.projectSampleRate - p.deviceSampleRate| > sampleRateToleranceHz) := by
    rw [hrate]; simp [sampleRateToleranceHz]
  simp only [hact, decide_False, Bool.false_eq_true, if_false]
  have hhl : (p.looping && ps.hasLoopPoints) = false := by
    rcases hloop with h | h <;> simp [h]
  rw [RenderCtx.make_plain _ ps _ _ htrim hpad]
  simp only [hhl, Bool.false_eq_true, if_false, hcur]
  unfold AudioPlayer.renderPassThrough
  rcases lt_or_le 0 numSamples with hpos' | hzero
  · obtain ⟨f, rfl⟩ : ∃ f, fuel = f + 1 := ⟨fuel - 1, by omega⟩
    rw [passLoop_step _ f _ _ hpos'
      ((passBody_inside _ _ (by simpa using hN) (by simp)).trans
        (passWrite_copy _ _ ps.audioBuffer.numSamples 0 numSamples (by simp) (by simpa using hN)
          hpos' (by simp) (by simp) (by simp) (by simpa using hN) (by simp; omega)))]
    rw [passLoop_done _ f _ (by simp)]
    refine ⟨_, rfl, by simp [AudioPlayer.finishPassThrough], ?_⟩
    intro ch i hch0 hch hnull hi0 hi
    simp only [AudioPlayer.finishPassThrough, OutputChannels.copyRange, clearOutput_isNull]
    rw [if_pos ⟨hch0, hch, hnull, by omega, by omega⟩]
    simp
  · have : numSamples = 0 := by omega
    subst this
    rw [passLoop_done _ fuel _ (by simp)]
    refine ⟨_, rfl, by simp [AudioPlayer.finishPassThrough], ?_⟩
    intro ch i hch0 hch hnull hi0 hi
    omega

/-- Witness of C1: three frames of the eight-frame `demoProject`. -/
theorem passThrough_reproduces_buffer_witness :
    ∃ r, demoPlayer.audioDeviceIOCallbackWithContext 3 silentOutput 2 3 = some r ∧
      r.player.currentSample = 3 ∧
      ∀ ch i, 0 ≤ ch → ch < min 2 demoProject.audioBuffer.numChannels →
        silentOutput.isNull ch = false → 0 ≤ i → i < 3 →
        r.out.samples ch i = demoProject.audioBuffer.data ch i :=
  passThrough_reproduces_buffer demoPlayer demoProject silentOutput 2 3 3 rfl rfl
    (Or.inl rfl) rfl rfl rfl (by norm_num [demoProject]) (by decide) rfl (by decide)
    (by decide) (by decide)

/-- C2. Loop wrap: a playing, looping engine, no trim, no padding, equal
rates, loop points `0 ≤ a < b ≤ N` (`N` an `int`), cursor `0 ≤ c < b` and a
block size `n` with `b - c ≤ n ≤ (b - c) + (b - a)`. For every fuel `≥ n`
the callback returns, output frames `i < b - c` equal `buffer[c + i]` and
output frames `i ≥ b - c` equal `buffer[a + (i - (b - c))]`, on every
non-null channel below `min (output channels, buffer channels)`. -/
theorem loop_wrap_render (p : AudioPlayer) (ps : MSUProjectState)
    (out : OutputChannels) (numOutputChannels numSamples : Int) (fuel : Nat)
    (hps : p.projectState = some ps) (hplaying : p.playing = true)
    (hlooping : p.looping = true)
    (htrim : ps.trimStartSample = 0) (hpad : ps.paddingSamples = 0)
    (hrate : p.deviceSampleRate = ps.projectSampleRate) (hpos : 0 < ps.projectSampleRate)
    (hN32 : ps.audioBuffer.numSamples < 2147483648)
    (ha : 0 ≤ ps.loopStartSample) (hab : ps.loopStartSample < ps.loopEndSample)
    (hb : ps.loopEndSample ≤ ps.audioBuffer.numSamples)
    (hc0 : 0 ≤ p.currentSample) (hc : p.currentSample < ps.loopEndSample)
    (hn1 : ps.loopEndSample - p.currentSample ≤ numSamples)
    (hn2 : numSamples ≤ (ps.loopEndSample - p.currentSample) +
      (ps.loopEndSample - ps.loopStartSample))
    (hfuel : numSamples.toNat ≤ fuel) :
    ∃ r, p.audioDeviceIOCallbackWithContext fuel out numOutputChannels numSamples = some r ∧
      ∀ ch i, 0 ≤ ch → ch < min numOutputChannels ps.audioBuffer.numChannels →
        out.isNull ch = false → 0 ≤ i → i < numSamples →
        r.out.samples ch i =
          if i < ps.loopEndSample - p.currentSample then
            ps.audioBuffer.data ch (p.currentSample + i)
          else
            ps.audioBuffer.data ch
              (ps.loopStartSample + (i - (ps.loopEndSample - p.currentSample))) := by
  have hdr : 0 < p.deviceSampleRate := by rw [hrate]; exact hpos
  rw [callback_rendering fuel p ps out _ _ hps hplaying (by omega) hpos hdr,
    updateResamplingState_rendering p ps hps (by omega) hpos hdr]
  have hact : ¬ (|ps.projectSampleRate - p.deviceSampleRate| > sampleRateToleranceHz) := by
    rw [hrate]; simp [sampleRateToleranceHz]
  simp only [hact, decide_False, Bool.false_eq_true, if_false]
  have hhl : (p.looping && ps.hasLoopPoints) = true := by
    simp [hlooping, MSUProjectState.hasLoopPoints, ha, hab]
  rw [RenderCtx.make_plain _ ps _ _ htrim hpad]
  simp only [hhl, if_true, toInt32_of_range ps.loopStartSample (by omega) (by omega),
    toInt32_of_range ps.loopEndSample (by omega) (by omega)]
  unfold AudioPlayer.renderPassThrough
  obtain ⟨f, rfl⟩ : ∃ f, fuel = f + 1 := ⟨fuel - 1, by omega⟩
  rw [passLoop_step _ f _ _ (by simp; omega)
    ((passBody_inside _ _ (by simp; omega) (by simp; omega)).trans
      (passWrite_copy _ _ ps.loopEndSample p.currentSample
        (ps.loopEndSample - p.currentSample) (by simp) (by simpa using hc)
        (by simp; omega) (by simp) (by simp) (by simpa using hc0) (by simp; omega)
        (by simp; omega)))]
  rcases lt_or_le (ps.loopEndSample - p.currentSample) numSamples with hlt | hge
  · obtain ⟨g, rfl⟩ : ∃ g, f = g + 1 := ⟨f - 1, by omega⟩
    rw [passLoop_step _ g _ _ (by simp; omega)
      ((passBody_wrap _ _ (by simp) (Or.inr (by simp))).trans
        (passWrite_copy _ _ ps.loopEndSample ps.loopStartSample
          (numSamples - (ps.loopEndSample - p.currentSample)) (by simp) (by simpa using hab)
          (by simp; omega) (by simp) (by simp) (by simpa using ha) (by simp; omega)
          (by simp; omega)))]
    rw [passLoop_done _ g _ (by simp)]
    refine ⟨_, rfl, ?_⟩
    intro ch i hch0 hch hnull hi0 hi
    simp only [AudioPlayer.finishPassThrough, OutputChannels.copyRange, clearOutput_isNull, zero_add]
    by_cases h1 : i < ps.loopEndSample - p.currentSample
    · rw [if_neg (by omega), if_pos ⟨hch0, hch, hnull, by omega, by omega⟩, if_pos h1]
      simp
    · rw [if_pos ⟨hch0, hch, hnull, by omega, by omega⟩, if_neg h1]
  · rw [passLoop_done _ f _ (by simp; omega)]
    refine ⟨_, rfl, ?_⟩
    intro ch i hch0 hch hnull hi0 hi
    simp only [AudioPlayer.finishPassThrough, OutputChannels.copyRange, clearOutput_isNull, zero_add]
    rw [if_pos ⟨hch0, hch, hnull, by omega, by omega⟩, if_pos (by omega)]
    simp

/-- Witness of C2: `a = 1000`, `b = 2000`, cursor `1990`, block size `50`. -/
theorem loop_wrap_render_witness :
    ∃ r, wrapPlayer.audioDeviceIOCallbackWithContext 50 silentOutput 2 50 = some r ∧
      ∀ ch i, 0 ≤ ch → ch < min 2 wrapProject.audioBuffer.numChannels →
        silentOutput.isNull ch = false → 0 ≤ i → i < 50 →
        r.out.samples ch i =
          if i < wrapProject.loopEndSample - wrapPlayer.currentSample then
            wrapProject.audioBuffer.data ch (wrapPlayer.currentSample + i)
          else
            wrapProject.audioBuffer.data ch
              (wrapProject.loopStartSample +
                (i - (wrapProject.loopEndSample - wrapPlayer.currentSample))) :=
  loop_wrap_render wrapPlayer wrapProject silentOutput 2 50 50 rfl rfl rfl rfl rfl rfl
    (by norm_num [wrapProject]) (by decide) (by decide) (by decide) (by decide) (by decide)
    (by decide) (by decide) (by decide) (by decide)

/-! ## C3: padding -/

/-- C3 (failing input). `hugePaddingPlayer`: a one-frame buffer with
`paddingSamples = 2^32`, no trim, looping off, cursor 0, equal rates, a block
of one frame.  The pass-through path tests `currentSample < paddingSamples`
in 64 bits and counts `static_cast<int>(paddingSamples) - currentSample` in
32: the cast is 0, the padding branch clears zero frames, the loop never
advances and the callback does not return, with the fuel 1 that the block
size asks for or with any other.  The resampling path (the same engine with
the device at 48 kHz) compares in 64 bits only: it returns, still playing,
with frame 0 silent, as the claim says. -/
theorem padding_beyond_int_never_returns :
    (Machine.audioDeviceIOCallbackWithContext 1 hugePaddingPlayer silentOutput 2 1).1 = none ∧
      (∀ fuel : Nat,
        (Machine.audioDeviceIOCallbackWithContext fuel hugePaddingPlayer silentOutput 2 1).1 =
          none) ∧
      ∃ r, (Machine.audioDeviceIOCallbackWithContext 1
            { hugePaddingPlayer with deviceSampleRate := 48000 } staleOutput 2 1).1 = some r ∧
        r.player.playing = true ∧ r.out.samples 0 0 = 0 ∧ r.out.samples 1 0 = 0 := by
  have hstall : ∀ fuel : Nat,
      (Machine.audioDeviceIOCallbackWithContext fuel hugePaddingPlayer silentOutput 2 1).1 =
        none := by
    intro fuel
    rw [Machine.callback_rendering_machine fuel hugePaddingPlayer hugePaddingProject _ _ _ rfl rfl
      (by decide) (by norm_num [hugePaddingProject]) (by norm_num [hugePaddingPlayer])]
    rw [Machine.updateResamplingState_equal_rates hugePaddingPlayer hugePaddingProject rfl
      (by decide) (by norm_num [hugePaddingProject]) rfl]
    have hctx : Machine.RenderCtx.make
        { hugePaddingPlayer with resamplingActive := false, resamplingRatio := 1,
                                 fractionalSample := (hugePaddingPlayer.currentSample : ℚ) }
        hugePaddingProject 2 1 =
        { numOutputChannels := 2, numSamples := 1, buffer := hugePaddingProject.audioBuffer,
          totalSamples := 1, sourceSampleRate := 44100, resamplingRatio := 1,
          paddingSamples := 4294967296, effectiveStart := 0, hasLoop := false,
          loopStart := 0, loopEnd := 1, effectiveLength := 1, channelCount := 2 } := by
      simp [Machine.RenderCtx.make, hugePaddingPlayer, hugePaddingProject, toInt32,
        MSUProjectState.getPaddingSamples, MSUProjectState.getEffectivePlaybackStart,
        MSUProjectState.hasLoopPoints, MSUProjectState.getSampleRate]
    rw [if_neg (by simp), hctx]
    unfold Machine.renderPassThrough
    simp only [Option.map_eq_none']
    exact Machine.passLoop_stalls_padding _ fuel _ (by decide) (by decide) (by decide)
      (by decide) (by intro h; cases h) (by decide) (by decide) (by decide) (by decide)
  refine ⟨hstall 1, hstall, ?_⟩
  rw [Machine.callback_rendering_machine 1 { hugePaddingPlayer with deviceSampleRate := 48000 }
    hugePaddingProject _ _ _ rfl rfl (by decide) (by norm_num [hugePaddingProject])
    (by norm_num)]
  rw [Machine.updateResamplingState_rendering_machine { hugePaddingPlayer with deviceSampleRate := 48000 }
    hugePaddingProject rfl (by decide) (by norm_num [hugePaddingProject]) (by norm_num)]
  have hdiff : roundDouble (hugePaddingProject.projectSampleRate - 48000) = -3900 := by
    have e : hugePaddingProject.projectSampleRate - 48000 = ((-3900 : Int) : ℚ) := by
      norm_num [hugePaddingProject]
    rw [e, roundDouble_intCast _ (by norm_num)]
    norm_num
  have hact : |roundDouble (hugePaddingProject.projectSampleRate - 48000)| >
      Machine.sampleRateToleranceHz := by
    rw [hdiff]
    unfold Machine.sampleRateToleranceHz
    rw [roundDouble_tenth]
    norm_num
  simp only [hact, decide_True, if_true]
  simp [Machine.renderResampled, Machine.resampleLoop, Machine.resampleBody, Machine.resampleWrite,
    Machine.RenderCtx.make, Machine.doubleToInt, Machine.clearOutput, hugePaddingPlayer,
    hugePaddingProject, toInt32, MSUProjectState.getPaddingSamples,
    MSUProjectState.getEffectivePlaybackStart, MSUProjectState.hasLoopPoints,
    OutputChannels.writeFrame, OutputChannels.clearRange, staleOutput, jmin]

/-- C5. A callback on an engine that is not playing, has no audio loaded
(no project, or an empty buffer), or has a project or device sample rate
`≤ 0` returns for every fuel, writes `0` to every frame of every non-null
output channel and leaves the whole engine state (hence `playing`, the
integer cursor, the fractional position and `currentPosition`) unchanged. -/
theorem callback_idle_is_silent (p : AudioPlayer) (out : OutputChannels)
    (numOutputChannels numSamples : Int) (fuel : Nat)
    (hidle : p.playing = false ∨ p.projectState = none ∨ p.deviceSampleRate ≤ 0 ∨
      ∃ ps, p.projectState = some ps ∧
        (ps.audioBuffer.numSamples ≤ 0 ∨ ps.projectSampleRate ≤ 0)) :
    ∃ r, p.audioDeviceIOCallbackWithContext fuel out numOutputChannels numSamples = some r ∧
      r.player = p ∧
      r.player.playing = p.playing ∧ r.player.currentSample = p.currentSample ∧
      r.player.fractionalSample = p.fractionalSample ∧
      r.player.currentPosition = p.currentPosition ∧
      ∀ ch i, 0 ≤ ch → ch < numOutputChannels → out.isNull ch = false →
        0 ≤ i → i < numSamples → r.out.samples ch i = 0 := by
  refine ⟨_, callback_idle p out numOutputChannels numSamples fuel hidle, rfl, rfl, rfl, rfl,
    rfl, ?_⟩
  intro ch i hch0 hch hnull hi0 hi
  exact clearOutput_samples _ _ _ _ _ _ hch0 hch hnull hi0 hi

/-- Witness of C5: the paused `demoPlayer`. -/
theorem callback_idle_is_silent_witness :
    ∃ r, demoPlayer.pause.audioDeviceIOCallbackWithContext 0 silentOutput 2 4 = some r ∧
      r.player = demoPlayer.pause ∧
      r.player.playing = demoPlayer.pause.playing ∧
      r.player.currentSample = demoPlayer.pause.currentSample ∧
      r.player.fractionalSample = demoPlayer.pause.fractionalSample ∧
      r.player.currentPosition = demoPlayer.pause.currentPosition ∧
      ∀ ch i, 0 ≤ ch → ch < 2 → silentOutput.isNull ch = false →
        0 ≤ i → i < 4 → r.out.samples ch i = 0 :=
  callback_idle_is_silent demoPlayer.pause silentOutput 2 4 0 (Or.inl rfl)

/-- C6 (code evaluated at the failing input). Source at 66.15 kHz, device at
44.1 kHz, ratio `3 / 2`, two successive one-frame blocks from cursor 0, no
loop wrap and no end of content. The first block leaves the fractional
position at `3 / 2`; the second starts again from the integer cursor 1 and
leaves `5 / 2`, not `3 / 2 + 1 * (3 / 2) = 3`. -/
theorem fractional_position_dropped_between_blocks :
    ∃ r1 r2,
      driftPlayer.audioDeviceIOCallbackWithContext 0 silentOutput 2 1 = some r1 ∧
      r1.player.audioDeviceIOCallbackWithContext 0 silentOutput 2 1 = some r2 ∧
      r1.wrapFrames = [] ∧ r1.player.playing = true ∧
      r2.wrapFrames = [] ∧ r2.player.playing = true ∧
      r1.player.resamplingRatio = 3 / 2 ∧ r2.player.resamplingRatio = 3 / 2 ∧
      r1.player.fractionalSample = 3 / 2 ∧
      r2.player.fractionalSample = 5 / 2 ∧
      r2.player.fractionalSample ≠ r1.player.fractionalSample + 1 * (3 / 2) := by
  have hr : driftProject.projectSampleRate / driftPlayer.deviceSampleRate = 3 / 2 := by
    norm_num [driftProject, driftPlayer]
  have hE : ∀ q : AudioPlayer, (RenderCtx.make q driftProject 2 1).effectiveLength = 8 := by
    intro q
    simp [RenderCtx.make, driftProject, MSUProjectState.getEffectivePlaybackStart,
      MSUProjectState.getPaddingSamples]
  have hL : ∀ q : AudioPlayer, (RenderCtx.make q driftProject 2 1).hasLoop = false := by
    intro q
    simp [RenderCtx.make, driftProject, MSUProjectState.hasLoopPoints]
  have hc0 : driftPlayer.currentSample = 0 := rfl
  obtain ⟨r1, h1, hw1, hp1⟩ :=
    callback_resampled_inside 0 driftPlayer driftProject silentOutput 2 1 rfl rfl
      (by decide) (by norm_num [driftProject]) (by norm_num [driftPlayer])
      (by norm_num [driftProject, driftPlayer, sampleRateToleranceHz, abs_of_nonneg])
      (by
        intro j hj
        have hj0 : j = 0 := by simpa using hj
        subst hj0
        rw [hE, hL, hc0]
        simp [truncToInt_zero])
  rw [hE, hr, hc0] at hp1
  have hx : ((0 : Int) : ℚ) + ((1 : Int).toNat : ℚ) * (3 / 2) = 3 / 2 := by norm_num
  rw [hx, truncToInt_three_halves] at hp1
  have hc1 : r1.player.currentSample = 1 := by rw [hp1]; decide
  have hd1 : r1.player.deviceSampleRate = driftPlayer.deviceSampleRate := by rw [hp1]
  obtain ⟨r2, h2, hw2, hp2⟩ :=
    callback_resampled_inside 0 r1.player driftProject silentOutput 2 1 (by rw [hp1]; rfl)
      (by rw [hp1]; rfl) (by decide) (by norm_num [driftProject])
      (by rw [hd1]; norm_num [driftPlayer])
      (by rw [hd1]; norm_num [driftProject, driftPlayer, sampleRateToleranceHz, abs_of_nonneg])
      (by
        intro j hj
        have hj0 : j = 0 := by simpa using hj
        subst hj0
        rw [hE, hL, hc1]
        have : truncToInt (((1 : Int) : ℚ) + ((0 : Nat) : ℚ) *
            (driftProject.projectSampleRate / r1.player.deviceSampleRate)) = 1 := by
          rw [Nat.cast_zero, zero_mul, add_zero, truncToInt_intCast]
        rw [this]
        simp)
  rw [hE, hd1, hr, hc1] at hp2
  have hy : ((1 : Int) : ℚ) + ((1 : Int).toNat : ℚ) * (3 / 2) = 5 / 2 := by norm_num
  rw [hy, truncToInt_five_halves] at hp2
  refine ⟨r1, r2, h1, h2, hw1, ?_, hw2, ?_, ?_, ?_, ?_, ?_, ?_⟩
  · rw [hp1]; rfl
  · rw [hp2, hp1]; rfl
  · rw [hp1]
  · rw [hp2]
  · rw [hp1]
  · rw [hp2]
  · rw [hp2, hp1]; norm_num

/-- C7 (amended). Scenario: a 44100-frame stereo buffer, `loopStart = 22050`,
`loopEnd = 33075`, looping on, device rate equal to the project rate, no
trim or padding, cursor 0, three successive blocks of 20000 frames (fuel
`≥ 3`). Block 1 does not wrap and plays samples `0..19999` unchanged; block
2 wraps once, at local frame 13075 (frame 13074 is sample 33074, frame 13075
is sample 22050); block 3 wraps twice, at local frames 4100 and 15125: three
wraps in all. The cursor is 20000, 28975 and 26925 after the blocks and
`playing` is true after each. -/
theorem loop_scenario_three_wraps (p : AudioPlayer) (ps : MSUProjectState)
    (o1 o2 o3 : OutputChannels) (nc : Int) (fuel : Nat)
    (hps : p.projectState = some ps) (hplaying : p.playing = true)
    (hlooping : p.looping = true) (hcur : p.currentSample = 0)
    (hch : ps.audioBuffer.numChannels = 2) (hN : ps.audioBuffer.numSamples = 44100)
    (hls : ps.loopStartSample = 22050) (hle : ps.loopEndSample = 33075)
    (htrim : ps.trimStartSample = 0) (hpad : ps.paddingSamples = 0)
    (hrate : p.deviceSampleRate = ps.projectSampleRate) (hpos : 0 < ps.projectSampleRate)
    (hfuel : 3 ≤ fuel) :
    ∃ r1 r2 r3,
      p.audioDeviceIOCallbackWithContext fuel o1 nc 20000 = some r1 ∧
      r1.player.audioDeviceIOCallbackWithContext fuel o2 nc 20000 = some r2 ∧
      r2.player.audioDeviceIOCallbackWithContext fuel o3 nc 20000 = some r3 ∧
      (r1.wrapFrames = [] ∧ r1.player.currentSample = 20000 ∧ r1.player.playing = true) ∧
      (r2.wrapFrames = [13075] ∧ r2.player.currentSample = 28975 ∧
        r2.player.playing = true) ∧
      (r3.wrapFrames = [4100, 15125] ∧ r3.player.currentSample = 26925 ∧
        r3.player.playing = true) ∧
      (∀ ch i, 0 ≤ ch → ch < min nc 2 → o1.isNull ch = false → 0 ≤ i → i < 20000 →
        r1.out.samples ch i = ps.audioBuffer.data ch i) ∧
      (∀ ch i, 0 ≤ ch → ch < min nc 2 → o2.isNull ch = false → 0 ≤ i → i < 20000 →
        r2.out.samples ch i =
          if i < 13075 then ps.audioBuffer.data ch (20000 + i)
          else ps.audioBuffer.data ch (22050 + (i - 13075))) ∧
      (∀ ch i, 0 ≤ ch → ch < min nc 2 → o3.isNull ch = false → 0 ≤ i → i < 20000 →
        r3.out.samples ch i =
          if i < 4100 then ps.audioBuffer.data ch (28975 + i)
          else if i < 15125 then ps.audioBuffer.data ch (22050 + (i - 4100))
          else ps.audioBuffer.data ch (22050 + (i - 15125))) :=
  loop_scenario_blocks p ps o1 o2 o3 nc fuel hps hplaying hlooping hcur hch hN hls hle htrim
    hpad hrate hpos hfuel

/-- Witness of C7: the scenario on the ramp buffer of `scenarioProject`. -/
theorem loop_scenario_three_wraps_witness :
    ∃ r1 r2 r3,
      scenarioPlayer.audioDeviceIOCallbackWithContext 3 silentOutput 2 20000 = some r1 ∧
      r1.player.audioDeviceIOCallbackWithContext 3 silentOutput 2 20000 = some r2 ∧
      r2.player.audioDeviceIOCallbackWithContext 3 silentOutput 2 20000 = some r3 ∧
      (r1.wrapFrames = [] ∧ r1.player.currentSample = 20000 ∧ r1.player.playing = true) ∧
      (r2.wrapFrames = [13075] ∧ r2.player.currentSample = 28975 ∧
        r2.player.playing = true) ∧
      (r3.wrapFrames = [4100, 15125] ∧ r3.player.currentSample = 26925 ∧
        r3.player.playing = true) ∧
      (∀ ch i, 0 ≤ ch → ch < min 2 2 → silentOutput.isNull ch = false → 0 ≤ i → i < 20000 →
        r1.out.samples ch i = scenarioProject.audioBuffer.data ch i) ∧
      (∀ ch i, 0 ≤ ch → ch < min 2 2 → silentOutput.isNull ch = false → 0 ≤ i → i < 20000 →
        r2.out.samples ch i =
          if i < 13075 then scenarioProject.audioBuffer.data ch (20000 + i)
          else scenarioProject.audioBuffer.data ch (22050 + (i - 13075))) ∧
      (∀ ch i, 0 ≤ ch → ch < min 2 2 → silentOutput.isNull ch = false → 0 ≤ i → i < 20000 →
        r3.out.samples ch i =
          if i < 4100 then scenarioProject.audioBuffer.data ch (28975 + i)
          else if i < 15125 then scenarioProject.audioBuffer.data ch (22050 + (i - 4100))
          else scenarioProject.audioBuffer.data ch (22050 + (i - 15125))) :=
  loop_scenario_three_wraps scenarioPlayer scenarioProject silentOutput silentOutput
    silentOutput 2 3 rfl rfl rfl rfl rfl rfl rfl rfl rfl rfl rfl
    (by norm_num [scenarioProject]) (by decide)

/-- C7 (counterexample). On the ramp buffer of `scenarioProject` the three
blocks of the scenario wrap three times in all, not twice. -/
theorem loop_scenario_wraps_three_times_not_two :
    ∃ r1 r2 r3,
      scenarioPlayer.audioDeviceIOCallbackWithContext 3 silentOutput 2 20000 = some r1 ∧
      r1.player.audioDeviceIOCallbackWithContext 3 silentOutput 2 20000 = some r2 ∧
      r2.player.audioDeviceIOCallbackWithContext 3 silentOutput 2 20000 = some r3 ∧
      r1.wrapFrames.length + r2.wrapFrames.length + r3.wrapFrames.length = 3 ∧
      r1.wrapFrames.length + r2.wrapFrames.length + r3.wrapFrames.length ≠ 2 := by
  obtain ⟨r1, r2, r3, h1, h2, h3, ⟨hw1, _, _⟩, ⟨hw2, _, _⟩, ⟨hw3, _, _⟩, _⟩ :=
    loop_scenario_blocks scenarioPlayer scenarioProject silentOutput silentOutput
      silentOutput 2 3 rfl rfl rfl rfl rfl rfl rfl rfl rfl rfl rfl
      (by norm_num [scenarioProject]) (by decide)
  refine ⟨r1, r2, r3, h1, h2, h3, ?_, ?_⟩ <;> rw [hw1, hw2, hw3] <;> decide

/-- C8. From every engine state `stop ()` gives `playing = false`, integer
cursor `0`, fractional position `0` and `currentPosition = 0`, and a second
`stop ()` changes nothing. -/
theorem stop_resets_and_is_idempotent (p : AudioPlayer) :
    p.stop.playing = false ∧ p.stop.currentSample = 0 ∧ p.stop.fractionalSample = 0 ∧
      p.stop.currentPosition = 0 ∧ p.stop.stop = p.stop :=
  ⟨rfl, rfl, rfl, rfl, rfl⟩

/-- C9 (code evaluated at the failing input). On a one-frame buffer, from
the reset state, `setLoopStart (0)` followed by `setLoopEnd (0)` leaves both
loop points set and equal: `loopStart = loopEnd = 0`, so the ordering
`loopStart < loopEnd` does not hold. -/
theorem loop_order_lost_when_end_is_zero :
    (oneFrameProject.applyLoopCalls [.setLoopStart 0, .setLoopEnd 0]).loopStartSample = 0 ∧
      (oneFrameProject.applyLoopCalls [.setLoopStart 0, .setLoopEnd 0]).loopEndSample = 0 ∧
      ¬ ((oneFrameProject.applyLoopCalls [.setLoopStart 0, .setLoopEnd 0]).loopStartSample <
        (oneFrameProject.applyLoopCalls [.setLoopStart 0, .setLoopEnd 0]).loopEndSample) := by
  decide

/-- C10. On a buffer of `N ≥ 1` frames the position setters clamp every
argument: `setLoopStart` into `[0, N - 1]`, `setLoopEnd` and `setTrimStart`
into `[0, N]`. -/
theorem position_setters_clamp (s : MSUProjectState) (x : Int)
    (hN : 1 ≤ s.audioBuffer.numSamples) :
    (s.setLoopStart x).getLoopStart = min (max x 0) (s.audioBuffer.numSamples - 1) ∧
      (s.setLoopEnd x).getLoopEnd = min (max x 0) s.audioBuffer.numSamples ∧
      (s.setTrimStart x).getTrimStart = min (max x 0) s.audioBuffer.numSamples := by
  refine ⟨?_, ?_, ?_⟩
  · simp only [MSUProjectState.setLoopStart, MSUProjectState.getLoopStart]
    exact jlimit_int _ _ _ (by omega)
  · simp only [MSUProjectState.setLoopEnd, MSUProjectState.getLoopEnd]
    exact jlimit_int _ _ _ (by omega)
  · simp only [MSUProjectState.setTrimStart, MSUProjectState.getTrimStart]
    exact jlimit_int _ _ _ (by omega)

/-- Witness of C10: the argument 5 on the one-frame `oneFrameProject`. -/
theorem position_setters_clamp_witness :
    (oneFrameProject.setLoopStart 5).getLoopStart =
        min (max 5 0) (oneFrameProject.audioBuffer.numSamples - 1) ∧
      (oneFrameProject.setLoopEnd 5).getLoopEnd =
        min (max 5 0) oneFrameProject.audioBuffer.numSamples ∧
      (oneFrameProject.setTrimStart 5).getTrimStart =
        min (max 5 0) oneFrameProject.audioBuffer.numSamples :=
  position_setters_clamp oneFrameProject 5 (by decide)

/-- C11 (amended). The setter stores its argument as it is: for every `n`,
after `setPaddingSamples (n)` the getter returns `n`, which is `max (n, 0)`
exactly when `n ≥ 0`; `hasPadding ()` is the test `n > 0`. -/
theorem setPaddingSamples_stores_argument (s : MSUProjectState) (n : Int) :
    (s.setPaddingSamples n).getPaddingSamples = n ∧
      ((s.setPaddingSamples n).getPaddingSamples = max n 0 ↔ 0 ≤ n) ∧
      ((s.setPaddingSamples n).hasPadding = true ↔ 0 < n) := by
  refine ⟨rfl, ?_, ?_⟩
  · simp only [MSUProjectState.setPaddingSamples, MSUProjectState.getPaddingSamples]
    omega
  · simp [MSUProjectState.setPaddingSamples, MSUProjectState.hasPadding]

/-- C11 (counterexample). On the fresh state `setPaddingSamples (-1)` leaves
`paddingSamples = -1`, not `max (-1, 0) = 0`: a reachable state with
negative padding. -/
theorem negative_padding_is_stored :
    (MSUProjectState.init.setPaddingSamples (-1)).getPaddingSamples = -1 ∧
      (MSUProjectState.init.setPaddingSamples (-1)).getPaddingSamples ≠ max (-1) 0 ∧
      ¬ (0 ≤ (MSUProjectState.init.setPaddingSamples (-1)).paddingSamples) := by
  decide

/-- C12 (amended). In every state reached from `reset ()` by a sequence of
the mutators `setAudioBuffer` (buffers of `N ≥ 0` frames), `setTrimStart`,
`setLoopStart`, `setLoopEnd`, `setPaddingSamples` and `reset`, the trim start
is `≥ 0`; it is `≤ getNumSamples ()` when no `setAudioBuffer` of the sequence
installs a buffer shorter than the trim start stored at that moment. -/
theorem trim_bounds_reachable (calls : List Mutator)
    (hwf : ∀ m ∈ calls, m.wellFormed = true) :
    0 ≤ (MSUProjectState.init.reset.applyMutators calls).trimStartSample ∧
      (MSUProjectState.init.reset.keepsTrim calls = true →
        (MSUProjectState.init.reset.applyMutators calls).trimStartSample ≤
          (MSUProjectState.init.reset.applyMutators calls).getNumSamples) := by
  obtain ⟨h0, hk⟩ := applyMutators_trim calls MSUProjectState.init.reset (le_refl 0)
    (le_refl 0) hwf
  exact ⟨h0, fun h => hk (le_refl 0) h⟩

/-- C12 (counterexample). From `reset ()`: an eight-frame buffer,
`setTrimStart (5)`, then a one-frame buffer. The second `setAudioBuffer`
does not touch the trim start: `trimStart = 5 > 1 = getNumSamples ()`. -/
theorem shorter_buffer_leaves_stale_trim :
    (MSUProjectState.init.reset.applyMutators
        [.setAudioBuffer ⟨2, 8, fun _ _ => 0⟩ 44100, .setTrimStart 5,
          .setAudioBuffer ⟨2, 1, fun _ _ => 0⟩ 44100]).trimStartSample = 5 ∧
      (MSUProjectState.init.reset.applyMutators
        [.setAudioBuffer ⟨2, 8, fun _ _ => 0⟩ 44100, .setTrimStart 5,
          .setAudioBuffer ⟨2, 1, fun _ _ => 0⟩ 44100]).getNumSamples = 1 := by
  decide

/-- Witness of C12: a buffer of eight frames, `setTrimStart (5)`, then a
buffer of six frames. -/
theorem trim_bounds_reachable_witness :
    0 ≤ (MSUProjectState.init.reset.applyMutators
        [.setAudioBuffer ⟨2, 8, fun _ _ => 0⟩ 44100, .setTrimStart 5,
          .setAudioBuffer ⟨2, 6, fun _ _ => 0⟩ 44100]).trimStartSample ∧
      (MSUProjectState.init.reset.keepsTrim
        [.setAudioBuffer ⟨2, 8, fun _ _ => 0⟩ 44100, .setTrimStart 5,
          .setAudioBuffer ⟨2, 6, fun _ _ => 0⟩ 44100] = true →
        (MSUProjectState.init.reset.applyMutators
          [.setAudioBuffer ⟨2, 8, fun _ _ => 0⟩ 44100, .setTrimStart 5,
            .setAudioBuffer ⟨2, 6, fun _ _ => 0⟩ 44100]).trimStartSample ≤
          (MSUProjectState.init.reset.applyMutators
            [.setAudioBuffer ⟨2, 8, fun _ _ => 0⟩ 44100, .setTrimStart 5,
              .setAudioBuffer ⟨2, 6, fun _ _ => 0⟩ 44100]).getNumSamples) :=
  trim_bounds_reachable _ (by decide)

/-- C13. The method `getEffectivePlaybackStart` returns
`max (0, trimStart - paddingSamples)` when `paddingSamples > 0` and
`trimStart` otherwise; for `trimStart ≥ 0` the result lies in
`[0, trimStart]`. -/
theorem effective_playback_start (s : MSUProjectState) :
    (0 < s.paddingSamples →
        s.getEffectivePlaybackStart = max 0 (s.trimStartSample - s.paddingSamples)) ∧
      (s.paddingSamples ≤ 0 → s.getEffectivePlaybackStart = s.trimStartSample) ∧
      (0 ≤ s.trimStartSample →
        0 ≤ s.getEffectivePlaybackStart ∧ s.getEffectivePlaybackStart ≤ s.trimStartSample) := by
  unfold MSUProjectState.getEffectivePlaybackStart
  refine ⟨?_, ?_, ?_⟩
  · intro h; rw [if_pos h, jmax_int]
  · intro h; rw [if_neg (by omega)]
  · intro h
    split_ifs
    · rw [jmax_int]; omega
    · omega

/-- Witness of C13: `paddedProject`, with padding 441 and trim start 0. -/
theorem effective_playback_start_witness :
    paddedProject.getEffectivePlaybackStart =
        max 0 (paddedProject.trimStartSample - paddedProject.paddingSamples) ∧
      (0 ≤ paddedProject.getEffectivePlaybackStart ∧
        paddedProject.getEffectivePlaybackStart ≤ paddedProject.trimStartSample) :=
  ⟨(effective_playback_start paddedProject).1 (by decide),
    (effective_playback_start paddedProject).2.2 (by decide)⟩

/-! ## C14: `setPosition` -/

/-- C14 (counterexample). At 44.1 kHz the length `N / 44100` is not a
`double` for `N = 3` or `N = 15`, and the product with the rate is rounded
again.  A seek beyond the end of the three-frame project stores the
`double` nearest to `3 / 44100`, which is below it: its exact product with
44100 has floor 2, but the cursor is 3.  The same seek on the fifteen-frame
project gives the cursor 14, whereas `clamp (1, 0, 15 / 44100) * 44100` is
15. -/
theorem setPosition_cursor_is_not_the_floor :
    (threeFramePlayer.setPosition 1).currentPosition =
        5019522196927769 / 73786976294838206464 ∧
      (threeFramePlayer.setPosition 1).currentSample = 3 ∧
      ⌊(threeFramePlayer.setPosition 1).currentPosition *
        threeFrameProject.projectSampleRate⌋ = 2 ∧
      (fifteenFramePlayer.setPosition 1).currentSample = 14 ∧
      ⌊min (max (1 : ℚ) 0) (15 / 44100) * fifteenFrameProject.projectSampleRate⌋ = 15 := by
  have h1 : roundDouble (1 / 14700) = 5019522196927769 / 73786976294838206464 := by
    unfold roundDouble
    rw [roundBinary_eval 53 (-1022) _ (-14) 5019522196927769 (by norm_num [abs_of_pos])
      (by norm_num [abs_of_pos]) (by norm_num) (by norm_num) (by norm_num)]
    norm_num
  have h2 : roundDouble (5019522196927769 / 73786976294838206464 * 44100) = 3 := by
    unfold roundDouble
    rw [roundBinary_eval 53 (-1022) _ 1 6755399441055744 (by norm_num [abs_of_pos])
      (by norm_num [abs_of_pos]) (by norm_num) (by norm_num) (by norm_num)]
    norm_num
  have h3 : roundDouble (1 / 2940) = 6274402746159711 / 18446744073709551616 := by
    unfold roundDouble
    rw [roundBinary_eval 53 (-1022) _ (-12) 6274402746159711 (by norm_num [abs_of_pos])
      (by norm_num [abs_of_pos]) (by norm_num) (by norm_num) (by norm_num)]
    norm_num
  have h4 : roundDouble (6274402746159711 / 18446744073709551616 * 44100) =
      8444249301319679 / 562949953421312 := by
    unfold roundDouble
    rw [roundBinary_eval 53 (-1022) _ 3 8444249301319679 (by norm_num [abs_of_pos])
      (by norm_num [abs_of_pos]) (by norm_num) (by norm_num) (by norm_num)]
    norm_num
  have hL3 : threeFrameProject.getLengthInSeconds = 5019522196927769 / 73786976294838206464 := by
    unfold MSUProjectState.getLengthInSeconds
    rw [if_neg (by norm_num [threeFrameProject, MSUProjectState.setAudioBuffer])]
    have e : ((threeFrameProject.audioBuffer.numSamples : Int) : ℚ) /
        threeFrameProject.projectSampleRate = 1 / 14700 := by
      norm_num [threeFrameProject, MSUProjectState.setAudioBuffer]
    rw [e, h1]
  have hL15 : fifteenFrameProject.getLengthInSeconds =
      6274402746159711 / 18446744073709551616 := by
    unfold MSUProjectState.getLengthInSeconds
    rw [if_neg (by norm_num [fifteenFrameProject, MSUProjectState.setAudioBuffer])]
    have e : ((fifteenFrameProject.audioBuffer.numSamples : Int) : ℚ) /
        fifteenFrameProject.projectSampleRate = 1 / 2940 := by
      norm_num [fifteenFrameProject, MSUProjectState.setAudioBuffer]
    rw [e, h3]
  have hp3 : (threeFramePlayer.setPosition 1).currentPosition =
      5019522196927769 / 73786976294838206464 := by
    show jlimit 0 threeFrameProject.getLengthInSeconds 1 = _
    rw [hL3]
    norm_num [jlimit]
  have hp15 : (fifteenFramePlayer.setPosition 1).currentPosition =
      6274402746159711 / 18446744073709551616 := by
    show jlimit 0 fifteenFrameProject.getLengthInSeconds 1 = _
    rw [hL15]
    norm_num [jlimit]
  have hr3 : threeFrameProject.getSampleRate = 44100 := rfl
  have hr15 : fifteenFrameProject.getSampleRate = 44100 := rfl
  refine ⟨hp3, ?_, ?_, ?_, ?_⟩
  · show truncToInt (roundDouble ((threeFramePlayer.setPosition 1).currentPosition *
      threeFrameProject.getSampleRate)) = 3
    rw [hp3, hr3, h2]
    exact truncToInt_intCast 3
  · rw [hp3, Int.floor_eq_iff]
    norm_num [threeFrameProject, MSUProjectState.setAudioBuffer]
  · show truncToInt (roundDouble ((fifteenFramePlayer.setPosition 1).currentPosition *
      fifteenFrameProject.getSampleRate)) = 14
    rw [hp15, hr15, h4, truncToInt_of_nonneg _ (by norm_num), Int.floor_eq_iff]
    norm_num
  · rw [Int.floor_eq_iff]
    norm_num [fifteenFrameProject, MSUProjectState.setAudioBuffer]

/-- C14 (amended). The method `setPosition` on an engine with a project
attached, whose buffer holds `0 ≤ N < 2^31` frames (an `int`) and whose
sample rate is a finite `double` (below `2^1024`): `currentPosition` is
`seconds` clamped into `[0, lengthInSeconds]`, where `lengthInSeconds` is
what `getLengthInSeconds` returns, the `double` nearest to `N / rate` (0
without audio or rate); the integer cursor is the floor of the `double`
nearest to `currentPosition * projectSampleRate` and lies in `[0, N]`; the
fractional position equals the integer cursor, and `playing` is
unchanged. -/
theorem setPosition_seeks (p : AudioPlayer) (ps : MSUProjectState) (seconds : ℚ)
    (hps : p.projectState = some ps) (hN : 0 ≤ ps.audioBuffer.numSamples)
    (hN32 : ps.audioBuffer.numSamples < 2147483648)
    (hrate : ps.projectSampleRate < 2 ^ 1024) :
    (p.setPosition seconds).currentPosition = min (max seconds 0) ps.getLengthInSeconds ∧
      ps.getLengthInSeconds =
        (if ps.projectSampleRate ≤ 0 ∨ ps.audioBuffer.numSamples ≤ 0 then 0
         else roundDouble ((ps.audioBuffer.numSamples : ℚ) / ps.projectSampleRate)) ∧
      (p.setPosition seconds).currentSample =
        ⌊roundDouble ((p.setPosition seconds).currentPosition * ps.projectSampleRate)⌋ ∧
      0 ≤ (p.setPosition seconds).currentSample ∧
      (p.setPosition seconds).currentSample ≤ ps.audioBuffer.numSamples ∧
      (p.setPosition seconds).fractionalSample = ((p.setPosition seconds).currentSample : ℚ) ∧
      (p.setPosition seconds).playing = p.playing := by
  have hlen := getLengthInSeconds_nonneg ps
  have hpos : (p.setPosition seconds).currentPosition =
      min (max seconds 0) ps.getLengthInSeconds := by
    unfold AudioPlayer.setPosition
    simp only [hps]
    exact jlimit_rat _ _ _ hlen
  have hcur : (p.setPosition seconds).currentSample =
      truncToInt (roundDouble ((p.setPosition seconds).currentPosition * ps.projectSampleRate)) := by
    unfold AudioPlayer.setPosition
    simp only [hps, MSUProjectState.getSampleRate]
  have hc0 : 0 ≤ (p.setPosition seconds).currentPosition := by
    rw [hpos]; exact le_min (le_max_right _ _) hlen
  have hc1 : (p.setPosition seconds).currentPosition ≤ ps.getLengthInSeconds := by
    rw [hpos]; exact min_le_right _ _
  have hNq : (0 : ℚ) ≤ (ps.audioBuffer.numSamples : ℚ) := by exact_mod_cast hN
  have hNq32 : (ps.audioBuffer.numSamples : ℚ) < 2147483648 := by exact_mod_cast hN32
  have hhalf : roundDouble ((ps.audioBuffer.numSamples : ℚ) + 1 / 2) =
      (ps.audioBuffer.numSamples : ℚ) + 1 / 2 := by
    have h := roundBinary_dyadic 53 (-1022) (2 * ps.audioBuffer.numSamples + 1) (-1)
      (by rw [abs_lt]; constructor <;> norm_num <;> omega) (by norm_num)
    have e : ((2 * ps.audioBuffer.numSamples + 1 : Int) : ℚ) * 2 ^ (-1 : Int) =
        (ps.audioBuffer.numSamples : ℚ) + 1 / 2 := by
      push_cast
      norm_num
      ring
    rw [e] at h
    exact h
  have hprod : 0 ≤ roundDouble ((p.setPosition seconds).currentPosition * ps.projectSampleRate) ∧
      roundDouble ((p.setPosition seconds).currentPosition * ps.projectSampleRate) ≤
        (ps.audioBuffer.numSamples : ℚ) + 1 / 2 := by
    unfold MSUProjectState.getLengthInSeconds at hc1
    split_ifs at hc1 with h
    · have hz : (p.setPosition seconds).currentPosition = 0 := le_antisymm hc1 hc0
      rw [hz, zero_mul, roundDouble_zero]
      exact ⟨le_refl 0, by linarith⟩
    · have h1 : 0 < ps.projectSampleRate := by
        by_contra hc; exact h (Or.inl (not_lt.mp hc))
      refine ⟨roundDouble_nonneg (mul_nonneg hc0 h1.le), ?_⟩
      have he := (abs_le.mp
        (roundDouble_abs_error ((ps.audioBuffer.numSamples : ℚ) / ps.projectSampleRate))).2
      rw [abs_of_nonneg (div_nonneg hNq h1.le)] at he
      have hLr : roundDouble ((ps.audioBuffer.numSamples : ℚ) / ps.projectSampleRate) *
          ps.projectSampleRate ≤ (ps.audioBuffer.numSamples : ℚ) + 1 / 2 := by
        have hmul := mul_le_mul_of_nonneg_right
          (show roundDouble ((ps.audioBuffer.numSamples : ℚ) / ps.projectSampleRate) ≤
            (ps.audioBuffer.numSamples : ℚ) / ps.projectSampleRate +
              ((ps.audioBuffer.numSamples : ℚ) / ps.projectSampleRate * 2 ^ (-52 : Int) +
                2 ^ (-1074 : Int)) / 2 by linarith) h1.le
        have hexp : ((ps.audioBuffer.numSamples : ℚ) / ps.projectSampleRate +
              ((ps.audioBuffer.numSamples : ℚ) / ps.projectSampleRate * 2 ^ (-52 : Int) +
                2 ^ (-1074 : Int)) / 2) * ps.projectSampleRate =
            (ps.audioBuffer.numSamples : ℚ) +
              (ps.audioBuffer.numSamples : ℚ) * 2 ^ (-52 : Int) / 2 +
              2 ^ (-1074 : Int) / 2 * ps.projectSampleRate := by
          field_simp
          ring
        rw [hexp] at hmul
        have hr2 : (2 : ℚ) ^ (-1074 : Int) / 2 * ps.projectSampleRate ≤ 2 ^ (-51 : Int) := by
          have e1 : (2 : ℚ) ^ (-1074 : Int) / 2 = 2 ^ (-1075 : Int) := by
            rw [show (-1075 : Int) = -1074 + -1 by norm_num, zpow_add₀ (by norm_num)]
            norm_num
          have e2 : (2 : ℚ) ^ (-51 : Int) = 2 ^ (-1075 : Int) * 2 ^ ((1024 : Nat) : Int) := by
            rw [← zpow_add₀ (by norm_num)]
            norm_num
          rw [e1, e2, zpow_natCast]
          exact mul_le_mul_of_nonneg_left hrate.le (by positivity)
        have hr1 : (ps.audioBuffer.numSamples : ℚ) * 2 ^ (-52 : Int) / 2 ≤ 2 ^ (-22 : Int) := by
          norm_num
          linarith
        have hsmall : (2 : ℚ) ^ (-22 : Int) + 2 ^ (-51 : Int) ≤ 1 / 2 := by norm_num
        linarith
      have hle : (p.setPosition seconds).currentPosition * ps.projectSampleRate ≤
          (ps.audioBuffer.numSamples : ℚ) + 1 / 2 :=
        (mul_le_mul_of_nonneg_right hc1 h1.le).trans hLr
      have := roundDouble_mono hle
      rwa [hhalf] at this
  have hfloor : (p.setPosition seconds).currentSample =
      ⌊roundDouble ((p.setPosition seconds).currentPosition * ps.projectSampleRate)⌋ := by
    rw [hcur, truncToInt_of_nonneg _ hprod.1]
  refine ⟨hpos, rfl, hfloor, ?_, ?_, ?_, ?_⟩
  · rw [hfloor]; exact Int.floor_nonneg.mpr hprod.1
  · rw [hfloor]
    have : ⌊roundDouble ((p.setPosition seconds).currentPosition * ps.projectSampleRate)⌋ <
        ps.audioBuffer.numSamples + 1 := by
      rw [Int.floor_lt]
      push_cast
      linarith [hprod.2]
    omega
  · unfold AudioPlayer.setPosition
    simp only [hps]
  · unfold AudioPlayer.setPosition
    simp only [hps]

/-- Witness of C14: a seek to one second on `demoProject`. -/
theorem setPosition_seeks_witness :
    (demoPlayer.setPosition 1).currentPosition =
        min (max 1 0) demoProject.getLengthInSeconds ∧
      (demoPlayer.setPosition 1).currentSample =
        ⌊roundDouble ((demoPlayer.setPosition 1).currentPosition *
          demoProject.projectSampleRate)⌋ ∧
      0 ≤ (demoPlayer.setPosition 1).currentSample ∧
      (demoPlayer.setPosition 1).currentSample ≤ demoProject.audioBuffer.numSamples :=
  have h := setPosition_seeks demoPlayer demoProject 1 rfl (by decide) (by decide)
    (lt_of_lt_of_le (by norm_num [demoProject])
      (pow_le_pow_right₀ (by norm_num) (show 16 ≤ 1024 by norm_num)))
  ⟨h.1, h.2.2.1, h.2.2.2.1, h.2.2.2.2.1⟩

/-- C16. Reaction to a timeline change of the attached project: without
audio the engine is stopped (`playing = false`, cursor and fractional
position `0`); with audio a cursor at or past the sample count becomes `0`, a
cursor below it stays, `playing` stays, and the fractional position equals
the integer cursor. -/
theorem change_listener_revalidates (p : AudioPlayer) (ps : MSUProjectState)
    (hps : p.projectState = some ps) :
    (ps.hasAudio = false →
        p.changeListenerCallback.playing = false ∧
        p.changeListenerCallback.currentSample = 0 ∧
        p.changeListenerCallback.fractionalSample = 0) ∧
      (ps.hasAudio = true →
        (ps.getNumSamples ≤ p.currentSample → p.changeListenerCallback.currentSample = 0) ∧
        (p.currentSample < ps.getNumSamples →
          p.changeListenerCallback.currentSample = p.currentSample) ∧
        p.changeListenerCallback.playing = p.playing ∧
        p.changeListenerCallback.fractionalSample =
          (p.changeListenerCallback.currentSample : ℚ)) := by
  have hkeep : ∀ q : AudioPlayer, q.projectState = some ps → ps.hasAudio = true →
      q.fractionalSample = (q.currentSample : ℚ) →
      q.updateResamplingState.currentSample = q.currentSample ∧
      q.updateResamplingState.playing = q.playing ∧
      q.updateResamplingState.fractionalSample = (q.currentSample : ℚ) := by
    intro q hq h hf
    unfold AudioPlayer.updateResamplingState
    simp only [hq, h, Bool.not_true, Bool.false_eq_true, if_false]
    by_cases hr : ps.getSampleRate ≤ 0 ∨ q.deviceSampleRate ≤ 0
    · rw [if_pos hr]; exact ⟨rfl, rfl, hf⟩
    · rw [if_neg hr]; exact ⟨rfl, rfl, rfl⟩
  unfold AudioPlayer.changeListenerCallback
  simp only [hps]
  refine ⟨?_, ?_⟩
  · intro h
    simp only [h, Bool.not_false, if_true]
    simp [AudioPlayer.updateResamplingState, AudioPlayer.stop, hps, h]
  · intro h
    simp only [h, Bool.not_true, Bool.false_eq_true, if_false]
    refine ⟨?_, ?_, ?_, ?_⟩
    · intro hge
      rw [(hkeep _ rfl h rfl).1]
      simp only [ge_iff_le, if_pos hge]
    · intro hlt
      rw [(hkeep _ rfl h rfl).1]
      simp only [ge_iff_le, if_neg (not_le.mpr hlt)]
    · rw [(hkeep _ rfl h rfl).2.1]
    · rw [(hkeep _ rfl h rfl).2.2, (hkeep _ rfl h rfl).1]

/-- Witness of C16: `demoPlayer`, whose project holds eight frames. -/
theorem change_listener_revalidates_witness :
    (demoProject.getNumSamples ≤ demoPlayer.currentSample →
        demoPlayer.changeListenerCallback.currentSample = 0) ∧
      (demoPlayer.currentSample < demoProject.getNumSamples →
        demoPlayer.changeListenerCallback.currentSample = demoPlayer.currentSample) ∧
      demoPlayer.changeListenerCallback.playing = demoPlayer.playing ∧
      demoPlayer.changeListenerCallback.fractionalSample =
        (demoPlayer.changeListenerCallback.currentSample : ℚ) :=
  (change_listener_revalidates demoPlayer demoProject rfl).2 (by decide)

/-- C18. From every engine state `play ()` sets `playing = true` and
`pause ()` sets `playing = false`; both leave the integer cursor, the
fractional position, `currentPosition` and `looping` (and every other field)
as they were. -/
theorem play_pause_touch_only_playing (p : AudioPlayer) :
    (p.play.playing = true ∧ p.play.currentSample = p.currentSample ∧
        p.play.fractionalSample = p.fractionalSample ∧
        p.play.currentPosition = p.currentPosition ∧ p.play.looping = p.looping ∧
        p.play = { p with playing := true }) ∧
      (p.pause.playing = false ∧ p.pause.currentSample = p.currentSample ∧
        p.pause.fractionalSample = p.fractionalSample ∧
        p.pause.currentPosition = p.currentPosition ∧ p.pause.looping = p.looping ∧
        p.pause = { p with playing := false }) :=
  ⟨⟨rfl, rfl, rfl, rfl, rfl, rfl⟩, ⟨rfl, rfl, rfl, rfl, rfl, rfl⟩⟩

/-- C19 (code evaluated at the failing input). A playing before/after
player at cursor 0 of a two-frame buffer holding `1, 2`, increment `1`, a
block of four frames on an output that still holds `7`. The source index
reaches `N = 2` at frame `k = 2`; `writeSilence` then clears `n - k = 2`
frames from the start of the block: frames `0, 1` (the audio just written)
are `0` and frames `2, 3` keep the stale `7`. -/
theorem writeSilence_clears_from_block_start :
    shortPlayer.playing = true ∧ shortPlayer.currentSample = 0 ∧
      shortPlayer.getBufferFor shortPlayer.activeTarget = some ⟨2, 2, fun _ i => (i : ℚ) + 1⟩ ∧
      (shortPlayer.audioDeviceIOCallbackWithContext staleOutput 2 4).1.playing = false ∧
      (shortPlayer.audioDeviceIOCallbackWithContext staleOutput 2 4).2.samples 0 0 = 0 ∧
      (shortPlayer.audioDeviceIOCallbackWithContext staleOutput 2 4).2.samples 0 1 = 0 ∧
      (shortPlayer.audioDeviceIOCallbackWithContext staleOutput 2 4).2.samples 0 2 = 7 ∧
      (shortPlayer.audioDeviceIOCallbackWithContext staleOutput 2 4).2.samples 0 3 = 7 := by
  have hp : shortPlayer =
      { comparePlayer with activeTarget := .After, currentSample := 0, playing := true } := by
    unfold shortPlayer BeforeAfterPreviewPlayer.play
    simp [comparePlayer, BeforeAfterPreviewPlayer.getBufferFor,
      BeforeAfterPreviewPlayer.bufferHasContent]
  have hb : shortPlayer.getBufferFor shortPlayer.activeTarget =
      some ⟨2, 2, fun _ i => (i : ℚ) + 1⟩ := by rw [hp]; rfl
  have hinc : shortPlayer.playbackIncrement = 1 := by rw [hp]; rfl
  have hplay : shortPlayer.playing = true := by rw [hp]
  have hcur : shortPlayer.currentSample = 0 := by rw [hp]
  have hrun : shortPlayer.audioDeviceIOCallbackWithContext staleOutput 2 4 =
      ({ shortPlayer with playing := false, currentSample := 0 },
        BeforeAfterPreviewPlayer.writeSilence
          ((staleOutput.writeFrame 2 0 (fun _ => 1)).writeFrame 2 1 (fun _ => 2)) 2 2) := by
    unfold BeforeAfterPreviewPlayer.audioDeviceIOCallbackWithContext
    simp only [hb, hplay, hcur]
    have h4 : (4 : Int).toNat = 3 + 1 := rfl
    simp only [BeforeAfterPreviewPlayer.bufferHasContent, h4]
    rw [BeforeAfterPreviewPlayer.renderLoop_inside _ _ _ _ _ _ _ (by simp),
      BeforeAfterPreviewPlayer.renderLoop_inside _ _ _ _ _ _ _ (by simp [hinc]),
      BeforeAfterPreviewPlayer.renderLoop_end _ _ _ _ _ _ _ (by simp [hinc]; norm_num)]
    simp [hinc]
    norm_num
  rw [hrun]
  refine ⟨hplay, hcur, hb, rfl, ?_, ?_, ?_, ?_⟩ <;>
    simp [BeforeAfterPreviewPlayer.writeSilence, OutputChannels.clearRange,
      OutputChannels.writeFrame, staleOutput]

/-- C20 (amended). For a playing state and a target whose buffer has content
(`N` frames), `play (target, false)` sets the active target, keeps
`playing = true`, and clamps the fractional cursor into `[0, N]`: the cursor
is `min (max (cursor, 0), N)`, which is the cursor as it was exactly when it
lies in `[0, N]`. -/
theorem play_retarget_clamps_cursor (p : BeforeAfterPreviewPlayer)
    (target : BeforeAfterPreviewPlayer.Target) (buffer : AudioBuffer)
    (hbuf : p.getBufferFor target = some buffer)
    (hcontent : BeforeAfterPreviewPlayer.bufferHasContent (some buffer) = true)
    (hplaying : p.playing = true) :
    (p.play target false).activeTarget = target ∧
      (p.play target false).playing = true ∧
      (p.play target false).currentSample =
        min (max p.currentSample 0) (buffer.numSamples : ℚ) ∧
      ((p.play target false).currentSample = p.currentSample ↔
        0 ≤ p.currentSample ∧ p.currentSample ≤ (buffer.numSamples : ℚ)) := by
  have hN : (0 : ℚ) ≤ (buffer.numSamples : ℚ) := by
    simp only [BeforeAfterPreviewPlayer.bufferHasContent, Bool.and_eq_true,
      decide_eq_true_eq] at hcontent
    exact_mod_cast le_of_lt hcontent.1
  rw [play_retarget p target buffer hbuf hcontent hplaying]
  refine ⟨rfl, hplaying, jlimit_rat _ _ _ hN, ?_⟩
  show jlimit 0 (buffer.numSamples : ℚ) p.currentSample = p.currentSample ↔ _
  rw [jlimit_rat _ _ _ hN]
  constructor
  · intro h
    constructor
    · by_contra hneg
      rw [max_eq_right (le_of_lt (not_le.mp hneg))] at h
      rw [min_eq_left hN] at h
      exact hneg (le_of_eq h)
    · rw [← h]; exact min_le_right _ _
  · rintro ⟨h0, h1⟩
    rw [max_eq_left h0, min_eq_left h1]

/-- Witness of C20: `comparePlayer` retargeted to its own "before" buffer. -/
theorem play_retarget_clamps_cursor_witness :
    (comparePlayer.play .Before false).activeTarget = .Before ∧
      (comparePlayer.play .Before false).playing = true ∧
      (comparePlayer.play .Before false).currentSample =
        min (max comparePlayer.currentSample 0)
          (((⟨2, 8, fun ch i => (ch : ℚ) + (i : ℚ)⟩ : AudioBuffer).numSamples : Int) : ℚ) ∧
      ((comparePlayer.play .Before false).currentSample = comparePlayer.currentSample ↔
        0 ≤ comparePlayer.currentSample ∧
          comparePlayer.currentSample ≤
            (((⟨2, 8, fun ch i => (ch : ℚ) + (i : ℚ)⟩ : AudioBuffer).numSamples : Int) : ℚ)) :=
  play_retarget_clamps_cursor comparePlayer .Before ⟨2, 8, fun ch i => (ch : ℚ) + (i : ℚ)⟩
    rfl (by decide) rfl

/-- C20 (counterexample). Playing the eight-frame "before" buffer at cursor
5, `play (After, false)` on the two-frame "after" buffer moves the cursor
to 2. -/
theorem play_retarget_moves_cursor_past_end :
    comparePlayer.playing = true ∧
      BeforeAfterPreviewPlayer.bufferHasContent (comparePlayer.getBufferFor .After) = true ∧
      (comparePlayer.play .After false).currentSample = 2 ∧
      (comparePlayer.play .After false).currentSample ≠ comparePlayer.currentSample := by
  have h := play_retarget comparePlayer .After ⟨2, 2, fun _ i => (i : ℚ) + 1⟩ rfl (by decide) rfl
  have hc : (comparePlayer.play .After false).currentSample = 2 := by
    rw [h]
    show jlimit (0 : ℚ) ((2 : Int) : ℚ) 5 = 2
    rw [jlimit_rat _ _ _ (by norm_num)]
    norm_num
  refine ⟨rfl, by decide, hc, ?_⟩
  rw [hc]
  show (2 : ℚ) ≠ 5
  norm_num

/-! ## C21: the raw-PCM render of `PreviewPlayer` stops at the end -/

/-- C21. For every playing raw-PCM state of `PreviewPlayer` with a buffer of
`N` frames and any stored loop point, a render of `n` frames whose position
reaches `N` first at output frame `k < n` returns with `playing = false` and
with every frame in `[k, n)` equal to `0` on every (non-null) output
channel.  The position at frame `j` is the `double` that `j` executions of
`pcmFractionalPosition += ratio` leave, each sum rounded, with `ratio` the
`double` nearest to `44100 / playbackRate`.  The position after the call is
the one at frame `k`; it is not below the position before the call (a
`double`); and the call does the same for every value of `pcmLoopPoint`,
which it only carries along. -/
theorem preview_pcm_stops_at_end (p : PreviewPlayer) (out : OutputChannels) (nc n : Int)
    (k : Nat) (hplay : p.playing = true) (hpcm : p.isPCMFile = true)
    (hk : (k : Int) < n)
    (hbefore : ∀ j : Nat, j < k →
      accumulate p.refreshDeviceSampleRate.pcmRatio j p.pcmFractionalPosition <
        (p.pcmBuffer.numSamples : ℚ))
    (hreach : (p.pcmBuffer.numSamples : ℚ) ≤
      accumulate p.refreshDeviceSampleRate.pcmRatio k p.pcmFractionalPosition) :
    ∃ p' out', p.audioDeviceIOCallbackWithContext out nc n = some (p', out') ∧
      p'.playing = false ∧
      (∀ ch i, 0 ≤ ch → ch < nc → out.isNull ch = false → (k : Int) ≤ i → i < n →
        out'.samples ch i = 0) ∧
      (roundDouble p.pcmFractionalPosition = p.pcmFractionalPosition →
        p.pcmFractionalPosition ≤ p'.pcmFractionalPosition) ∧
      (p.pcmBuffer.numSamples ≠ 0 →
        p'.pcmFractionalPosition =
          accumulate p.refreshDeviceSampleRate.pcmRatio k p.pcmFractionalPosition) ∧
      ∀ lp : Int,
        PreviewPlayer.audioDeviceIOCallbackWithContext { p with pcmLoopPoint := lp } out nc n =
          some ({ p' with pcmLoopPoint := lp }, out') := by
  have hcb : p.audioDeviceIOCallbackWithContext out nc n =
      some (PreviewPlayer.renderPCM p out nc n) := by
    unfold PreviewPlayer.audioDeviceIOCallbackWithContext
    rw [hplay, hpcm]
    rfl
  have h := renderPCM_stops p out nc n k hk hbefore hreach
  refine ⟨(PreviewPlayer.renderPCM p out nc n).1, (PreviewPlayer.renderPCM p out nc n).2,
    hcb, h.1, h.2.2.2, h.2.1, h.2.2.1, ?_⟩
  intro lp
  rw [previewCallback_loopPoint, hcb]
  rfl

/-- Witness of C21: `tenthRatioPcmPlayer` (one frame, device at 441 kHz)
rendering twelve frames.  Ten additions of the ratio give
`1 - 2 ^ (-53)`, still inside the buffer, so the end is reached at frame
`k = 11` (not at frame 10, where `10 * (1 / 10) = 1`): playback stops there,
frame 11 is silent, and the position is left at the eleventh sum. -/
theorem preview_pcm_stops_at_end_witness :
    accumulate tenthRatioPcmPlayer.refreshDeviceSampleRate.pcmRatio 10
        tenthRatioPcmPlayer.pcmFractionalPosition = 9007199254740991 / 9007199254740992 ∧
      ∃ p' out', tenthRatioPcmPlayer.audioDeviceIOCallbackWithContext staleOutput 2 12 =
          some (p', out') ∧
        p'.playing = false ∧
        (∀ ch i, 0 ≤ ch → ch < 2 → staleOutput.isNull ch = false → ((11 : Nat) : Int) ≤ i →
          i < 12 → out'.samples ch i = 0) ∧
        p'.pcmFractionalPosition = 4953959590107545 / 4503599627370496 := by
  have hratio : tenthRatioPcmPlayer.refreshDeviceSampleRate.pcmRatio =
      3602879701896397 / 36028797018963968 := by
    have e : tenthRatioPcmPlayer.refreshDeviceSampleRate.pcmRatio = roundDouble (1 / 10) := by
      simp only [PreviewPlayer.refreshDeviceSampleRate, PreviewPlayer.pcmRatio,
        tenthRatioPcmPlayer, idlePreviewPlayer, PreviewPlayer.pcmNativeSampleRate]
      norm_num
    rw [e, roundDouble_tenth]
  have hpos : tenthRatioPcmPlayer.pcmFractionalPosition = 0 := rfl
  have hN : tenthRatioPcmPlayer.pcmBuffer.numSamples = 1 := rfl
  refine ⟨by rw [hratio, hpos, accumulate_tenth 10 (by norm_num)]; rfl, ?_⟩
  obtain ⟨p', out', h1, h2, h3, _, h5, _⟩ :=
    preview_pcm_stops_at_end tenthRatioPcmPlayer staleOutput 2 12 11 rfl rfl (by decide)
      (by
        intro j hj
        rw [hratio, hpos, hN, accumulate_tenth j (by omega)]
        interval_cases j <;> norm_num)
      (by
        rw [hratio, hpos, hN, accumulate_tenth 11 (by norm_num)]
        norm_num)
  refine ⟨p', out', h1, h2, h3, ?_⟩
  rw [h5 (by decide), hratio, hpos, accumulate_tenth 11 (by norm_num)]
  rfl


/-! ## C22: `PreviewPlayer::loadAndPlay` on failure -/

/-- C22. With the file system and the decoder as inputs, for every prior
state of the player and every file: `playing` is true after `loadAndPlay`
only if the call returned `true`; and if it returned `false` then
`playing = false`, the PCM buffer is empty, no reader or source is installed
and `getTotalLength ()` is 0. -/
theorem loadAndPlay_failure_leaves_stopped (p : PreviewPlayer) (file : PreviewFile) :
    ((p.loadAndPlay file).2.playing = true → (p.loadAndPlay file).1 = true) ∧
      ((p.loadAndPlay file).1 = false →
        (p.loadAndPlay file).2.playing = false ∧
        (p.loadAndPlay file).2.pcmBuffer.numSamples = 0 ∧
        (p.loadAndPlay file).2.isPCMFile = false ∧
        (p.loadAndPlay file).2.currentReader = none ∧
        (p.loadAndPlay file).2.readerSource = none ∧
        (p.loadAndPlay file).2.resamplingSource = none ∧
        (p.loadAndPlay file).2.getTotalLength = 0) := by
  rcases loadAndPlay_cases p file with ⟨q, hq, h1, h2, h3, h4, h5, h6⟩ | htrue
  · rw [hq]
    refine ⟨fun h => ?_, fun _ => ⟨h1, h2, h3, h4, h5, h6, ?_⟩⟩
    · rw [show ((false, q) : Bool × PreviewPlayer).2.playing = q.playing from rfl, h1] at h
      exact absurd h (by decide)
    · show q.getTotalLength = 0
      unfold PreviewPlayer.getTotalLength
      rw [h3, h4]
      rfl
  · refine ⟨fun _ => htrue, fun h => ?_⟩
    rw [htrue] at h
    exact absurd h (by decide)

/-! ## C23: the byte layout of `exportPCM` -/

/-- C24 (code evaluated at the failing input). `padLoopPlayer`: loop points
`a = 3 < b = 6`, trim start 0, padding 2, looping on, equal rates, cursor 0,
on a buffer with `buffer[i] = i`, one block of eight frames.  The block is
`0, 0, buffer[0..3], buffer[1], buffer[2]` with the wrap at frame 6: the
last frame before the wrap is `buffer[3] = buffer[b - 1 - padding]`, not
`buffer[b - 1] = 5`, and the first frame after it is
`buffer[1] = buffer[a - padding]`, not `buffer[a] = 3`. -/
theorem padded_loop_repeats_shifted_window :
    (padLoopProject.hasLoopPoints = true ∧ padLoopProject.loopStartSample = 3 ∧
        padLoopProject.loopEndSample = 6 ∧ padLoopProject.trimStartSample = 0 ∧
        padLoopProject.paddingSamples = 2) ∧
      (padLoopProject.audioBuffer.data 0 (6 - 1) = 5 ∧ padLoopProject.audioBuffer.data 0 3 = 3) ∧
      ∃ r, padLoopPlayer.audioDeviceIOCallbackWithContext 8 silentOutput 2 8 = some r ∧
        r.wrapFrames = [6] ∧
        (r.out.samples 0 0 = 0 ∧ r.out.samples 0 1 = 0 ∧ r.out.samples 0 2 = 0 ∧
          r.out.samples 0 3 = 1 ∧ r.out.samples 0 4 = 2) ∧
        r.out.samples 0 5 = 3 ∧ r.out.samples 0 6 = 1 ∧ r.out.samples 0 7 = 2 := by
  refine ⟨⟨by decide, rfl, rfl, rfl, rfl⟩, ⟨by simp [padLoopProject], by simp [padLoopProject]⟩,
    ?_⟩
  have hup := updateResamplingState_rendering padLoopPlayer padLoopProject rfl (by decide)
    (by norm_num [padLoopProject]) (by norm_num [padLoopPlayer])
  rw [callback_rendering 8 padLoopPlayer padLoopProject _ _ _ rfl rfl (by decide)
    (by norm_num [padLoopProject]) (by norm_num [padLoopPlayer])]
  generalize padLoopPlayer.updateResamplingState = p1 at hup ⊢
  have h1 : p1.resamplingActive = false := by
    rw [hup]; simp [padLoopPlayer, padLoopProject, sampleRateToleranceHz]
  have h2 : p1.looping = true := by rw [hup]; rfl
  have h3 : p1.currentSample = 0 := by rw [hup]; rfl
  have h4 : p1.playing = true := by rw [hup]; rfl
  rw [if_neg (by simp [h1])]
  have hc : RenderCtx.make p1 padLoopProject 2 8 =
      { numOutputChannels := 2, numSamples := 8, buffer := padLoopProject.audioBuffer,
        totalSamples := 8, sourceSampleRate := 44100, resamplingRatio := p1.resamplingRatio,
        paddingSamples := 2, effectiveStart := 0, hasLoop := true, loopStart := 3,
        loopEnd := 6, effectiveLength := 10, channelCount := 2 } := by
    simp [RenderCtx.make, h2, padLoopProject, MSUProjectState.getPaddingSamples,
      MSUProjectState.getEffectivePlaybackStart, MSUProjectState.hasLoopPoints,
      MSUProjectState.getLoopStart, MSUProjectState.getLoopEnd, MSUProjectState.getSampleRate,
      toInt32]
  rw [hc]
  unfold AudioPlayer.renderPassThrough
  simp only [h3, h4]
  simp [passLoop, passBody, passWrite, toInt32, jlimit, AudioPlayer.finishPassThrough,
    OutputChannels.copyRange, OutputChannels.clearRange, clearOutput, silentOutput,
    padLoopProject]
  norm_num


/-! ## C25: the trim start under padding -/

/-- C25 (code evaluated at the failing input). `padTrimPlayer`: trim start
4 (inside `[0, N]`, `N = 8`), padding 2, looping off, equal rates, cursor 0,
on a buffer with `buffer[i] = i`, one block of four frames.  The effective
start is `max (0, 4 - 2) = 2` and the block is `0, 0, buffer[2], buffer[3]`:
the first frame after the padding is `buffer[2] = buffer[trimStart - padding]`,
a sample before the trim start, not `buffer[trimStart] = 4`. -/
theorem padding_plays_samples_before_trim :
    (padTrimProject.trimStartSample = 4 ∧ padTrimProject.paddingSamples = 2 ∧
        padTrimProject.audioBuffer.numSamples = 8 ∧
        padTrimProject.getEffectivePlaybackStart = 2) ∧
      padTrimProject.audioBuffer.data 0 4 = 4 ∧
      ∃ r, padTrimPlayer.audioDeviceIOCallbackWithContext 4 silentOutput 2 4 = some r ∧
        r.wrapFrames = [] ∧ r.player.playing = true ∧
        r.out.samples 0 0 = 0 ∧ r.out.samples 0 1 = 0 ∧
        r.out.samples 0 2 = 2 ∧ r.out.samples 0 3 = 3 := by
  refine ⟨⟨rfl, rfl, rfl, by decide⟩, by simp [padTrimProject], ?_⟩
  have hup := updateResamplingState_rendering padTrimPlayer padTrimProject rfl (by decide)
    (by norm_num [padTrimProject]) (by norm_num [padTrimPlayer])
  rw [callback_rendering 4 padTrimPlayer padTrimProject _ _ _ rfl rfl (by decide)
    (by norm_num [padTrimProject]) (by norm_num [padTrimPlayer])]
  generalize padTrimPlayer.updateResamplingState = p1 at hup ⊢
  have h1 : p1.resamplingActive = false := by
    rw [hup]; simp [padTrimPlayer, padTrimProject, sampleRateToleranceHz]
  have h2 : p1.looping = false := by rw [hup]; rfl
  have h3 : p1.currentSample = 0 := by rw [hup]; rfl
  have h4 : p1.playing = true := by rw [hup]; rfl
  rw [if_neg (by simp [h1])]
  have hc : RenderCtx.make p1 padTrimProject 2 4 =
      { numOutputChannels := 2, numSamples := 4, buffer := padTrimProject.audioBuffer,
        totalSamples := 8, sourceSampleRate := 44100, resamplingRatio := p1.resamplingRatio,
        paddingSamples := 2, effectiveStart := 2, hasLoop := false, loopStart := 0,
        loopEnd := 8, effectiveLength := 8, channelCount := 2 } := by
    simp [RenderCtx.make, h2, padTrimProject, MSUProjectState.getPaddingSamples,
      MSUProjectState.getEffectivePlaybackStart, MSUProjectState.hasLoopPoints,
      MSUProjectState.getLoopStart, MSUProjectState.getLoopEnd, MSUProjectState.getSampleRate,
      toInt32]
  rw [hc]
  unfold AudioPlayer.renderPassThrough
  simp only [h3, h4]
  simp [passLoop, passBody, passWrite, toInt32, jlimit, AudioPlayer.finishPassThrough,
    OutputChannels.copyRange, OutputChannels.clearRange, clearOutput, silentOutput,
    padTrimProject]

/-! ## C26: interpolation on the resampling path -/

/-- C26 (counterexample). `sixthPlayer`: the eight-frame ramp at 8 kHz played
on a device at 48 kHz from cursor 0, a block of six frames.  The ratio is
the `double` nearest to `1 / 6`.  Frame 1 has `k = 0`, and the value
`s1 + f * (s2 - s1)` of exact arithmetic is `f`: `1 / 6` with the ratio
`8000 / 48000`, the stored `double` with the stored ratio.  The program
stores neither: the frame is the `float` nearest to the position,
`11184811 / 67108864`.  After the six frames the position is the sixth
rounded sum `1 - 2 ^ (-53)` and the cursor is 0, where
`0 + 6 * (1 / 6) = 1`. -/
theorem resampling_rounds_every_step :
    ∃ r, (Machine.audioDeviceIOCallbackWithContext 0 sixthPlayer silentOutput 2 6).1 = some r ∧
      r.out.samples 0 1 = 11184811 / 67108864 ∧
      sixthProject.audioBuffer.data 0 ⌊(0 : ℚ) + 1 * (8000 / 48000)⌋ +
          ((0 : ℚ) + 1 * (8000 / 48000) - ⌊(0 : ℚ) + 1 * (8000 / 48000)⌋) *
            (sixthProject.audioBuffer.data 0 (min (⌊(0 : ℚ) + 1 * (8000 / 48000)⌋ + 1) 7) -
              sixthProject.audioBuffer.data 0 ⌊(0 : ℚ) + 1 * (8000 / 48000)⌋) = 1 / 6 ∧
      sixthProject.audioBuffer.data 0 ⌊(0 : ℚ) + 1 * roundDouble (8000 / 48000)⌋ +
          ((0 : ℚ) + 1 * roundDouble (8000 / 48000) -
              ⌊(0 : ℚ) + 1 * roundDouble (8000 / 48000)⌋) *
            (sixthProject.audioBuffer.data 0
                (min (⌊(0 : ℚ) + 1 * roundDouble (8000 / 48000)⌋ + 1) 7) -
              sixthProject.audioBuffer.data 0 ⌊(0 : ℚ) + 1 * roundDouble (8000 / 48000)⌋) =
        6004799503160661 / 36028797018963968 ∧
      r.player.fractionalSample = 9007199254740991 / 9007199254740992 ∧
      r.player.currentSample = 0 ∧
      ⌊(0 : ℚ) + 6 * (8000 / 48000)⌋ = 1 := by
  have hdiff : roundDouble (sixthProject.projectSampleRate - sixthPlayer.deviceSampleRate) =
      -40000 := by
    have e : sixthProject.projectSampleRate - sixthPlayer.deviceSampleRate =
        ((-40000 : Int) : ℚ) := by
      norm_num [sixthProject, sixthPlayer]
    rw [e, roundDouble_intCast _ (by norm_num)]
    norm_num
  have hact : |roundDouble (sixthProject.projectSampleRate - sixthPlayer.deviceSampleRate)| >
      Machine.sampleRateToleranceHz := by
    rw [hdiff]
    unfold Machine.sampleRateToleranceHz
    rw [roundDouble_tenth]
    norm_num
  have hratio : roundDouble (sixthProject.projectSampleRate / sixthPlayer.deviceSampleRate) =
      6004799503160661 / 36028797018963968 := by
    have e : sixthProject.projectSampleRate / sixthPlayer.deviceSampleRate = 1 / 6 := by
      norm_num [sixthProject, sixthPlayer]
    rw [e, roundDouble_sixth]
  have hup := Machine.updateResamplingState_rendering_machine sixthPlayer sixthProject rfl (by decide)
    (by norm_num [sixthProject]) (by norm_num [sixthPlayer])
  rw [hratio] at hup
  simp only [hact, decide_True, if_true] at hup
  rw [Machine.callback_rendering_machine 0 sixthPlayer sixthProject _ _ _ rfl rfl (by decide)
    (by norm_num [sixthProject]) (by norm_num [sixthPlayer])]
  rw [hup, if_pos rfl]
  obtain ⟨c1, c2, c3, c4, c5, c6, c7, c8, c9⟩ := Machine.RenderCtx.make_plain_machine
    { sixthPlayer with resamplingActive := true,
                       resamplingRatio := 6004799503160661 / 36028797018963968,
                       fractionalSample := (sixthPlayer.currentSample : ℚ) }
    sixthProject 2 6 rfl rfl (by decide) (by decide) rfl
  generalize hc : Machine.RenderCtx.make
    { sixthPlayer with resamplingActive := true,
                       resamplingRatio := 6004799503160661 / 36028797018963968,
                       fractionalSample := (sixthPlayer.currentSample : ℚ) }
    sixthProject 2 6 = c at c1 c2 c3 c4 c5 c6 c7 c8 c9 ⊢
  have hR : c.resamplingRatio = 6004799503160661 / 36028797018963968 := c8
  have hT : c.totalSamples = 8 := c5
  have hn : c.numSamples.toNat = 6 := by rw [c9]; rfl
  have a1 : accumulate (6004799503160661 / 36028797018963968) 1 0 =
      6004799503160661 / 36028797018963968 := by
    rw [accumulate_sixth 1 (by decide)]; rfl
  have a6 : accumulate (6004799503160661 / 36028797018963968) 6 0 =
      9007199254740991 / 9007199254740992 := by
    rw [accumulate_sixth 6 (by decide)]; rfl
  have hpos0 : (0 : ℚ) ≤ ((sixthPlayer.currentSample : Int) : ℚ) := by
    norm_num [sixthPlayer]
  have hcur : ((sixthPlayer.currentSample : Int) : ℚ) = 0 := by norm_num [sixthPlayer]
  -- frame 1
  have hframe := Machine.resampleLoop_frame c c1 c2 c3 (c4.trans c5.symm)
    (by rw [hT]; decide) (by rw [hR]; norm_num) 6 0
    { sourcePos := ((sixthPlayer.currentSample : Int) : ℚ), playing := true,
      out := (Machine.clearOutput 2 6 silentOutput 0).1, wrapFrames := [] }
    hpos0 (by rw [hcur]; exact roundDouble_zero) 1 (by decide)
    (by
      show accumulate c.resamplingRatio 1 ((sixthPlayer.currentSample : Int) : ℚ) <
        (c.totalSamples : ℚ)
      rw [hR, hT, hcur, a1]
      norm_num)
    0 le_rfl (by rw [c6]; decide)
    (by
      show (Machine.clearOutput 2 6 silentOutput 0).1.isNull 0 = false
      rw [Machine.clearOutput_isNull_machine]; rfl)
  dsimp only at hframe
  rw [hR, hT, hcur, a1, c7] at hframe
  have hfloor : ⌊(6004799503160661 / 36028797018963968 : ℚ)⌋ = 0 := by
    rw [Int.floor_eq_iff]; norm_num
  have hq : roundDouble (6004799503160661 / 36028797018963968) =
      6004799503160661 / 36028797018963968 := by
    rw [← roundDouble_sixth, roundDouble_idem]
  have hval : roundFloat (roundDouble
      (sixthProject.audioBuffer.data 0 0 +
        roundDouble
          (roundDouble (6004799503160661 / 36028797018963968 - ((0 : Int) : ℚ)) *
            roundFloat (sixthProject.audioBuffer.data 0 (min (0 + 1) (8 - 1)) -
              sixthProject.audioBuffer.data 0 0)))) = 11184811 / 67108864 := by
    have hone : roundFloat (1 : ℚ) = 1 := by
      have := roundFloat_intCast 1 (by norm_num)
      simpa using this
    have e1 : sixthProject.audioBuffer.data 0 (min (0 + 1) (8 - 1)) -
        sixthProject.audioBuffer.data 0 0 = 1 := by
      norm_num [sixthProject]
    have e0 : sixthProject.audioBuffer.data 0 0 = 0 := by norm_num [sixthProject]
    rw [e1, e0, hone]
    simp only [Int.cast_zero, sub_zero, mul_one, zero_add]
    rw [hq, hq, hq, roundFloat_sixth]
  -- the state after the block
  obtain ⟨s', hs1, hs2, hs3⟩ := Machine.resampleLoop_inside_machine c c1 (c4.trans c5.symm)
    (by rw [hT]; decide) 6 0
    { sourcePos := ((sixthPlayer.currentSample : Int) : ℚ), playing := true,
      out := (Machine.clearOutput 2 6 silentOutput 0).1, wrapFrames := [] }
    hpos0
    (by
      intro j hj
      show 0 ≤ accumulate c.resamplingRatio j ((sixthPlayer.currentSample : Int) : ℚ) ∧
        accumulate c.resamplingRatio j ((sixthPlayer.currentSample : Int) : ℚ) <
          (c.totalSamples : ℚ)
      rw [hR, hT, hcur, accumulate_sixth j (by omega)]
      interval_cases j <;> norm_num)
  rw [hR, hcur, a6] at hs2
  have hres : (Machine.renderResampled c
      { sixthPlayer with resamplingActive := true,
                         resamplingRatio := 6004799503160661 / 36028797018963968,
                         fractionalSample := (sixthPlayer.currentSample : ℚ) }
      (Machine.clearOutput 2 6 silentOutput 0).1).1.player.fractionalSample = s'.sourcePos ∧
      (Machine.renderResampled c
        { sixthPlayer with resamplingActive := true,
                           resamplingRatio := 6004799503160661 / 36028797018963968,
                           fractionalSample := (sixthPlayer.currentSample : ℚ) }
        (Machine.clearOutput 2 6 silentOutput 0).1).1.player.currentSample =
        jlimit 0 c.effectiveLength (Machine.doubleToInt s'.sourcePos) := by
    unfold Machine.renderResampled
    dsimp only
    rw [hn]
    have hs1' : (Machine.resampleLoop c 6 0
        { sourcePos := ((sixthPlayer.currentSample : Int) : ℚ), playing := sixthPlayer.playing,
          out := (Machine.clearOutput 2 6 silentOutput 0).1, wrapFrames := [] }).1 =
        .next s' := hs1
    rw [hs1']
    exact ⟨rfl, rfl⟩
  refine ⟨_, rfl, ?_, ?_, ?_, ?_, ?_, ?_⟩
  · rw [Machine.renderResampled_out, hn]
    have h01 : ((0 : Int) + ((1 : Nat) : Int)) = 1 := rfl
    rw [h01, hfloor] at hframe
    rw [← hval]
    exact hframe
  · have hfl : ⌊(0 : ℚ) + 1 * (8000 / 48000)⌋ = 0 := by
      rw [Int.floor_eq_iff]; norm_num
    rw [hfl]
    norm_num [sixthProject]
  · have e : (8000 / 48000 : ℚ) = 1 / 6 := by norm_num
    have hfl : ⌊(0 : ℚ) + 1 * (6004799503160661 / 36028797018963968)⌋ = 0 := by
      rw [Int.floor_eq_iff]; norm_num
    rw [e, roundDouble_sixth, hfl]
    norm_num [sixthProject]
  · rw [hres.1, hs2]
  · rw [hres.2, hs2]
    have hd : Machine.doubleToInt (9007199254740991 / 9007199254740992) = 0 := by
      have h := Machine.doubleToInt_inside (9007199254740991 / 9007199254740992) 1
        (by norm_num) (by norm_num) (by norm_num)
      have hf : ⌊(9007199254740991 / 9007199254740992 : ℚ)⌋ = 0 := by
        rw [Int.floor_eq_iff]; norm_num
      rw [hf] at h
      exact h.1
    rw [hd, c4]
    decide
  · rw [Int.floor_eq_iff]; norm_num

/-- C26 (amended). On the resampling path (the rounded rate difference is
above the tolerance), with a buffer shorter than `2 ^ 31` frames, an integer
entry cursor `c` in `[0, 2 ^ 31)`, no trim, no padding and no loop, the
callback returns.  Let `r` be the `double` nearest to
`sourceRate / deviceRate` and let `q` be the position of frame `i`: `c`
after `i` additions of `r`, each rounded to `double`.  Every output frame
`i < numSamples` with `k = ⌊q⌋ < N` is, on every non-null channel below
`min (output channels, buffer channels)`, the value
`s1 + f * (s2 - s1)` computed with the roundings of the program: `f` is
`q - k` rounded to `double`, `s2 - s1` is rounded to `float`, the product
and the sum are rounded to `double` and the stored sample to `float`, with
`s1 = buffer[k]` and `s2 = buffer[min (k + 1, N - 1)]`.  In particular the
frame is `buffer[k]` when `q = k` and `buffer[k]` is a `float`, and both
indices lie in `[0, N - 1]`: the last sample is never interpolated past the
end. -/
theorem resampling_interpolates (fuel : Nat) (p : AudioPlayer) (ps : MSUProjectState)
    (out : OutputChannels) (nc n : Int)
    (hps : p.projectState = some ps) (hplay : p.playing = true)
    (hN : 0 < ps.audioBuffer.numSamples) (hN32 : ps.audioBuffer.numSamples < 2147483648)
    (hsr : 0 < ps.projectSampleRate) (hdr : 0 < p.deviceSampleRate)
    (hact : |roundDouble (ps.projectSampleRate - p.deviceSampleRate)| >
      Machine.sampleRateToleranceHz)
    (htrim : ps.trimStartSample = 0) (hpad : ps.paddingSamples = 0)
    (hnoloop : p.looping = false ∨ ps.hasLoopPoints = false)
    (hc : 0 ≤ p.currentSample) (hc32 : p.currentSample < 2147483648) :
    ∃ r, (Machine.audioDeviceIOCallbackWithContext fuel p out nc n).1 = some r ∧
      ∀ (i : Nat) (q : ℚ) (k : Int), (i : Int) < n →
        q = accumulate (roundDouble (ps.projectSampleRate / p.deviceSampleRate)) i
          (p.currentSample : ℚ) →
        k = ⌊q⌋ →
        k < ps.audioBuffer.numSamples →
        (0 ≤ k ∧ 0 ≤ min (k + 1) (ps.audioBuffer.numSamples - 1) ∧
          min (k + 1) (ps.audioBuffer.numSamples - 1) ≤ ps.audioBuffer.numSamples - 1) ∧
        ∀ ch, 0 ≤ ch → ch < min nc ps.audioBuffer.numChannels → out.isNull ch = false →
          r.out.samples ch i =
              roundFloat (roundDouble
                (ps.audioBuffer.data ch k +
                  roundDouble
                    (roundDouble (q - (k : ℚ)) *
                      roundFloat
                        (ps.audioBuffer.data ch (min (k + 1) (ps.audioBuffer.numSamples - 1)) -
                          ps.audioBuffer.data ch k)))) ∧
            (q = (k : ℚ) → roundFloat (ps.audioBuffer.data ch k) = ps.audioBuffer.data ch k →
              r.out.samples ch i = ps.audioBuffer.data ch k) := by
  have hup := Machine.updateResamplingState_rendering_machine p ps hps hN hsr hdr
  rw [Machine.callback_rendering_machine fuel p ps out nc n hps hplay hN hsr hdr]
  generalize Machine.updateResamplingState p = p1 at hup ⊢
  have h1 : p1.resamplingActive = true := by rw [hup]; simp [hact]
  have h2 : p1.resamplingRatio = roundDouble (ps.projectSampleRate / p.deviceSampleRate) := by
    rw [hup]; simp [hact]
  have h3 : p1.fractionalSample = (p.currentSample : ℚ) := by rw [hup]
  have h4 : (p1.looping && ps.hasLoopPoints) = false := by
    have : p1.looping = p.looping := by rw [hup]
    rw [this]
    rcases hnoloop with h | h <;> simp [h]
  rw [if_pos h1]
  refine ⟨_, rfl, ?_⟩
  intro i q k hi hq hk hkN
  obtain ⟨c1, c2, c3, c4, c5, c6, c7, c8, c9⟩ :=
    Machine.RenderCtx.make_plain_machine p1 ps nc n htrim hpad hN32 hN h4
  generalize Machine.RenderCtx.make p1 ps nc n = c at c1 c2 c3 c4 c5 c6 c7 c8 c9 ⊢
  have hR : c.resamplingRatio = roundDouble (ps.projectSampleRate / p.deviceSampleRate) :=
    c8.trans h2
  have hratio : 0 ≤ roundDouble (ps.projectSampleRate / p.deviceSampleRate) :=
    roundDouble_nonneg (div_nonneg hsr.le hdr.le)
  have hcq : (0 : ℚ) ≤ (p.currentSample : ℚ) := by exact_mod_cast hc
  have hcd : roundDouble (p.currentSample : ℚ) = (p.currentSample : ℚ) :=
    roundDouble_intCast _ (by rw [abs_of_nonneg hc]; omega)
  have hq0 : 0 ≤ q := by
    rw [hq]
    exact hcq.trans (le_accumulate _ hratio i _ hcd)
  have hk0 : 0 ≤ k := by rw [hk]; exact Int.floor_nonneg.mpr hq0
  refine ⟨⟨hk0, by omega, min_le_right _ _⟩, ?_⟩
  intro ch hch0 hch hnull
  have hqN : q < (ps.audioBuffer.numSamples : ℚ) := by
    rw [hk] at hkN
    exact Int.floor_lt.mp hkN
  have hframe := Machine.resampleLoop_frame c c1 c2 c3 (c4.trans c5.symm)
    (by rw [c5]; exact hN32) (by rw [hR]; exact hratio) c.numSamples.toNat 0
    { sourcePos := p1.fractionalSample, playing := p1.playing,
      out := (Machine.clearOutput nc n out 0).1, wrapFrames := [] }
    (by
      show (0 : ℚ) ≤ p1.fractionalSample
      rw [h3]; exact hcq)
    (by
      show roundDouble p1.fractionalSample = p1.fractionalSample
      rw [h3]; exact hcd)
    i (by rw [c9]; omega)
    (by
      show accumulate c.resamplingRatio i p1.fractionalSample < (c.totalSamples : ℚ)
      rw [hR, h3, c5, ← hq]
      exact hqN)
    ch hch0 (by rw [c6]; exact hch)
    (by
      show (Machine.clearOutput nc n out 0).1.isNull ch = false
      rw [Machine.clearOutput_isNull_machine]; exact hnull)
  dsimp only at hframe
  rw [hR, h3, ← hq, ← hk, c5, c7, zero_add] at hframe
  rw [Machine.renderResampled_out, h3]
  have hval : (Machine.resampleLoop c c.numSamples.toNat 0
      { sourcePos := (p.currentSample : ℚ), playing := p1.playing,
        out := (Machine.clearOutput nc n out 0).1, wrapFrames := [] }).1.state.out.samples ch i =
      roundFloat (roundDouble
        (ps.audioBuffer.data ch k +
          roundDouble
            (roundDouble (q - (k : ℚ)) *
              roundFloat
                (ps.audioBuffer.data ch (min (k + 1) (ps.audioBuffer.numSamples - 1)) -
                  ps.audioBuffer.data ch k)))) := hframe
  refine ⟨hval, ?_⟩
  intro hf hfloat
  rw [hval, hf, sub_self, roundDouble_zero, zero_mul, roundDouble_zero, add_zero,
    roundDouble_of_roundFloat _ hfloat, hfloat]

/-- C26 (witness). The hypotheses hold for `sixthPlayer` (8 kHz on a device
at 48 kHz) with a block of six frames. -/
theorem resampling_interpolates_witness :
    (|roundDouble (sixthProject.projectSampleRate - sixthPlayer.deviceSampleRate)| >
        Machine.sampleRateToleranceHz) ∧
      ∃ r, (Machine.audioDeviceIOCallbackWithContext 0 sixthPlayer silentOutput 2 6).1 = some r ∧
        ∀ (i : Nat) (q : ℚ) (k : Int), (i : Int) < 6 →
          q = accumulate (roundDouble (sixthProject.projectSampleRate /
            sixthPlayer.deviceSampleRate)) i (sixthPlayer.currentSample : ℚ) →
          k = ⌊q⌋ →
          k < sixthProject.audioBuffer.numSamples →
          (0 ≤ k ∧ 0 ≤ min (k + 1) (sixthProject.audioBuffer.numSamples - 1) ∧
            min (k + 1) (sixthProject.audioBuffer.numSamples - 1) ≤
              sixthProject.audioBuffer.numSamples - 1) ∧
          ∀ ch, 0 ≤ ch → ch < min 2 sixthProject.audioBuffer.numChannels →
            silentOutput.isNull ch = false →
            r.out.samples ch i =
                roundFloat (roundDouble
                  (sixthProject.audioBuffer.data ch k +
                    roundDouble
                      (roundDouble (q - (k : ℚ)) *
                        roundFloat
                          (sixthProject.audioBuffer.data ch
                              (min (k + 1) (sixthProject.audioBuffer.numSamples - 1)) -
                            sixthProject.audioBuffer.data ch k)))) ∧
              (q = (k : ℚ) →
                roundFloat (sixthProject.audioBuffer.data ch k) =
                  sixthProject.audioBuffer.data ch k →
                r.out.samples ch i = sixthProject.audioBuffer.data ch k) := by
  have hact : |roundDouble (sixthProject.projectSampleRate - sixthPlayer.deviceSampleRate)| >
      Machine.sampleRateToleranceHz := by
    have e : sixthProject.projectSampleRate - sixthPlayer.deviceSampleRate =
        ((-40000 : Int) : ℚ) := by
      norm_num [sixthProject, sixthPlayer]
    rw [e, roundDouble_intCast _ (by norm_num)]
    unfold Machine.sampleRateToleranceHz
    rw [roundDouble_tenth]
    norm_num
  exact ⟨hact, resampling_interpolates 0 sixthPlayer sixthProject silentOutput 2 6 rfl rfl
    (by decide) (by decide) (by norm_num [sixthProject]) (by norm_num [sixthPlayer]) hact rfl rfl
    (Or.inl rfl) (by decide) (by decide)⟩

/-! ## C27: the pass-through render loop and `int` overflow -/

/-- C27 (failing input). `overflowProject`: one frame, stale trim start 7 and
stale loop window `[0, 4)`, padding `2^31 - 2`; the cursor is at the virtual
sample `-2`; equal rates; a block of four frames.  Every value fits a 32-bit
`int`, and `effectiveLength = 1 - 0 + (2^31 - 2) = 2^31 - 1`.

Looping off: `effectiveLength - currentSample = 2^31 + 1` wraps to
`1 - 2^31`, so `samplesToWrite` is 0 and the branch `samplesToWrite <= 0`
is taken in the first iteration: the callback returns with playback
stopped, the cursor still at `-2` and the block silent.

Looping on: `(int) paddingSamples - currentSample = 2^31` wraps to `-2^31`,
the padding branch adds this count to `samplesWritten`, after which
`numSamples - samplesWritten` wraps to a negative number: every further
iteration takes the branch `samplesToWrite <= 0` and goes back to the loop
start, and the loop is not left with any fuel. -/
theorem passThrough_loop_overflows :
    (Machine.samplesToWrite (Machine.RenderCtx.make overflowPlayer overflowProject 2 4)
        { currentSample := -2, samplesWritten := 0, playing := true, out := silentOutput,
          wrapFrames := [] } = 0 ∧
      ∃ r, (Machine.audioDeviceIOCallbackWithContext 4 overflowPlayer staleOutput 2 4).1 =
          some r ∧
        r.player.playing = false ∧ r.player.currentSample = -2 ∧
        ∀ ch i, 0 ≤ ch → ch < 2 → 0 ≤ i → i < 4 → r.out.samples ch i = 0) ∧
      ∀ fuel : Nat,
        (Machine.audioDeviceIOCallbackWithContext fuel overflowLoopPlayer silentOutput 2 4).1 =
          none := by
  have hctx : ∀ (looping : Bool),
      Machine.RenderCtx.make
        { overflowPlayer with looping := looping, resamplingActive := false,
                              resamplingRatio := 1,
                              fractionalSample := (overflowPlayer.currentSample : ℚ) }
        overflowProject 2 4 =
        { numOutputChannels := 2, numSamples := 4, buffer := overflowProject.audioBuffer,
          totalSamples := 1, sourceSampleRate := 44100, resamplingRatio := 1,
          paddingSamples := 2147483646, effectiveStart := 0, hasLoop := looping,
          loopStart := 0, loopEnd := if looping then 4 else 1,
          effectiveLength := 2147483647, channelCount := 2 } := by
    intro looping
    cases looping <;>
      simp [Machine.RenderCtx.make, overflowPlayer, overflowProject, toInt32,
        MSUProjectState.getPaddingSamples, MSUProjectState.getEffectivePlaybackStart,
        MSUProjectState.hasLoopPoints, MSUProjectState.getSampleRate,
        MSUProjectState.getLoopStart, MSUProjectState.getLoopEnd, jmax, jmin]
  refine ⟨⟨?_, ?_⟩, ?_⟩
  · simp [Machine.samplesToWrite, Machine.RenderCtx.make, overflowPlayer, overflowProject,
      toInt32, MSUProjectState.getPaddingSamples, MSUProjectState.getEffectivePlaybackStart,
      MSUProjectState.hasLoopPoints, jmax]
  · rw [Machine.callback_rendering_machine 4 overflowPlayer overflowProject _ _ _ rfl rfl
      (by decide) (by norm_num [overflowProject]) (by norm_num [overflowPlayer])]
    rw [Machine.updateResamplingState_equal_rates overflowPlayer overflowProject rfl
      (by decide) (by norm_num [overflowProject]) rfl]
    rw [if_neg (by simp)]
    have h := hctx false
    simp only [overflowPlayer] at h ⊢
    rw [h]
    simp only [Machine.renderPassThrough]
    rw [Machine.passLoop_break_machine _ 3 _
      { currentSample := -2, samplesWritten := 0, playing := false,
        out := (Machine.clearOutput 2 4 (Machine.clearOutput 2 4 staleOutput 0).1 0).1,
        wrapFrames := [] }
      (Machine.clearOutput 2 4 (Machine.clearOutput 2 4 staleOutput 0).1 0).2 (by decide)
      (by
        simp [Machine.passBody, Machine.passWrite, Machine.samplesToWrite, toInt32, jmax])]
    refine ⟨_, rfl, rfl, rfl, ?_⟩
    intro ch i hch0 hch hi0 hi
    simp [Machine.finishPassThrough, Machine.clearOutput, OutputChannels.clearRange, toInt32,
      staleOutput, hch0, hch, hi0, hi]
  · intro fuel
    rw [Machine.callback_rendering_machine fuel overflowLoopPlayer overflowProject _ _ _ rfl rfl
      (by decide) (by norm_num [overflowProject]) (by norm_num [overflowLoopPlayer, overflowPlayer])]
    rw [Machine.updateResamplingState_equal_rates overflowLoopPlayer overflowProject rfl
      (by decide) (by norm_num [overflowProject]) rfl]
    rw [if_neg (by simp)]
    have h := hctx true
    simp only [overflowLoopPlayer, overflowPlayer] at h ⊢
    rw [h]
    simp only [Machine.renderPassThrough, Option.map_eq_none']
    cases fuel with
    | zero => rw [Machine.passLoop_zero _ _ (by decide)]
    | succ f =>
      rw [Machine.passLoop_step_machine _ f _
        { currentSample := 2147483646, samplesWritten := -2147483648, playing := true,
          out := (Machine.clearOutput 2 4 silentOutput 0).1.clearRange 2 0 (-2147483648),
          wrapFrames := [] }
        [.outputWrite 0 (-2147483648)] (by decide)
        (by
          simp [Machine.passBody, Machine.passWrite, Machine.samplesToWrite, toInt32, jmax])]
      rw [Machine.passLoop_stalls_wrapped _ rfl f _ (by decide) (by decide)]

/-! ## C28: index safety of the render and `int` overflow -/

/-- C28 (failing input). `overflowLoopPlayer` on `overflowProject` (one
frame, stale trim start 7 and loop window `[0, 4)`, padding `2^31 - 2`,
cursor `-2`, looping on, equal rates), a block of four frames.  After
`clearOutput (0)` the first iteration of the pass-through loop is in the
padding region and computes the count
`jmin (4, (int) paddingSamples - currentSample)`, where the difference
`2^31` wraps to `-2^31`: it calls `clear (outputChannelData[ch] + 0,
-2147483648)`, a write with a negative count, for one unit of fuel and for
every larger one.  The resampling path in the same state (the device at
48 kHz) clamps every buffer position and writes single frames: all its
accesses are in bounds. -/
theorem padding_clear_count_overflows :
    (Machine.audioDeviceIOCallbackWithContext 1 overflowLoopPlayer silentOutput 2 4).2 =
        [.outputWrite 0 4, .outputWrite 0 (-2147483648)] ∧
      (∀ fuel : Nat, 1 ≤ fuel →
        (Machine.audioDeviceIOCallbackWithContext fuel overflowLoopPlayer silentOutput 2 4).2 =
          [.outputWrite 0 4, .outputWrite 0 (-2147483648)]) ∧
      ¬ Access.allInBounds overflowProject.audioBuffer.numSamples 4
        (Machine.audioDeviceIOCallbackWithContext 1 overflowLoopPlayer silentOutput 2 4).2 ∧
      Access.allInBounds overflowProject.audioBuffer.numSamples 4
        (Machine.audioDeviceIOCallbackWithContext 1
          { overflowLoopPlayer with deviceSampleRate := 48000 } silentOutput 2 4).2 := by
  have hacc : ∀ fuel : Nat, 1 ≤ fuel →
      (Machine.audioDeviceIOCallbackWithContext fuel overflowLoopPlayer silentOutput 2 4).2 =
        [.outputWrite 0 4, .outputWrite 0 (-2147483648)] := by
    intro fuel hfuel
    obtain ⟨f, rfl⟩ : ∃ f, fuel = f + 1 := ⟨fuel - 1, by omega⟩
    rw [Machine.callback_rendering_machine (f + 1) overflowLoopPlayer overflowProject _ _ _ rfl rfl
      (by decide) (by norm_num [overflowProject])
      (by norm_num [overflowLoopPlayer, overflowPlayer])]
    rw [Machine.updateResamplingState_equal_rates overflowLoopPlayer overflowProject rfl
      (by decide) (by norm_num [overflowProject]) rfl]
    rw [if_neg (by simp)]
    have hctx : Machine.RenderCtx.make
        { overflowLoopPlayer with resamplingActive := false, resamplingRatio := 1,
                                  fractionalSample := (overflowLoopPlayer.currentSample : ℚ) }
        overflowProject 2 4 =
        { numOutputChannels := 2, numSamples := 4, buffer := overflowProject.audioBuffer,
          totalSamples := 1, sourceSampleRate := 44100, resamplingRatio := 1,
          paddingSamples := 2147483646, effectiveStart := 0, hasLoop := true,
          loopStart := 0, loopEnd := 4, effectiveLength := 2147483647, channelCount := 2 } := by
      simp [Machine.RenderCtx.make, overflowLoopPlayer, overflowPlayer, overflowProject, toInt32,
        MSUProjectState.getPaddingSamples, MSUProjectState.getEffectivePlaybackStart,
        MSUProjectState.hasLoopPoints, MSUProjectState.getSampleRate,
        MSUProjectState.getLoopStart, MSUProjectState.getLoopEnd, jmax, jmin]
    rw [hctx]
    simp only [Machine.renderPassThrough, overflowLoopPlayer, overflowPlayer]
    rw [Machine.passLoop_step_machine _ f _
      { currentSample := 2147483646, samplesWritten := -2147483648, playing := true,
        out := (Machine.clearOutput 2 4 silentOutput 0).1.clearRange 2 0 (-2147483648),
        wrapFrames := [] }
      [.outputWrite 0 (-2147483648)] (by decide)
      (by
        simp [Machine.passBody, Machine.passWrite, Machine.samplesToWrite, toInt32, jmax])]
    rw [Machine.passLoop_stalls_wrapped _ rfl f _ (by decide) (by decide)]
    simp [Machine.clearOutput, toInt32]
  refine ⟨hacc 1 le_rfl, hacc, ?_, ?_⟩
  · rw [hacc 1 le_rfl]
    intro h
    have h2 := h (.outputWrite 0 (-2147483648)) (by simp)
    exact absurd h2.2.1 (by decide)
  · apply Machine.callback_resampled_inBounds 1 _ overflowProject _ _ _ rfl rfl (by decide)
      (by decide) (by norm_num [overflowProject]) (by norm_num) (by decide) (by decide)
    rw [Machine.updateResamplingState_rendering_machine
      { overflowLoopPlayer with deviceSampleRate := 48000 } overflowProject rfl (by decide)
      (by norm_num [overflowProject]) (by norm_num)]
    have hdiff : roundDouble (overflowProject.projectSampleRate - 48000) = -3900 := by
      have e : overflowProject.projectSampleRate - 48000 = ((-3900 : Int) : ℚ) := by
        norm_num [overflowProject]
      rw [e, roundDouble_intCast _ (by norm_num)]
      norm_num
    have hact : |roundDouble (overflowProject.projectSampleRate - 48000)| >
        Machine.sampleRateToleranceHz := by
      rw [hdiff]
      unfold Machine.sampleRateToleranceHz
      rw [roundDouble_tenth]
      norm_num
    simp [hact]


/-! ## C29: the PCM sample codec round trip -/

/-- C29. With the decoding `s / 32768` of `AudioFileHandler::loadMSU1PCMFile`
and the encoding `trunc (clamp (x, -1, 1) * 32767)` of `MSU1Exporter`
(`exportPCM` and `convertFloatToInt16`), every `int16_t` value `s` is encoded
back as `s - sign s`: the round trip keeps `s` exactly when `s = 0`, and
lowers the magnitude of every other sample by exactly 1. -/
theorem pcm_codec_round_trip (s : Int) (h1 : -32768 ≤ s) (h2 : s ≤ 32767) :
    MSU1Exporter.int16Sample (AudioFileHandler.int16ToFloat s) = s - Int.sign s ∧
      MSU1Exporter.convertFloatToInt16 [AudioFileHandler.int16ToFloat s] = [s - Int.sign s] ∧
      (MSU1Exporter.int16Sample (AudioFileHandler.int16ToFloat s) = s ↔ s = 0) ∧
      (s ≠ 0 → |MSU1Exporter.int16Sample (AudioFileHandler.int16ToFloat s)| = |s| - 1) := by
  have hmain := int16Sample_int16ToFloat s h1 h2
  have hconv : MSU1Exporter.convertFloatToInt16 [AudioFileHandler.int16ToFloat s] =
      [MSU1Exporter.int16Sample (AudioFileHandler.int16ToFloat s)] := rfl
  refine ⟨hmain, by rw [hconv, hmain], ?_, ?_⟩
  · rw [hmain]
    constructor
    · intro h
      have : Int.sign s = 0 := by omega
      exact Int.sign_eq_zero_iff_zero.mp this
    · intro h; subst h; rfl
  · intro hne
    rw [hmain]
    rcases lt_or_gt_of_ne hne with hneg | hpos
    · rw [Int.sign_eq_neg_one_of_neg hneg, abs_of_nonpos (by omega), abs_of_neg hneg]
      omega
    · rw [Int.sign_eq_one_of_pos hpos, abs_of_nonneg (by omega), abs_of_pos hpos]

/-- Witness of C29: the most negative sample, `-32768`, comes back as `-32767`. -/
theorem pcm_codec_round_trip_witness :
    MSU1Exporter.int16Sample (AudioFileHandler.int16ToFloat (-32768)) =
      -32768 - Int.sign (-32768) :=
  (pcm_codec_round_trip (-32768) (by decide) (by decide)).1


/-! ## C30: the two PCM decoders differ by the 8-byte header -/

/-- C30 (as stated, refuted). A file of `2^31` bytes that starts with `MSU1`
and is read in full: `loadPCMIntoBuffer` passes the request
`static_cast<int> (fileSize)` to `read` and compares the `int` it gets back
with `fileSize`, so it leaves an empty buffer where the claim has
`⌊2^31 / 4⌋ = 536870912` frames. -/
theorem preview_decoder_rejects_two_gib :
    (pcmStreamOfSize 2147483648).openedOk = true ∧
      (pcmStreamOfSize 2147483648).readsInFull ∧
      (pcmStreamOfSize 2147483648).totalLength = 2147483648 ∧
      (pcmStreamOfSize 2147483648).byte 0 = 77 ∧ (pcmStreamOfSize 2147483648).byte 1 = 83 ∧
      (pcmStreamOfSize 2147483648).byte 2 = 85 ∧ (pcmStreamOfSize 2147483648).byte 3 = 49 ∧
      (idlePreviewPlayer.loadPCMIntoBuffer (pcmFileOfSize 2147483648)).pcmBuffer.numSamples
        = 0 ∧
      (2147483648 : Int) / 4 = 536870912 := by
  refine ⟨rfl, ?_, rfl, rfl, rfl, rfl, rfl, ?_, by decide⟩
  · intro pos n h0 hn hle
    simp only [pcmStreamOfSize] at hle ⊢
    omega
  · rw [loadPCMIntoBuffer_too_big _ _ (by decide)]
    rfl

/-- C30 (amended). For every MSU-1 PCM file of `12 ≤ L < 2^31` bytes that
starts with `MSU1` and is read in full, `PreviewPlayer::loadPCMIntoBuffer`
produces `⌊L / 4⌋` stereo frames decoded from byte 0, so the header is
decoded as its first two frames (`MS`, `U1`, then the loop point);
`AudioFileHandler::loadMSU1PCMFile` succeeds with `⌊(L - 8) / 4⌋` frames
decoded from byte 8, the count `getAudioFileInfo` reports; and preview frame
`i + 2` equals loader frame `i` on both channels for every loader frame `i`.
For `L ≥ 2^31` the preview decoder leaves an empty buffer. -/
theorem decoders_differ_by_header (p : PreviewPlayer) (file : PreviewFile)
    (buffer : AudioBuffer) (sampleRate : ℚ) (loopPoint : Int)
    (hopen : file.pcmStream.openedOk = true) (hfull : file.pcmStream.readsInFull)
    (hmagic : file.pcmStream.byte 0 = 77 ∧ file.pcmStream.byte 1 = 83 ∧
      file.pcmStream.byte 2 = 85 ∧ file.pcmStream.byte 3 = 49)
    (h12 : 12 ≤ file.pcmStream.totalLength) :
    (file.pcmStream.totalLength < 2147483648 →
    ((p.loadPCMIntoBuffer file).pcmBuffer.numChannels = 2 ∧
        (p.loadPCMIntoBuffer file).pcmBuffer.numSamples = file.pcmStream.totalLength / 4 ∧
        ∀ i, 0 ≤ i → i < file.pcmStream.totalLength / 4 →
          (p.loadPCMIntoBuffer file).pcmBuffer.data 0 i =
              (file.pcmStream.int16At (4 * i) : ℚ) / 32768 ∧
            (p.loadPCMIntoBuffer file).pcmBuffer.data 1 i =
              (file.pcmStream.int16At (4 * i + 2) : ℚ) / 32768) ∧
      ((p.loadPCMIntoBuffer file).pcmBuffer.data 0 0 = (toInt16 (77 + 256 * 83) : ℚ) / 32768 ∧
        (p.loadPCMIntoBuffer file).pcmBuffer.data 1 0 =
          (toInt16 (85 + 256 * 49) : ℚ) / 32768) ∧
      ((AudioFileHandler.loadMSU1PCMFile file.pcmStream buffer sampleRate loopPoint).ok = true ∧
        (AudioFileHandler.loadMSU1PCMFile file.pcmStream buffer sampleRate loopPoint
          ).buffer.numChannels = 2 ∧
        (AudioFileHandler.loadMSU1PCMFile file.pcmStream buffer sampleRate loopPoint
          ).buffer.numSamples = (file.pcmStream.totalLength - 8) / 4 ∧
        AudioFileHandler.getAudioFileInfo file.pcmStream.totalLength =
          some (44100, 2, (file.pcmStream.totalLength - 8) / 4) ∧
        ∀ i, 0 ≤ i → i < (file.pcmStream.totalLength - 8) / 4 →
          (AudioFileHandler.loadMSU1PCMFile file.pcmStream buffer sampleRate loopPoint
              ).buffer.data 0 i = (file.pcmStream.int16At (8 + 4 * i) : ℚ) / 32768 ∧
            (AudioFileHandler.loadMSU1PCMFile file.pcmStream buffer sampleRate loopPoint
              ).buffer.data 1 i = (file.pcmStream.int16At (8 + 4 * i + 2) : ℚ) / 32768) ∧
      (∀ i, 0 ≤ i → i < (file.pcmStream.totalLength - 8) / 4 →
        i + 2 < (p.loadPCMIntoBuffer file).pcmBuffer.numSamples ∧
        ∀ channel, channel = 0 ∨ channel = 1 →
          (p.loadPCMIntoBuffer file).pcmBuffer.data channel (i + 2) =
            (AudioFileHandler.loadMSU1PCMFile file.pcmStream buffer sampleRate loopPoint
              ).buffer.data channel i)) ∧
      (2147483648 ≤ file.pcmStream.totalLength →
        (p.loadPCMIntoBuffer file).pcmBuffer.numSamples = 0) := by
  refine ⟨fun h32 => ?_, fun hbig => by rw [loadPCMIntoBuffer_too_big p file hbig]; rfl⟩
  rw [loadPCMIntoBuffer_ok p file hopen hfull (by omega) h32,
    loadMSU1PCMFile_ok file.pcmStream buffer sampleRate loopPoint hopen hfull hmagic h12 h32]
  have e1 : ∀ i : Int, i * 4 = 4 * i := fun i => by ring
  have e2 : ∀ i : Int, 8 + i * 2 * 2 = 8 + 4 * i := fun i => by ring
  have e3 : ∀ i : Int, 8 + (i * 2 + 1) * 2 = 8 + 4 * i + 2 := fun i => by ring
  have e4 : ∀ i : Int, 4 * (i + 2) = 8 + 4 * i := fun i => by ring
  refine ⟨⟨rfl, rfl, ?_⟩, ⟨?_, ?_⟩, ⟨rfl, rfl, rfl, ?_, ?_⟩, ?_⟩
  · intro i _ _
    simp [e1]
  · simp [FileInputStream.int16At, hmagic.1, hmagic.2.1]
  · simp [FileInputStream.int16At, hmagic.2.2.1, hmagic.2.2.2]
  · unfold AudioFileHandler.getAudioFileInfo
    rw [if_neg (by omega), Int.tdiv_eq_ediv (by omega) (by omega)]
  · intro i _ _
    simp [e2, e3, AudioFileHandler.int16ToFloat]
  · intro i hi0 hi
    refine ⟨by simp only; omega, ?_⟩
    intro channel hch
    rcases hch with h | h <;> subst h <;>
      simp [e1, e2, e3, e4, AudioFileHandler.int16ToFloat]

/-- Witness of C30 (amended): a file of 16 bytes, header and two frames. -/
theorem decoders_differ_by_header_witness :
    (idlePreviewPlayer.loadPCMIntoBuffer (pcmFileOfSize 16)).pcmBuffer.numSamples = 16 / 4 ∧
      (AudioFileHandler.loadMSU1PCMFile (pcmFileOfSize 16).pcmStream AudioBuffer.empty 0 0
        ).buffer.numSamples = (16 - 8) / 4 :=
  have hfull : (pcmFileOfSize 16).pcmStream.readsInFull := by
    intro pos n h0 hn hle
    simp only [pcmFileOfSize, pcmStreamOfSize] at hle ⊢
    omega
  ⟨((decoders_differ_by_header idlePreviewPlayer (pcmFileOfSize 16) AudioBuffer.empty 0 0 rfl
      hfull ⟨rfl, rfl, rfl, rfl⟩ (by decide)).1 (by decide)).1.2.1,
    ((decoders_differ_by_header idlePreviewPlayer (pcmFileOfSize 16) AudioBuffer.empty 0 0 rfl
      hfull ⟨rfl, rfl, rfl, rfl⟩ (by decide)).1 (by decide)).2.2.1.2.2.1⟩

end EMESSYOO
